import Mathlib

/-!
# SceneFlipEngine: walkmap and collision wrapper

A shallow embedding of `engine/walkmap.c` and `engine/collision.cpp`.

Modelling conventions
* `GLfloat`/`float32` values are exact rationals (`ℚ`).
* `uint16_t` values are naturals; a store into a 16 bit field is written `% 65536`.
* A `void *` is an `Option`: `none` is the null pointer.
* `assert(FATAL_ERROR)` and a null dereference end the computation: the function
  returns `none`.
* Box2D is an external library.  A shape is given by its point test and its
  bounding box, a world by the list of its bodies.
-/

namespace SceneFlip

/-! ## Box2D data -/

/-- Box2D planar vector. -/
structure b2Vec2 where
  x : ℚ
  y : ℚ
deriving DecidableEq

/-- Box2D axis aligned bounding box. -/
structure b2AABB where
  lowerBound : b2Vec2
  upperBound : b2Vec2
deriving DecidableEq

/-- Box2D collision filter; the defaults are those of `b2Filter()`. -/
structure b2Filter where
  categoryBits : Nat := 1
  maskBits : Nat := 65535
  groupIndex : Int := 0
deriving DecidableEq

/-- Box2D shape in body-local coordinates: its point test (`b2Shape::TestPoint`) and its
bounding box (`b2Shape::ComputeAABB`), which encloses the shape. -/
structure b2Shape where
  TestPoint : b2Vec2 → Bool
  aabb : b2AABB
  encloses : ∀ p, TestPoint p = true →
    aabb.lowerBound.x ≤ p.x ∧ aabb.lowerBound.y ≤ p.y ∧
      p.x ≤ aabb.upperBound.x ∧ p.y ≤ aabb.upperBound.y

/-- Box2D `b2TestOverlap` of two boxes. -/
def b2TestOverlap (a b : b2AABB) : Bool :=
  let d1x := b.lowerBound.x - a.upperBound.x
  let d1y := b.lowerBound.y - a.upperBound.y
  let d2x := a.lowerBound.x - b.upperBound.x
  let d2y := a.lowerBound.y - b.upperBound.y
  if d1x > 0 ∨ d1y > 0 then false
  else if d2x > 0 ∨ d2y > 0 then false
  else true

/-- The `struct collision_object`: one fixture together with the state of the body it
is attached to (bodies never rotate: `SetTransform` is always called with angle 0).
`body` is the identity of that body (its address); the creation functions below leave
it to their caller, which knows the world the body is created in. -/
structure collision_object where
  position : b2Vec2
  velocity : b2Vec2
  shape : b2Shape
  filter : b2Filter
  body : Nat := 0

/-- Box2D `b2Fixture::TestPoint`: the shape test in body-local coordinates. -/
def collision_object.TestPoint (co : collision_object) (p : b2Vec2) : Bool :=
  co.shape.TestPoint ⟨p.x - co.position.x, p.y - co.position.y⟩

/-- The box held by the broad phase for the fixture, in world coordinates. -/
def collision_object.aabb (co : collision_object) : b2AABB :=
  ⟨⟨co.shape.aabb.lowerBound.x + co.position.x, co.shape.aabb.lowerBound.y + co.position.y⟩,
   ⟨co.shape.aabb.upperBound.x + co.position.x, co.shape.aabb.upperBound.y + co.position.y⟩⟩

/-- A body of a world: its fixture and its user data pointer. -/
structure b2Body (α : Type) where
  fixture : collision_object
  userData : Option α

/-- The `struct collision_world`: the bodies, in the order in which the world reports
them. -/
abbrev collision_world (α : Type) := List (b2Body α)

/-! ## collision.cpp -/

/-- `collision_object_copy_collisiondata`. -/
def collision_object_copy_collisiondata (to_ from_ : collision_object) : collision_object :=
  { to_ with filter := from_.filter }

/-- `collision_object_position`. -/
def collision_object_position (co : collision_object) : b2Vec2 :=
  co.position

/-- `collision_object_set_position`. -/
def collision_object_set_position (co : collision_object) (p : b2Vec2) : collision_object :=
  { co with position := p }

/-- `collision_object_collision_mask`. -/
def collision_object_collision_mask (co : collision_object) : Nat :=
  co.filter.maskBits

/-- `box2dQueryWorldCallback::ReportFixture`: one step of the query, from the current
`match` to the next one. -/
def ReportFixture {α β : Type} (p : b2Vec2) (callback : Option α → Option α → β → Option α)
    (callbackdata : β) (match_ : Option α) (f : b2Body α) : Option α :=
  if !f.fixture.TestPoint p then match_
  else
    let test := f.userData
    match match_ with
    | none => test
    | some m => callback (some m) test callbackdata

/-- Box2D `b2World::QueryAABB`: the bodies whose box overlaps the query box. -/
def QueryAABB {α : Type} (world : collision_world α) (aabb : b2AABB) : List (b2Body α) :=
  world.filter (fun f => b2TestOverlap f.fixture.aabb aabb)

/-- `collision_world_hittest`. -/
def collision_world_hittest {α β : Type} (world : collision_world α) (pos : b2Vec2)
    (callback : Option α → Option α → β → Option α) (callbackdata : β) : Option α :=
  let d : b2Vec2 := ⟨1 / 1000, 1 / 1000⟩
  let aabb : b2AABB := ⟨⟨pos.x - d.x, pos.y - d.y⟩, ⟨pos.x + d.x, pos.y + d.y⟩⟩
  (QueryAABB world aabb).foldl (ReportFixture pos callback callbackdata) none

/-- `collision_object_hittest`. -/
def collision_object_hittest (co : collision_object) (p : b2Vec2) (collision_flags : Nat) :
    Bool :=
  if co.filter.maskBits &&& collision_flags = 0 then false
  else co.TestPoint p

/-- Filter of a fixture made by `collision_object_create_polygon`, `_triangle` or
`_chain`: `categoryBits = 1 << group` stored in 16 bits, `maskBits = mask_flags`. -/
def create_filter (group mask_flags : Nat) : b2Filter :=
  { categoryBits := (1 <<< group) % 65536, maskBits := mask_flags }

/-- `collision_object_create_circle`: a body at `pos` with a default filter. -/
def collision_object_create_circle (circle : ℚ → b2Shape) (pos : b2Vec2) (radius : ℚ) :
    collision_object :=
  { position := pos, velocity := ⟨0, 0⟩, shape := circle radius, filter := {} }

/-- `collision_object_create_polygon`: a body at the origin. -/
def collision_object_create_polygon (polygon : List b2Vec2 → b2Shape) (vertices : List b2Vec2)
    (group mask_flags : Nat) : collision_object :=
  { position := ⟨0, 0⟩, velocity := ⟨0, 0⟩, shape := polygon vertices,
    filter := create_filter group mask_flags }

/-- `collision_object_create_triangle`: a body at the origin. -/
def collision_object_create_triangle (polygon : List b2Vec2 → b2Shape) (a b c : b2Vec2)
    (group mask_flags : Nat) : collision_object :=
  { position := ⟨0, 0⟩, velocity := ⟨0, 0⟩, shape := polygon [a, b, c],
    filter := create_filter group mask_flags }

/-! ## walkmap.c -/

/-- A `GLfloat[3]`. -/
structure vec3 where
  x : ℚ
  y : ℚ
  z : ℚ
deriving DecidableEq

/-- The planar part of a `GLfloat[3]` read as a `GLfloat[2]`. -/
def vec3.xy (p : vec3) : b2Vec2 := ⟨p.x, p.y⟩

/-- The `struct walkmap_triangle`. -/
structure walkmap_triangle where
  group : Nat
  group_interaction_mask : Nat
  a : vec3
  b : vec3
  c : vec3
  ca : vec3
  cb : vec3
  invdet : ℚ
  co : collision_object

/-- `walkmap_triangle_height_at_point`. -/
def walkmap_triangle_height_at_point (t : walkmap_triangle) (xy : b2Vec2) : ℚ :=
  let dx := xy.x - t.c.x
  let dy := xy.y - t.c.y
  let u := t.invdet * (t.cb.y * dx - t.cb.x * dy)
  let v := -t.invdet * (t.ca.y * dx - t.ca.x * dy)
  u * t.a.z + v * t.b.z + (1 - u - v) * t.c.z

/-- The barycentric weight `u` computed by `walkmap_triangle_height_at_point`. -/
def barycentric_u (t : walkmap_triangle) (xy : b2Vec2) : ℚ :=
  t.invdet * (t.cb.y * (xy.x - t.c.x) - t.cb.x * (xy.y - t.c.y))

/-- The barycentric weight `v` computed by `walkmap_triangle_height_at_point`. -/
def barycentric_v (t : walkmap_triangle) (xy : b2Vec2) : ℚ :=
  -t.invdet * (t.ca.y * (xy.x - t.c.x) - t.ca.x * (xy.y - t.c.y))

/-- The body of the triangle loop of `load_map`, after the record has been read:
the triangle with vertices `a`, `b`, `c`. -/
def load_map_triangle (polygon : List b2Vec2 → b2Shape) (group group_interaction_mask : Nat)
    (a b c : vec3) : walkmap_triangle :=
  let ca : vec3 := ⟨a.x - c.x, a.y - c.y, 0⟩
  let cb : vec3 := ⟨b.x - c.x, b.y - c.y, 0⟩
  { group := group
    group_interaction_mask := group_interaction_mask
    a := a
    b := b
    c := c
    ca := ca
    cb := cb
    invdet := 1 / (cb.y * ca.x - cb.x * ca.y)
    co := collision_object_create_triangle polygon a.xy b.xy c.xy group group_interaction_mask }

/-- The triangle of `load_map_triangle` with the identity of the body that
`collision_object_create_triangle` created for it in the lookup world. -/
def load_map_triangle_body (polygon : List b2Vec2 → b2Shape)
    (group group_interaction_mask : Nat) (a b c : vec3) (body : Nat) : walkmap_triangle :=
  let t := load_map_triangle polygon group group_interaction_mask a b c
  { t with co := { t.co with body := body } }

/-- `walkmap_triangle_hittest_height_filter` on its typed arguments. -/
def walkmap_triangle_hittest_height_filter (current test : walkmap_triangle) (pos : vec3) :
    walkmap_triangle :=
  let test_height := walkmap_triangle_height_at_point test pos.xy
  let current_height := walkmap_triangle_height_at_point current pos.xy
  if |test_height - pos.z| < |current_height - pos.z| then test else current

/-- `walkmap_triangle_hittest_group_filter` on its typed arguments. -/
def walkmap_triangle_hittest_group_filter (current test : walkmap_triangle) (group_mask : Nat) :
    walkmap_triangle :=
  if group_mask &&& (1 <<< test.group) ≠ 0 ∧ ¬ (group_mask &&& (1 <<< current.group) ≠ 0) then
    test
  else current

/-- A typed filter seen through its `void *` signature: both pointers are
dereferenced, so a null argument ends the computation. -/
def as_callback {α β : Type} (f : α → α → β → α) : Option α → Option α → β → Option α :=
  fun current test data =>
    match current, test with
    | some c, some t => some (f c t data)
    | _, _ => none

/-- The fold run by `collision_world_hittest` over the candidates that pass the point
test: the first candidate is the initial match, every later one goes through the
filter. -/
def hittest_fold {α β : Type} (f : α → α → β → α) (data : β) : List α → Option α
  | [] => none
  | c :: cs => some (cs.foldl (fun m t => f m t data) c)

/-- Vertical distance between the query height and the plane of a triangle, as compared
by the height filter. -/
def height_gap (pos : vec3) (t : walkmap_triangle) : ℚ :=
  |walkmap_triangle_height_at_point t pos.xy - pos.z|

/-- The group test of the group filter: the bit `1 << group` is set in the mask. -/
def group_in_mask (group_mask : Nat) (t : walkmap_triangle) : Bool :=
  decide (group_mask &&& (1 <<< t.group) ≠ 0)

/-- The `struct walkmap_border`. -/
structure walkmap_border where
  group : Nat
  group_interaction_mask : Nat
  co : collision_object

/-- One node of the `struct trigger_region_list`; the list itself is a `List`. -/
structure trigger_region where
  callback : Int
  co : collision_object
  group : Nat
  position : vec3

/-- The `struct walkmap_actordata`.  `actor` names the owning actor, `movement_callback`
the function to call (`none` is the null function pointer), and `co` is the state of
the actor's own body in the `collision` world. -/
structure walkmap_actordata where
  actor : Nat
  position : vec3
  radius : ℚ
  current_triangle : Option walkmap_triangle
  movement_callback : Option Nat
  co : collision_object

/-- A body of the `collision` world: a border chain (null user data) or the circle of
an actor (user data is the actor data, which holds the body state in `co`). -/
inductive collision_body where
  | border (co : collision_object)
  | actor (ad : walkmap_actordata)

/-- The `struct walkmap`, without the debug vertex arrays.  `next_body` is the
identity that the next body created in one of the three worlds gets. -/
structure walkmap where
  triangles : List walkmap_triangle
  borders : List walkmap_border
  triggers : List trigger_region
  walkmap_triangle_lookup : collision_world walkmap_triangle
  collision : List collision_body
  trigger_lookup : collision_world trigger_region
  next_body : Nat := 0

/-- The body that `collision_object_create_triangle` adds to the lookup world for a
triangle: its user data is the triangle. -/
def triangle_body (wt : walkmap_triangle) : b2Body walkmap_triangle :=
  { fixture := wt.co, userData := some wt }

/-- `update_actor_data`; `none` is the fatal "Actor outside walkmap". -/
def update_actor_data (w : walkmap) (ad : walkmap_actordata) (prioritize_height : Bool) :
    Option walkmap_actordata :=
  let pos := collision_object_position ad.co
  let wt :=
    if prioritize_height then
      collision_world_hittest w.walkmap_triangle_lookup pos
        (as_callback walkmap_triangle_hittest_height_filter) ad.position
    else
      let mask :=
        match ad.current_triangle with
        | some t => t.group_interaction_mask
        | none => 65535
      collision_world_hittest w.walkmap_triangle_lookup pos
        (as_callback walkmap_triangle_hittest_group_filter) mask
  match wt with
  | none => none
  | some wt =>
    let co := collision_object_copy_collisiondata ad.co wt.co
    let position : vec3 := ⟨pos.x, pos.y, ad.position.z⟩
    some { ad with
      co := co
      current_triangle := some wt
      position := ⟨pos.x, pos.y, walkmap_triangle_height_at_point wt position.xy⟩ }

/-- `walkmap_register_actor`: the new actor data (zeroed by `calloc`, then seeded) and
the walkmap with the actor's body added to the `collision` world. -/
def walkmap_register_actor (circle : ℚ → b2Shape) (w : walkmap) (a : Nat) (pos : vec3)
    (radius : ℚ) : Option (walkmap × walkmap_actordata) :=
  let ad : walkmap_actordata :=
    { actor := a
      movement_callback := none
      radius := radius
      position := ⟨0, 0, pos.z⟩
      current_triangle := none
      co := { collision_object_create_circle circle pos.xy radius with body := w.next_body } }
  match update_actor_data w ad true with
  | none => none
  | some ad =>
    some ({ w with
      collision := collision_body.actor ad :: w.collision
      next_body := w.next_body + 1 }, ad)

/-- `walkmap_set_movement_callback`. -/
def walkmap_set_movement_callback (ad : walkmap_actordata) (movement_callback : Option Nat) :
    walkmap_actordata :=
  { ad with movement_callback := movement_callback }

/-- `walkmap_actor_position`. -/
def walkmap_actor_position (ad : walkmap_actordata) : vec3 :=
  ⟨ad.position.x, ad.position.y, ad.position.z⟩

/-- `walkmap_set_actor_position`. -/
def walkmap_set_actor_position (w : walkmap) (ad : walkmap_actordata) (p : vec3) :
    Option walkmap_actordata :=
  let co := collision_object_set_position ad.co p.xy
  update_actor_data w { ad with co := co, position := ⟨ad.position.x, ad.position.y, p.z⟩ } true

/-- One call of the movement callback: the actor and the two positions it is given. -/
structure movement_event where
  actor : Nat
  new_pos : vec3
  old_pos : vec3

/-- The body of the loop of `walkmap_tick` for one body of the `collision` world. -/
def walkmap_tick_body (w : walkmap) : collision_body → Option (collision_body × List movement_event)
  | collision_body.border co => some (collision_body.border co, [])
  | collision_body.actor ad =>
    match ad.movement_callback with
    | some _ =>
      let old_pos := ad.position
      match update_actor_data w ad false with
      | none => none
      | some ad1 => some (collision_body.actor ad1, [⟨ad1.actor, ad1.position, old_pos⟩])
    | none =>
      match update_actor_data w ad false with
      | none => none
      | some ad1 => some (collision_body.actor ad1, [])

/-- The loop of `walkmap_tick` over the bodies of the `collision` world. -/
def walkmap_tick_loop (w : walkmap) :
    List collision_body → Option (List collision_body × List movement_event)
  | [] => some ([], [])
  | b :: bs =>
    match walkmap_tick_body w b with
    | none => none
    | some (b1, ev) =>
      match walkmap_tick_loop w bs with
      | none => none
      | some (bs1, evs) => some (b1 :: bs1, ev ++ evs)

/-- The state of a body of the `collision` world. -/
def collision_body.co : collision_body → collision_object
  | collision_body.border co => co
  | collision_body.actor ad => ad.co

/-- A body of the `collision` world with its position and velocity replaced. -/
def collision_body.moved (pv : b2Vec2 × b2Vec2) : collision_body → collision_body
  | collision_body.border co => collision_body.border { co with position := pv.1, velocity := pv.2 }
  | collision_body.actor ad =>
    collision_body.actor { ad with co := { ad.co with position := pv.1, velocity := pv.2 } }

/-- `collision_world_tick`: Box2D `b2World::Step` is given by the function `Step`,
which tells the position and velocity of the body of each index after the step. -/
def collision_world_tick (Step : List collision_object → ℚ → Nat → b2Vec2 × b2Vec2)
    (world : List collision_body) (dt : ℚ) : List collision_body :=
  (List.range world.length).zipWith
    (fun i b => b.moved (Step (world.map collision_body.co) dt i)) world

/-- `walkmap_tick`: the walkmap after the tick and the calls of movement callbacks, in
order. -/
def walkmap_tick (Step : List collision_object → ℚ → Nat → b2Vec2 × b2Vec2) (w : walkmap)
    (dt : ℚ) : Option (walkmap × List movement_event) :=
  let w1 := { w with collision := collision_world_tick Step w.collision dt }
  match walkmap_tick_loop w1 w1.collision with
  | none => none
  | some (bodies, events) => some ({ w1 with collision := bodies }, events)

/-- One call of the trigger callback: the actor and the callback handle of the region. -/
structure trigger_event where
  actor : Nat
  callback : Int
deriving DecidableEq

/-- The inner loop of `walkmap_check_triggers`: the regions hit by one actor.  Each
test dereferences `ad->current_triangle`. -/
def walkmap_check_triggers_actor (ad : walkmap_actordata) :
    List trigger_region → Option (List trigger_event)
  | [] => some []
  | tr :: trs =>
    match ad.current_triangle with
    | none => none
    | some t =>
      match walkmap_check_triggers_actor ad trs with
      | none => none
      | some evs =>
        if collision_object_hittest tr.co ad.position.xy ((1 <<< t.group) % 65536) then
          some (⟨ad.actor, tr.callback⟩ :: evs)
        else some evs

/-- The outer loop of `walkmap_check_triggers` over the bodies of the `collision`
world. -/
def walkmap_check_triggers_loop (triggers : List trigger_region) :
    List collision_body → Option (List trigger_event)
  | [] => some []
  | collision_body.border _ :: bs => walkmap_check_triggers_loop triggers bs
  | collision_body.actor ad :: bs =>
    match walkmap_check_triggers_actor ad triggers with
    | none => none
    | some ev =>
      match walkmap_check_triggers_loop triggers bs with
      | none => none
      | some evs => some (ev ++ evs)

/-- `walkmap_check_triggers`: the calls of the trigger callback, in order; `none` when
an actor without a current triangle is dereferenced. -/
def walkmap_check_triggers (w : walkmap) : Option (List trigger_event) :=
  walkmap_check_triggers_loop w.triggers w.collision

/-- `walkmap_register_trigger_region`; `none` is the fatal "Trigger zone outside
walkmap". -/
def walkmap_register_trigger_region (polygon : List b2Vec2 → b2Shape) (w : walkmap) (pos : vec3)
    (vertices : List b2Vec2) (callback : Int) : Option walkmap :=
  match collision_world_hittest w.walkmap_triangle_lookup pos.xy
      (as_callback walkmap_triangle_hittest_height_filter) pos with
  | none => none
  | some wt =>
    let co : collision_object :=
      { collision_object_create_polygon polygon vertices wt.group wt.group_interaction_mask with
        body := w.next_body }
    let tr : trigger_region :=
      { callback := callback
        position := pos
        group := wt.group
        co := collision_object_set_position co pos.xy }
    some { w with
      triggers := w.triggers ++ [tr]
      trigger_lookup := { fixture := tr.co, userData := some tr } :: w.trigger_lookup
      next_body := w.next_body + 1 }

/-! ## Notions used to state the properties -/

/-- The step of the query on a fixture that contains the point. -/
def match_step {α β : Type} (callback : Option α → Option α → β → Option α) (callbackdata : β)
    (match_ : Option α) (f : b2Body α) : Option α :=
  match match_ with
  | none => f.userData
  | some m => callback (some m) f.userData callbackdata

/-- The query box of `collision_world_hittest` around `pos`. -/
def probe (pos : b2Vec2) : b2AABB :=
  ⟨⟨pos.x - 1 / 1000, pos.y - 1 / 1000⟩, ⟨pos.x + 1 / 1000, pos.y + 1 / 1000⟩⟩

/-- The bodies of a world whose fixture contains `pos`, in world order. -/
def containing {α : Type} (world : collision_world α) (pos : b2Vec2) : List (b2Body α) :=
  world.filter (fun f => f.fixture.TestPoint pos)

/-- The triangles of the walkmap that contain `pos`, in the order of the lookup world. -/
def triangles_at (w : walkmap) (pos : b2Vec2) : List walkmap_triangle :=
  (containing w.walkmap_triangle_lookup pos).filterMap (fun f => f.userData)

/-- The state in which `load_map` leaves the triangles: every triangle was built by the
triangle loop from a record with `group < 16`, and the bodies of the lookup world are
the bodies of the triangles. -/
def walkmap.loaded (polygon : List b2Vec2 → b2Shape) (w : walkmap) : Prop :=
  (∀ wt ∈ w.triangles, ∃ group mask a b c body, group < 16 ∧ mask < 65536 ∧
      wt = load_map_triangle_body polygon group mask a b c body) ∧
    (∀ f ∈ w.walkmap_triangle_lookup, ∃ wt ∈ w.triangles, f = triangle_body wt)

/-- `collision_iterator_userdata` on a body of the `collision` world. -/
def collision_body.userdata : collision_body → Option walkmap_actordata
  | collision_body.border _ => none
  | collision_body.actor ad => some ad

/-- The actor data held by a list of bodies, in order. -/
def actors_of (bodies : List collision_body) : List walkmap_actordata :=
  bodies.filterMap collision_body.userdata

/-- The actor data held by the bodies of the `collision` world, in order. -/
def walkmap.actors (w : walkmap) : List walkmap_actordata :=
  actors_of w.collision

/-- The triangle found for an actor by `update_actor_data`: the value of `wt`. -/
def actor_hittest (w : walkmap) (ad : walkmap_actordata) (prioritize_height : Bool) :
    Option walkmap_triangle :=
  if prioritize_height then
    collision_world_hittest w.walkmap_triangle_lookup ad.co.position
      (as_callback walkmap_triangle_hittest_height_filter) ad.position
  else
    collision_world_hittest w.walkmap_triangle_lookup ad.co.position
      (as_callback walkmap_triangle_hittest_group_filter)
      (match ad.current_triangle with
        | some t => t.group_interaction_mask
        | none => 65535)

/-- Some triangle of the walkmap contains the planar point `pos`. -/
def on_walkmap (w : walkmap) (pos : b2Vec2) : Prop :=
  ∃ f ∈ w.walkmap_triangle_lookup, f.fixture.TestPoint pos = true

/-- The cached position of an actor agrees with its body and its current triangle: the
triangle is set, the planar part is the position of the body and the height is the
height of the triangle at that point. -/
def actor_consistent (ad : walkmap_actordata) : Prop :=
  ∃ t, ad.current_triangle = some t ∧ ad.position.x = ad.co.position.x ∧
    ad.position.y = ad.co.position.y ∧
    ad.position.z = walkmap_triangle_height_at_point t ad.position.xy

/-- The filter of the fixture of an actor is the filter of the fixture of its current
triangle: the mask of the triangle and the bit of its group. -/
def filter_inherited (ad : walkmap_actordata) : Prop :=
  ∃ t, ad.current_triangle = some t ∧ ad.co.filter = t.co.filter ∧
    ad.co.filter.maskBits = t.group_interaction_mask ∧
    ad.co.filter.categoryBits = 1 <<< t.group

/-- The condition under which an actor fires a region: its cached position is inside the
polygon of the region and the bit of the group of its current triangle is in the mask
of the region. -/
def trigger_hit (ad : walkmap_actordata) (tr : trigger_region) : Prop :=
  tr.co.TestPoint ad.position.xy = true ∧
    ∃ t, ad.current_triangle = some t ∧ tr.co.filter.maskBits &&& (1 <<< t.group) ≠ 0

/-- The test made by `walkmap_check_triggers` for an actor standing on triangle `t` and a
region. -/
def trigger_test (ad : walkmap_actordata) (t : walkmap_triangle) (tr : trigger_region) : Bool :=
  collision_object_hittest tr.co ad.position.xy ((1 <<< t.group) % 65536)

/-! ## Example data -/

/-- Twice the signed area of the triangle `a b p`. -/
def cross (a b p : b2Vec2) : ℚ :=
  (b.x - a.x) * (p.y - a.y) - (b.y - a.y) * (p.x - a.x)

/-- A triangle as a shape in exact arithmetic: the closed triangle with its bounding box,
for three vertices that are not collinear.  Other vertex lists give the empty shape. -/
def exact_polygon : List b2Vec2 → b2Shape
  | [a, b, c] =>
    { TestPoint := fun p =>
        decide (cross a b c ≠ 0) &&
        ((decide (0 ≤ cross a b p) && decide (0 ≤ cross b c p) && decide (0 ≤ cross c a p)) ||
         (decide (cross a b p ≤ 0) && decide (cross b c p ≤ 0) && decide (cross c a p ≤ 0)))
      aabb := ⟨⟨min a.x (min b.x c.x), min a.y (min b.y c.y)⟩,
               ⟨max a.x (max b.x c.x), max a.y (max b.y c.y)⟩⟩
      encloses := by
        intro p hp
        have combination_bounds : ∀ (α β γ D x a b c lo hi : ℚ), 0 ≤ α → 0 ≤ β → 0 ≤ γ →
            α + β + γ = D → D ≠ 0 → D * x = α * a + β * b + γ * c →
            (lo ≤ a ∧ lo ≤ b ∧ lo ≤ c) → (a ≤ hi ∧ b ≤ hi ∧ c ≤ hi) → lo ≤ x ∧ x ≤ hi := by
          intro α β γ D x a b c lo hi hα hβ hγ hsum hD hx hlo hhi
          have hDpos : 0 < D := lt_of_le_of_ne (by linarith) (Ne.symm hD)
          have h1 := mul_le_mul_of_nonneg_left hlo.1 hα
          have h2 := mul_le_mul_of_nonneg_left hlo.2.1 hβ
          have h3 := mul_le_mul_of_nonneg_left hlo.2.2 hγ
          have h4 := mul_le_mul_of_nonneg_left hhi.1 hα
          have h5 := mul_le_mul_of_nonneg_left hhi.2.1 hβ
          have h6 := mul_le_mul_of_nonneg_left hhi.2.2 hγ
          constructor
          · apply le_of_mul_le_mul_left _ hDpos
            have : D * lo = α * lo + β * lo + γ * lo := by rw [← hsum]; ring
            linarith
          · apply le_of_mul_le_mul_left _ hDpos
            have : D * hi = α * hi + β * hi + γ * hi := by rw [← hsum]; ring
            linarith
        simp only [Bool.and_eq_true, Bool.or_eq_true, decide_eq_true_eq] at hp
        obtain ⟨hD, hsign⟩ := hp
        have hsum : cross b c p + cross c a p + cross a b p = cross a b c := by
          unfold cross; ring
        have hx : cross a b c * p.x =
            cross b c p * a.x + cross c a p * b.x + cross a b p * c.x := by
          unfold cross; ring
        have hy : cross a b c * p.y =
            cross b c p * a.y + cross c a p * b.y + cross a b p * c.y := by
          unfold cross; ring
        have lox : min a.x (min b.x c.x) ≤ a.x ∧ min a.x (min b.x c.x) ≤ b.x ∧
            min a.x (min b.x c.x) ≤ c.x :=
          ⟨min_le_left _ _, le_trans (min_le_right _ _) (min_le_left _ _),
            le_trans (min_le_right _ _) (min_le_right _ _)⟩
        have loy : min a.y (min b.y c.y) ≤ a.y ∧ min a.y (min b.y c.y) ≤ b.y ∧
            min a.y (min b.y c.y) ≤ c.y :=
          ⟨min_le_left _ _, le_trans (min_le_right _ _) (min_le_left _ _),
            le_trans (min_le_right _ _) (min_le_right _ _)⟩
        have hix : a.x ≤ max a.x (max b.x c.x) ∧ b.x ≤ max a.x (max b.x c.x) ∧
            c.x ≤ max a.x (max b.x c.x) :=
          ⟨le_max_left _ _, le_trans (le_max_left _ _) (le_max_right _ _),
            le_trans (le_max_right _ _) (le_max_right _ _)⟩
        have hiy : a.y ≤ max a.y (max b.y c.y) ∧ b.y ≤ max a.y (max b.y c.y) ∧
            c.y ≤ max a.y (max b.y c.y) :=
          ⟨le_max_left _ _, le_trans (le_max_left _ _) (le_max_right _ _),
            le_trans (le_max_right _ _) (le_max_right _ _)⟩
        rcases hsign with ⟨⟨h1, h2⟩, h3⟩ | ⟨⟨h1, h2⟩, h3⟩
        · have bx := combination_bounds _ _ _ _ p.x _ _ _ _ _ h2 h3 h1 hsum hD hx lox hix
          have by_ := combination_bounds _ _ _ _ p.y _ _ _ _ _ h2 h3 h1 hsum hD hy loy hiy
          exact ⟨bx.1, by_.1, bx.2, by_.2⟩
        · have hD2 : -cross a b c ≠ 0 := neg_ne_zero.2 hD
          have bx := combination_bounds (-cross b c p) (-cross c a p) (-cross a b p)
            (-cross a b c) p.x a.x b.x c.x _ _ (by linarith) (by linarith) (by linarith)
            (by linarith) hD2 (by linarith) lox hix
          have by_ := combination_bounds (-cross b c p) (-cross c a p) (-cross a b p)
            (-cross a b c) p.y a.y b.y c.y _ _ (by linarith) (by linarith) (by linarith)
            (by linarith) hD2 (by linarith) loy hiy
          exact ⟨bx.1, by_.1, bx.2, by_.2⟩ }
  | _ => { TestPoint := fun _ => false, aabb := ⟨⟨0, 0⟩, ⟨0, 0⟩⟩, encloses := by simp }

/-- A disc of the given radius around the body origin. -/
def exact_circle (radius : ℚ) : b2Shape :=
  { TestPoint := fun p => decide (p.x * p.x + p.y * p.y ≤ radius * radius)
    aabb := ⟨⟨-|radius|, -|radius|⟩, ⟨|radius|, |radius|⟩⟩
    encloses := by
      intro p hp
      simp only [decide_eq_true_eq] at hp
      have hx : |p.x| ≤ |radius| :=
        sq_le_sq.1 (by nlinarith [mul_self_nonneg p.y])
      have hy : |p.y| ≤ |radius| :=
        sq_le_sq.1 (by nlinarith [mul_self_nonneg p.x])
      exact ⟨(abs_le.1 hx).1, (abs_le.1 hy).1, (abs_le.1 hx).2, (abs_le.1 hy).2⟩ }

/-- A level floor at height 0 over the triangle (0,0), (4,0), (0,4); group 0. -/
def floor_triangle : walkmap_triangle :=
  load_map_triangle exact_polygon 0 3 ⟨0, 0, 0⟩ ⟨4, 0, 0⟩ ⟨0, 4, 0⟩

/-- A ramp over the same ground triangle, on the plane z = 6 - 2x - 2y; group 1. -/
def ramp_triangle : walkmap_triangle :=
  load_map_triangle exact_polygon 1 2 ⟨0, 0, 6⟩ ⟨4, 0, -2⟩ ⟨0, 4, -2⟩

/-- A walkmap made of the floor and the ramp above it. -/
def bridge_walkmap : walkmap :=
  { triangles := [floor_triangle, ramp_triangle]
    borders := []
    triggers := []
    walkmap_triangle_lookup := [triangle_body floor_triangle, triangle_body ramp_triangle]
    collision := []
    trigger_lookup := [] }

/-- A world with one triangle fixture created with a null user data pointer. -/
def null_userdata_world : collision_world walkmap_triangle :=
  [{ fixture := floor_triangle.co, userData := none }]

/-- The actor of the example standing on the floor at (1, 1), as left by
`update_actor_data`. -/
def floor_actor : walkmap_actordata :=
  { actor := 7
    position := ⟨1, 1, 0⟩
    radius := 1 / 2
    current_triangle := some floor_triangle
    movement_callback := none
    co := collision_object_copy_collisiondata
      (collision_object_create_circle exact_circle ⟨1, 1⟩ (1 / 2)) floor_triangle.co }

/-- A triangular region around (1, 1) registered from the floor (mask 3), callback 5. -/
def near_region : trigger_region :=
  { callback := 5
    group := 0
    position := ⟨1, 1, 0⟩
    co := collision_object_set_position
      (collision_object_create_polygon exact_polygon [⟨-1, -1⟩, ⟨1, -1⟩, ⟨0, 1⟩] 0 3) ⟨1, 1⟩ }

/-- A triangular region around (3, 0), away from the actor of the example, callback 6. -/
def far_region : trigger_region :=
  { callback := 6
    group := 0
    position := ⟨3, 0, 0⟩
    co := collision_object_set_position
      (collision_object_create_polygon exact_polygon [⟨-1, 0⟩, ⟨1, 0⟩, ⟨0, 1⟩] 0 3) ⟨3, 0⟩ }

/-- The walkmap of the example with the actor on the floor and the two regions. -/
def trigger_walkmap : walkmap :=
  { bridge_walkmap with
    triggers := [near_region, far_region]
    collision := [collision_body.actor floor_actor]
    trigger_lookup := [{ fixture := far_region.co, userData := some far_region },
      { fixture := near_region.co, userData := some near_region }] }

/-- The calls of the trigger callback made by successive calls of
`walkmap_check_triggers`, one for each state of the walkmap in the list, in order. -/
def check_triggers_calls : List walkmap → Option (List trigger_event)
  | [] => some []
  | w :: ws =>
    match walkmap_check_triggers w with
    | none => none
    | some ev =>
      match check_triggers_calls ws with
      | none => none
      | some evs => some (ev ++ evs)

/-- The call of the movement callback that `walkmap_tick` makes for an actor, from the
actor data before and after its update: none without a callback. -/
def movement_call (before after : walkmap_actordata) : Option movement_event :=
  match before.movement_callback with
  | some _ => some ⟨after.actor, after.position, before.position⟩
  | none => none

/-- A physics step in which nothing moves: every body keeps its position and velocity. -/
def still_step : List collision_object → ℚ → Nat → b2Vec2 × b2Vec2 :=
  fun cos _ i =>
    match cos.get? i with
    | some co => (co.position, co.velocity)
    | none => (⟨0, 0⟩, ⟨0, 0⟩)

/-- A walkmap made of the floor triangle alone. -/
def floor_walkmap : walkmap :=
  { triangles := [floor_triangle]
    borders := []
    triggers := []
    walkmap_triangle_lookup := [triangle_body floor_triangle]
    collision := []
    trigger_lookup := [] }

/-- The walkmap of the example with two actors on the floor: actor 7 with a movement
callback and actor 8 without. -/
def tick_walkmap : walkmap :=
  { bridge_walkmap with
    collision := [collision_body.actor (walkmap_set_movement_callback floor_actor (some 1)),
      collision_body.actor { floor_actor with actor := 8 }] }

/-! ## Body lifetime: collision.cpp and walkmap.c -/

/-- How a call ends: it returns, an `assert` fails, or the behaviour is undefined (a
destroyed object is used, memory outside an array is read). -/
inductive outcome (α : Type) where
  | done (a : α)
  | assert_failed
  | undefined

/-- Sequencing of calls: the first failure ends the computation. -/
def outcome.bind {α β : Type} (r : outcome α) (f : α → outcome β) : outcome β :=
  match r with
  | outcome.done a => f a
  | outcome.assert_failed => outcome.assert_failed
  | outcome.undefined => outcome.undefined

/-- Whether a call returned. -/
def outcome.isDone {α : Type} : outcome α → Bool
  | outcome.done _ => true
  | _ => false

/-- Whether a call ended in a failed assertion. -/
def outcome.isAssertFailed {α : Type} : outcome α → Bool
  | outcome.assert_failed => true
  | _ => false

/-- `collision_object_free` in a world given as the list of its bodies, `body_of` telling
the identity of a body.  `co->fixture->GetBody()` uses the fixture, which is destroyed
with its body: when the body of `co` is not a live body of the world the behaviour is
undefined; otherwise `DestroyBody` removes that body. -/
def collision_object_free {β : Type} (body_of : β → Nat) (co : collision_object)
    (world : List β) : outcome (List β) :=
  if world.any (fun b => body_of b == co.body) then
    outcome.done (world.filter (fun b => body_of b != co.body))
  else outcome.undefined

/-- `collision_world_count`. -/
def collision_world_count {β : Type} (world : List β) : Nat :=
  world.length

/-- The identity of the body of an entry of the `collision` world. -/
def collision_body.body (b : collision_body) : Nat :=
  b.co.body

/-- `walkmap_unregister_actor`. -/
def walkmap_unregister_actor (w : walkmap) (ad : walkmap_actordata) : outcome walkmap :=
  (collision_object_free collision_body.body ad.co w.collision).bind
    (fun c => outcome.done { w with collision := c })

/-- A loop that frees the bodies of the handles `cos` one after the other. -/
def free_all {β : Type} (body_of : β → Nat) : List collision_object → List β → outcome (List β)
  | [], world => outcome.done world
  | co :: cos, world =>
    (collision_object_free body_of co world).bind (fun world1 => free_all body_of cos world1)

/-- First part of `walkmap_destroy`: the borders are freed and the `collision` world must
be empty. -/
def walkmap_destroy_collision (w : walkmap) : outcome Unit :=
  (free_all collision_body.body (w.borders.map (fun b => b.co)) w.collision).bind
    (fun c => if collision_world_count c = 0 then outcome.done () else outcome.assert_failed)

/-- Second part of `walkmap_destroy`: the triangles are freed and the lookup world must be
empty. -/
def walkmap_destroy_lookup (w : walkmap) : outcome Unit :=
  (free_all (fun f : b2Body walkmap_triangle => f.fixture.body)
      (w.triangles.map (fun t => t.co)) w.walkmap_triangle_lookup).bind
    (fun c => if collision_world_count c = 0 then outcome.done () else outcome.assert_failed)

/-- Third part of `walkmap_destroy`: the trigger regions are freed and the trigger world
must be empty. -/
def walkmap_destroy_triggers (w : walkmap) : outcome Unit :=
  (free_all (fun f : b2Body trigger_region => f.fixture.body)
      (w.triggers.map (fun tr => tr.co)) w.trigger_lookup).bind
    (fun c => if collision_world_count c = 0 then outcome.done () else outcome.assert_failed)

/-- `walkmap_destroy`. -/
def walkmap_destroy (w : walkmap) : outcome Unit :=
  (walkmap_destroy_collision w).bind (fun _ =>
    (walkmap_destroy_lookup w).bind (fun _ => walkmap_destroy_triggers w))

/-- The bodies of the three worlds are the bodies the walkmap knows: the borders are the
bodies without user data of the `collision` world, the triangles are the bodies of the
lookup world and the trigger regions the bodies of the trigger world; the handles held
by the walkmap name distinct bodies, created before `next_body`. -/
def walkmap.bodies_ok (w : walkmap) : Prop :=
  (∀ b ∈ w.collision,
    b.userdata = none ↔ b.body ∈ w.borders.map (fun x => x.co.body)) ∧
  (∀ x ∈ w.borders, ∃ b ∈ w.collision, b.body = x.co.body) ∧
  (∀ f ∈ w.walkmap_triangle_lookup, f.fixture.body ∈ w.triangles.map (fun t => t.co.body)) ∧
  (∀ t ∈ w.triangles, ∃ f ∈ w.walkmap_triangle_lookup, f.fixture.body = t.co.body) ∧
  (∀ f ∈ w.trigger_lookup, f.fixture.body ∈ w.triggers.map (fun tr => tr.co.body)) ∧
  (∀ tr ∈ w.triggers, ∃ f ∈ w.trigger_lookup, f.fixture.body = tr.co.body) ∧
  (w.borders.map (fun x => x.co.body)).Nodup ∧
  (w.triangles.map (fun t => t.co.body)).Nodup ∧
  (w.triggers.map (fun tr => tr.co.body)).Nodup ∧
  (∀ x ∈ w.borders, x.co.body < w.next_body) ∧
  (∀ tr ∈ w.triggers, tr.co.body < w.next_body)

/-! ## actor.c -/

/-- `collision_object_velocity`. -/
def collision_object_velocity (co : collision_object) : b2Vec2 :=
  co.velocity

/-- `collision_object_set_velocity`. -/
def collision_object_set_velocity (co : collision_object) (v : b2Vec2) : collision_object :=
  { co with velocity := v }

/-- `walkmap_actor_velocity`. -/
def walkmap_actor_velocity (ad : walkmap_actordata) : b2Vec2 :=
  collision_object_velocity ad.co

/-- `walkmap_set_actor_velocity`. -/
def walkmap_set_actor_velocity (ad : walkmap_actordata) (v : b2Vec2) : walkmap_actordata :=
  { ad with co := collision_object_set_velocity ad.co v }

/-- The `struct actor`, without the model.  `self` is the address of the actor, which the
walkmap keeps as back reference; `walkmap_data` points to the actor data, which is named
by the identity of its body (`none` is the null pointer). -/
structure actor where
  self : Nat
  facing : ℚ
  collision_radius : ℚ
  cached_position : vec3
  walkmap_data : Option Nat

/-- The actor data a `walkmap_data` pointer refers to. -/
def walkmap.actordata (w : walkmap) (p : Nat) : Option walkmap_actordata :=
  w.actors.find? (fun ad => ad.co.body == p)

/-- The `collision` world with the actor data of body `p` replaced. -/
def store_actordata (p : Nat) (ad1 : walkmap_actordata) : List collision_body → List collision_body
  | [] => []
  | collision_body.border co :: bs => collision_body.border co :: store_actordata p ad1 bs
  | collision_body.actor ad :: bs =>
    if ad.co.body == p then collision_body.actor ad1 :: bs
    else collision_body.actor ad :: store_actordata p ad1 bs

/-- `actor_velocity`: the vector written to `v`. -/
def actor_velocity (a : actor) (w : walkmap) : outcome b2Vec2 :=
  match a.walkmap_data with
  | none => outcome.done ⟨0, 0⟩
  | some p =>
    match w.actordata p with
    | none => outcome.undefined
    | some ad => outcome.done (walkmap_actor_velocity ad)

/-- `actor_set_velocity`: the actor and the walkmap after the call. -/
def actor_set_velocity (a : actor) (v : b2Vec2) (w : walkmap) : outcome (actor × walkmap) :=
  match a.walkmap_data with
  | none => outcome.done (a, w)
  | some p =>
    match w.actordata p with
    | none => outcome.undefined
    | some ad =>
      outcome.done (a,
        { w with collision := store_actordata p (walkmap_set_actor_velocity ad v) w.collision })

/-- `actor_position`: the vector written to `p`. -/
def actor_position (a : actor) (w : walkmap) : outcome vec3 :=
  match a.walkmap_data with
  | none => outcome.done ⟨0, 0, 0⟩
  | some p =>
    match w.actordata p with
    | none => outcome.undefined
    | some ad => outcome.done (walkmap_actor_position ad)

/-- `actor_set_position`: the actor and the walkmap after the call. -/
def actor_set_position (a : actor) (p : vec3) (w : walkmap) : outcome (actor × walkmap) :=
  match a.walkmap_data with
  | none => outcome.done (a, w)
  | some q =>
    match w.actordata q with
    | none => outcome.undefined
    | some ad =>
      match walkmap_set_actor_position w ad p with
      | none => outcome.assert_failed
      | some ad1 =>
        outcome.done ({ a with cached_position := walkmap_actor_position ad1 },
          { w with collision := store_actordata q ad1 w.collision })

/-! ## layer.c and scene.c -/

/-- The `struct layer`, without texture and vertex data. -/
structure layer where
  y : ℚ
  frame_count : Nat
  frame : Nat
  visible : Bool

/-- `layer_create`: the layer made for the world depth `depth`. -/
def layer_create (depth : ℚ) (frame_count : Nat) : layer :=
  { y := depth, frame_count := frame_count, frame := 0, visible := true }

/-- `layer_render_order`. -/
def layer_render_order (l : layer) : ℚ :=
  l.y

/-- The `while (cur->next)` loop of `scene_load_layer`, entered with `cur` the head of the
list: the list from `cur` on after the insertion of `ll`.  In the source the line
`if (order <= cur_order && order >= next_order);` ends in a semicolon, so the `if`
guards an empty statement and the block after it, which inserts `ll` behind `cur` and
returns, runs in the first iteration. -/
def scene_load_layer_loop (ll : layer) (order : ℚ) (cur : layer) (cur_order : ℚ) :
    List layer → List layer
  | [] => [cur, ll]
  | next :: rest =>
    let next_order := layer_render_order next
    let _ : Unit := if order ≤ cur_order ∧ order ≥ next_order then () else ()
    cur :: ll :: next :: rest

/-- `scene_load_layer` on the layer list of the scene. -/
def scene_load_layer (layers : List layer) (depth : ℚ) (frame_count : Nat) : List layer :=
  let ll := layer_create depth frame_count
  let order := layer_render_order ll
  match layers with
  | [] => [ll]
  | cur :: rest =>
    let cur_order := layer_render_order cur
    if order > cur_order then ll :: cur :: rest
    else scene_load_layer_loop ll order cur cur_order rest

/-- The insertion that the comments of `scene_load_layer` describe: `ll` goes in front
of the first layer whose render order is smaller than its own. -/
def insert_by_render_order (ll : layer) : List layer → List layer
  | [] => [ll]
  | cur :: rest =>
    if layer_render_order ll > layer_render_order cur then ll :: cur :: rest
    else cur :: insert_by_render_order ll rest

/-! ## walkmap.c: reading a map file -/

/-- Little endian value of a string of bytes. -/
def uint_le : List Nat → Nat
  | [] => 0
  | b :: bs => b % 256 + 256 * uint_le bs

/-- One `assert(fread(&x, size, 1, input) == 1)` for an unsigned integer of `size` bytes:
the value and the rest of the input, `none` when fewer than `size` bytes are left. -/
def fread_uint (size : Nat) (input : List Nat) : Option (Nat × List Nat) :=
  if size ≤ input.length then some (uint_le (input.take size), input.drop size) else none

/-- The `fread` of `n` values of type `GLfloat`; `float_of_bits` gives the value of a 32
bit pattern. -/
def fread_floats (float_of_bits : Nat → ℚ) : Nat → List Nat → Option (List ℚ × List Nat)
  | 0, input => some ([], input)
  | n + 1, input =>
    match fread_uint 4 input with
    | none => none
    | some (bits, input1) =>
      match fread_floats float_of_bits n input1 with
      | none => none
      | some (vs, input2) => some (float_of_bits bits :: vs, input2)

/-- The `memcpy` of three floats from `&vertices[3*index]`, the product taken in 32 bits;
`none` when it reads outside the array. -/
def read_vertex (vertices : List ℚ) (index : Nat) : Option vec3 :=
  let k := (3 * index) % 4294967296
  match vertices.get? k, vertices.get? (k + 1), vertices.get? (k + 2) with
  | some x, some y, some z => some ⟨x, y, z⟩
  | _, _, _ => none

/-- The triangle loop of `load_map`: `n` records are read from `input`; the bodies get the
identities from `body` on. -/
def load_map_triangles (polygon : List b2Vec2 → b2Shape) (vertices : List ℚ) :
    Nat → List Nat → Nat → outcome (List walkmap_triangle × List Nat)
  | 0, input, _ => outcome.done ([], input)
  | n + 1, input, body =>
    match fread_uint 2 input with
    | none => outcome.assert_failed
    | some (group, input1) =>
      if 16 ≤ group then outcome.assert_failed
      else
        match fread_uint 2 input1 with
        | none => outcome.assert_failed
        | some (group_interaction_mask, input2) =>
          if input2.length < 12 then outcome.assert_failed
          else
            let indices0 := uint_le (input2.take 4)
            let indices1 := uint_le ((input2.drop 4).take 4)
            let indices2 := uint_le ((input2.drop 8).take 4)
            match read_vertex vertices indices0, read_vertex vertices indices1,
                read_vertex vertices indices2 with
            | some a, some b, some c =>
              (load_map_triangles polygon vertices n (input2.drop 12) (body + 1)).bind
                (fun r => outcome.done
                  (load_map_triangle_body polygon group group_interaction_mask a b c body :: r.1,
                    r.2))
            | _, _, _ => outcome.undefined

/-- `collision_object_create_chain`: a body at the origin. -/
def collision_object_create_chain (chain : List b2Vec2 → b2Shape) (vertices_3d : List vec3)
    (group mask_flags : Nat) : collision_object :=
  { position := ⟨0, 0⟩, velocity := ⟨0, 0⟩, shape := chain (vertices_3d.map vec3.xy),
    filter := create_filter group mask_flags }

/-- The inner loop of the border loop of `load_map`: `n` vertex indices are read and the
vertices copied. -/
def load_map_border_vertices (vertices : List ℚ) :
    Nat → List Nat → outcome (List vec3 × List Nat)
  | 0, input => outcome.done ([], input)
  | n + 1, input =>
    match fread_uint 4 input with
    | none => outcome.assert_failed
    | some (index, input1) =>
      match read_vertex vertices index with
      | none => outcome.undefined
      | some v =>
        (load_map_border_vertices vertices n input1).bind
          (fun r => outcome.done (v :: r.1, r.2))

/-- The border loop of `load_map`.  `length` is a `GLsizei`: a negative value makes
`calloc` fail, and the product `3*length` must not overflow. -/
def load_map_borders (chain : List b2Vec2 → b2Shape) (vertices : List ℚ) :
    Nat → List Nat → Nat → outcome (List walkmap_border × List Nat)
  | 0, input, _ => outcome.done ([], input)
  | n + 1, input, body =>
    match fread_uint 2 input with
    | none => outcome.assert_failed
    | some (group, input1) =>
      if 16 ≤ group then outcome.assert_failed
      else
        match fread_uint 2 input1 with
        | none => outcome.assert_failed
        | some (group_interaction_mask, input2) =>
          match fread_uint 4 input2 with
          | none => outcome.assert_failed
          | some (length, input3) =>
            if 2147483648 ≤ length then
              (if 3 * (4294967296 - length) ≤ 2147483648 then outcome.assert_failed
               else outcome.undefined)
            else if 2147483648 ≤ 3 * length then outcome.undefined
            else
              (load_map_border_vertices vertices length input3).bind (fun bv =>
                (load_map_borders chain vertices n bv.2 (body + 1)).bind (fun r =>
                  outcome.done
                    ({ group := group, group_interaction_mask := group_interaction_mask,
                       co := { collision_object_create_chain chain bv.1 group
                                 group_interaction_mask with body := body } } :: r.1, r.2)))

/-- `load_map` on the bytes of the map file.  Every body is put in front of the body list
of its world, so the worlds hold the bodies in reverse order of creation. -/
def load_map (polygon chain : List b2Vec2 → b2Shape) (float_of_bits : Nat → ℚ) (w : walkmap)
    (file : List Nat) : outcome walkmap :=
  match fread_uint 4 file with
  | none => outcome.assert_failed
  | some (version, input1) =>
    match fread_uint 4 input1 with
    | none => outcome.assert_failed
    | some (vertex_count, input2) =>
      match fread_uint 4 input2 with
      | none => outcome.assert_failed
      | some (triangle_count, input3) =>
        match fread_uint 4 input3 with
        | none => outcome.assert_failed
        | some (border_count, input4) =>
          match fread_floats float_of_bits ((3 * vertex_count) % 4294967296) input4 with
          | none => outcome.assert_failed
          | some (vertices, input5) =>
            (load_map_triangles polygon vertices triangle_count input5 w.next_body).bind
              (fun tr =>
                (load_map_borders chain vertices border_count tr.2
                    (w.next_body + triangle_count)).bind
                  (fun br => outcome.done
                    { w with
                      triangles := tr.1
                      borders := br.1
                      walkmap_triangle_lookup :=
                        (tr.1.map triangle_body).reverse ++ w.walkmap_triangle_lookup
                      collision :=
                        (br.1.map (fun b => collision_body.border b.co)).reverse ++ w.collision
                      next_body := w.next_body + triangle_count + border_count }))

/-- `walkmap_create`: a zeroed walkmap with three empty worlds, then `load_map`. -/
def walkmap_create (polygon chain : List b2Vec2 → b2Shape) (float_of_bits : Nat → ℚ)
    (file : List Nat) : outcome walkmap :=
  load_map polygon chain float_of_bits
    { triangles := [], borders := [], triggers := [], walkmap_triangle_lookup := [],
      collision := [], trigger_lookup := [] } file

/-- The value of an IEEE 754 single precision bit pattern (infinities and NaN, which have
no rational value, are read like the next binade). -/
def ieee_single (bits : Nat) : ℚ :=
  let sign := bits / 2147483648 % 2
  let e := bits / 8388608 % 256
  let m := bits % 8388608
  let mag : ℚ :=
    if e = 0 then (m : ℚ) / 2 ^ 149
    else if 150 ≤ e then ((8388608 + m : Nat) : ℚ) * 2 ^ (e - 150)
    else ((8388608 + m : Nat) : ℚ) / 2 ^ (150 - e)
  if sign = 1 then -mag else mag

/-- The bytes of a map file with the given version and the given group of its one
triangle: three vertices (0,0,0), (4,0,0), (0,4,0), one triangle with mask 3, no border. -/
def example_map_file (version group : Nat) : List Nat :=
  [version, 0, 0, 0, 3, 0, 0, 0, 1, 0, 0, 0, 0, 0, 0, 0,
   0, 0, 0, 0, 0, 0, 0, 0, 0, 0, 0, 0,
   0, 0, 128, 64, 0, 0, 0, 0, 0, 0, 0, 0,
   0, 0, 0, 0, 0, 0, 128, 64, 0, 0, 0, 0,
   group, 0, 3, 0, 0, 0, 0, 0, 1, 0, 0, 0, 2, 0, 0, 0]

/-! ## renderer/framebuffer.c -/

/-- The five shift-and-or lines of `npot`. -/
def npot_smear (x : Nat) : Nat :=
  let x := x ||| (x >>> 1)
  let x := x ||| (x >>> 2)
  let x := x ||| (x >>> 4)
  let x := x ||| (x >>> 8)
  let x := x ||| (x >>> 16)
  x

/-- `npot` on a `GLuint`: `x - 1` and `x + 1` wrap modulo 2^32. -/
def npot (x : Nat) : Nat :=
  let x := (x + 4294967296 - 1) % 4294967296
  let x := npot_smear x
  (x + 1) % 4294967296

/-- `framebuffer_size`, with the macro `MAX` expanded. -/
def framebuffer_size (width height : Nat) : Nat :=
  npot (if width > height then width else height)

/-- An actor that has not been added to a walkmap. -/
def detached_actor : actor :=
  { self := 7, facing := 0, collision_radius := 1 / 2, cached_position := ⟨2, 3, 4⟩,
    walkmap_data := none }

/-- A world of two bodies with the identities 0 and 1. -/
def two_body_world : List collision_body :=
  [collision_body.actor { floor_actor with co := { floor_actor.co with body := 1 } },
    collision_body.actor floor_actor]

/-- A border of the example: a chain body with identity 0 and no shape of its own. -/
def example_border : walkmap_border :=
  { group := 0, group_interaction_mask := 3,
    co := { position := ⟨0, 0⟩, velocity := ⟨0, 0⟩, shape := exact_polygon [],
            filter := create_filter 0 3, body := 0 } }

/-- The floor triangle with the body identity 1. -/
def floor_triangle_1 : walkmap_triangle :=
  { floor_triangle with co := { floor_triangle.co with body := 1 } }

/-- A walkmap as loaded: one border (body 0), the floor triangle (body 1), no actor. -/
def loaded_walkmap : walkmap :=
  { triangles := [floor_triangle_1]
    borders := [example_border]
    triggers := []
    walkmap_triangle_lookup := [triangle_body floor_triangle_1]
    collision := [collision_body.border example_border.co]
    trigger_lookup := []
    next_body := 2 }

/-! ## Further ways a call ends -/

/-- Whether a call ended in undefined behaviour. -/
def outcome.isUndefined {α : Type} : outcome α → Bool
  | outcome.undefined => true
  | _ => false

deriving instance DecidableEq for outcome

/-! ## renderer/matrix.c -/

/-- A matrix of 16 floats in column-major order: entry `i` is `mtx[i]`, so the entries
0 to 3 are column 0 and the entries 12 to 15 are column 3. -/
abbrev mtx := Fin 16 → ℚ

/-- `mtxMultiply`: the matrix written to `ret`. -/
def mtxMultiply (lhs rhs : mtx) : mtx :=
  ![lhs 0 * rhs 0 + lhs 4 * rhs 1 + lhs 8 * rhs 2 + lhs 12 * rhs 3,
    lhs 1 * rhs 0 + lhs 5 * rhs 1 + lhs 9 * rhs 2 + lhs 13 * rhs 3,
    lhs 2 * rhs 0 + lhs 6 * rhs 1 + lhs 10 * rhs 2 + lhs 14 * rhs 3,
    lhs 3 * rhs 0 + lhs 7 * rhs 1 + lhs 11 * rhs 2 + lhs 15 * rhs 3,
    lhs 0 * rhs 4 + lhs 4 * rhs 5 + lhs 8 * rhs 6 + lhs 12 * rhs 7,
    lhs 1 * rhs 4 + lhs 5 * rhs 5 + lhs 9 * rhs 6 + lhs 13 * rhs 7,
    lhs 2 * rhs 4 + lhs 6 * rhs 5 + lhs 10 * rhs 6 + lhs 14 * rhs 7,
    lhs 3 * rhs 4 + lhs 7 * rhs 5 + lhs 11 * rhs 6 + lhs 15 * rhs 7,
    lhs 0 * rhs 8 + lhs 4 * rhs 9 + lhs 8 * rhs 10 + lhs 12 * rhs 11,
    lhs 1 * rhs 8 + lhs 5 * rhs 9 + lhs 9 * rhs 10 + lhs 13 * rhs 11,
    lhs 2 * rhs 8 + lhs 6 * rhs 9 + lhs 10 * rhs 10 + lhs 14 * rhs 11,
    lhs 3 * rhs 8 + lhs 7 * rhs 9 + lhs 11 * rhs 10 + lhs 15 * rhs 11,
    lhs 0 * rhs 12 + lhs 4 * rhs 13 + lhs 8 * rhs 14 + lhs 12 * rhs 15,
    lhs 1 * rhs 12 + lhs 5 * rhs 13 + lhs 9 * rhs 14 + lhs 13 * rhs 15,
    lhs 2 * rhs 12 + lhs 6 * rhs 13 + lhs 10 * rhs 14 + lhs 14 * rhs 15,
    lhs 3 * rhs 12 + lhs 7 * rhs 13 + lhs 11 * rhs 14 + lhs 15 * rhs 15]

/-- One assignment `mtx[i] *= scale`. -/
def mtx_scale_entry (m : mtx) (i : Fin 16) (scale : ℚ) : mtx :=
  Function.update m i (m i * scale)

/-- `mtxScaleApply`: the twelve assignments in the order of the source; the last one is
`mtx[11] *= xScale`. -/
def mtxScaleApply (m : mtx) (xScale yScale zScale : ℚ) : mtx :=
  let m := mtx_scale_entry m 0 xScale
  let m := mtx_scale_entry m 4 yScale
  let m := mtx_scale_entry m 8 zScale
  let m := mtx_scale_entry m 1 xScale
  let m := mtx_scale_entry m 5 yScale
  let m := mtx_scale_entry m 9 zScale
  let m := mtx_scale_entry m 2 xScale
  let m := mtx_scale_entry m 6 yScale
  let m := mtx_scale_entry m 10 zScale
  let m := mtx_scale_entry m 3 xScale
  let m := mtx_scale_entry m 7 yScale
  let m := mtx_scale_entry m 11 xScale
  m

/-- The right factor drawn in the comment of `mtxScaleApply`: the diagonal matrix with the
entries x, y, z, 1. -/
def scale_matrix (x y z : ℚ) : mtx :=
  ![x, 0, 0, 0, 0, y, 0, 0, 0, 0, z, 0, 0, 0, 0, 1]

/-- The matrix that `mtxLoadPerspective` writes for f = 1, aspect 1, near plane 1 and far
plane 2; its entry 11 is -1. -/
def example_perspective : mtx :=
  ![1, 0, 0, 0, 0, 1, 0, 0, 0, 0, -3, -1, 0, 0, -4, 0]

/-! ## Heap objects -/

/-- The heap objects of one type, by address: `some v` is a live object, `none` one that
has been freed.  `malloc` hands out the next address and never one used before. -/
abbrev heap (α : Type) := List (Option α)

/-- The live object at an address; `none` when the object has been freed. -/
def heap.read {α : Type} (h : heap α) (p : Nat) : Option α :=
  (h.get? p).join

/-- A store into the object at an address. -/
def heap.write {α : Type} (h : heap α) (p : Nat) (v : α) : heap α :=
  h.set p (some v)

/-- The call `free(p)`. -/
def heap.free {α : Type} (h : heap α) (p : Nat) : heap α :=
  h.set p none

/-- A successful `calloc` followed by the initialisation `v`: the heap and the address. -/
def heap.alloc {α : Type} (h : heap α) (v : α) : heap α × Nat :=
  (h ++ [some v], h.length)

/-! ## engine.c: texture management -/

/-- A `texture_ptr`: the address of the texture and the path stored in it. -/
structure texture where
  addr : Nat
  path : List Nat
deriving DecidableEq

/-- The `struct texture_instance_list`; `prev` and `next` are addresses of nodes, `none`
the null pointer. -/
structure texture_instance_list where
  texture : texture
  refcount : Nat
  prev : Option Nat
  next : Option Nat
deriving DecidableEq

/-- The texture part of `struct engine`: the nodes on the heap, the head pointer
`textures`, the number of textures created so far, and the textures whose destruction
has been queued with `engine_queue_task`. -/
structure engine where
  nodes : heap texture_instance_list
  textures : Option Nat
  texture_count : Nat
  destroy_tasks : List texture
deriving DecidableEq

/-- A `struct texture_instance_list **`: the address of `e->textures` or of the `next`
field of a node. -/
inductive texture_slot where
  | head
  | next_of (a : Nat)
deriving DecidableEq

/-- The read `*end` of a slot; undefined when the slot lies in a freed node. -/
def engine.read_slot (e : engine) : texture_slot → outcome (Option Nat)
  | texture_slot.head => outcome.done e.textures
  | texture_slot.next_of a =>
    match e.nodes.read a with
    | none => outcome.undefined
    | some n => outcome.done n.next

/-- The store `*end = p` into a slot; undefined when the slot lies in a freed node. -/
def engine.write_slot (e : engine) (p : Option Nat) : texture_slot → outcome engine
  | texture_slot.head => outcome.done { e with textures := p }
  | texture_slot.next_of a =>
    match e.nodes.read a with
    | none => outcome.undefined
    | some n => outcome.done { e with nodes := e.nodes.write a { n with next := p } }

/-- `texture_has_path`: `strcmp(path, t->path) == 0`. -/
def texture_has_path (t : texture) (path : List Nat) : Bool :=
  path == t.path

/-- The search loop of `engine_retain_texture`, entered with the slot `end`: the address
of a node with the path, or the slot at which the loop ended.  A walk of more steps than
there are nodes goes around a cycle and never ends; it has no side effect, and such a
loop is undefined. -/
def engine_retain_texture_search (e : engine) (path : List Nat) :
    Nat → texture_slot → outcome (Nat ⊕ texture_slot)
  | 0, _ => outcome.undefined
  | fuel + 1, end_ =>
    match e.read_slot end_ with
    | outcome.done none => outcome.done (Sum.inr end_)
    | outcome.done (some a) =>
      match e.nodes.read a with
      | none => outcome.undefined
      | some n =>
        if texture_has_path n.texture path then outcome.done (Sum.inl a)
        else engine_retain_texture_search e path fuel (texture_slot.next_of a)
    | outcome.assert_failed => outcome.assert_failed
    | outcome.undefined => outcome.undefined

/-- `engine_retain_texture`: the engine after the call and the texture returned.
`texture_create` tells whether the file at the path can be loaded; a texture that is
created gets the next address. -/
def engine_retain_texture (texture_create : List Nat → Bool) (e : engine) (path : List Nat) :
    outcome (engine × texture) :=
  match engine_retain_texture_search e path (e.nodes.length + 1) texture_slot.head with
  | outcome.done (Sum.inl a) =>
    match e.nodes.read a with
    | none => outcome.undefined
    | some n =>
      outcome.done
        ({ e with nodes := e.nodes.write a { n with refcount := (n.refcount + 1) % 4294967296 } },
          n.texture)
  | outcome.done (Sum.inr end_) =>
    if texture_create path then
      let t : texture := { addr := e.texture_count, path := path }
      match e.read_slot end_ with
      | outcome.done star_end =>
        let r := e.nodes.alloc { texture := t, refcount := 1, prev := star_end, next := none }
        ({ e with nodes := r.1, texture_count := e.texture_count + 1 }.write_slot (some r.2)
          end_).bind (fun e1 => outcome.done (e1, t))
      | outcome.assert_failed => outcome.assert_failed
      | outcome.undefined => outcome.undefined
    else outcome.assert_failed
  | outcome.assert_failed => outcome.assert_failed
  | outcome.undefined => outcome.undefined

/-- The statement `if (p) p->next = v;` of `engine_release_texture`. -/
def texture_set_next (e : engine) (v : Option Nat) : Option Nat → outcome engine
  | none => outcome.done e
  | some p =>
    match e.nodes.read p with
    | none => outcome.undefined
    | some pn => outcome.done { e with nodes := e.nodes.write p { pn with next := v } }

/-- The statement `if (q) q->prev = v;` of `engine_release_texture`. -/
def texture_set_prev (e : engine) (v : Option Nat) : Option Nat → outcome engine
  | none => outcome.done e
  | some q =>
    match e.nodes.read q with
    | none => outcome.undefined
    | some qn => outcome.done { e with nodes := e.nodes.write q { qn with prev := v } }

/-- The statements of `engine_release_texture` for the node `tl` at address `a` whose
reference count has reached zero: the destruction of the texture is queued, the two
neighbours are relinked through `tl->prev` and `tl->next`, and the node is freed. -/
def engine_release_texture_unlink (e : engine) (a : Nat) (tl : texture_instance_list) :
    outcome engine :=
  (texture_set_next { e with destroy_tasks := e.destroy_tasks ++ [tl.texture] } tl.next
      tl.prev).bind (fun e1 =>
    (texture_set_prev e1 tl.prev tl.next).bind (fun e2 =>
      outcome.done { e2 with nodes := e2.nodes.free a }))

/-- The loop of `engine_release_texture`, entered with `tl`, and the test `tl == NULL`
behind it.  The reference count is a `uint32_t`. -/
def engine_release_texture_loop (e : engine) (t : texture) : Nat → Option Nat → outcome engine
  | 0, _ => outcome.undefined
  | _ + 1, none => outcome.assert_failed
  | fuel + 1, some a =>
    match e.nodes.read a with
    | none => outcome.undefined
    | some tl =>
      if tl.texture.addr = t.addr then
        let tl := { tl with refcount := (tl.refcount + 4294967296 - 1) % 4294967296 }
        let e := { e with nodes := e.nodes.write a tl }
        if tl.refcount ≠ 0 then outcome.done e
        else engine_release_texture_unlink e a tl
      else engine_release_texture_loop e t fuel tl.next

/-- `engine_release_texture`. -/
def engine_release_texture (e : engine) (t : texture) : outcome engine :=
  engine_release_texture_loop e t (e.nodes.length + 1) e.textures

/-- The nodes reached from a pointer by following `next`, with at most `fuel` steps; a
freed node ends the walk and is listed as `none`. -/
def texture_list_from (e : engine) : Nat → Option Nat → List (Nat × Option texture_instance_list)
  | 0, _ => []
  | _ + 1, none => []
  | fuel + 1, some a =>
    match e.nodes.read a with
    | none => [(a, none)]
    | some n => (a, some n) :: texture_list_from e fuel n.next

/-- The texture list reachable from the engine. -/
def engine.texture_list (e : engine) : List (Nat × Option texture_instance_list) :=
  texture_list_from e (e.nodes.length + 1) e.textures

/-- No live node has a `prev` pointer. -/
def engine.prev_null (e : engine) : Prop :=
  ∀ a n, e.nodes.read a = some n → n.prev = none

/-- The engine as `engine_create` leaves it: no texture. -/
def engine_create : engine :=
  { nodes := [], textures := none, texture_count := 0, destroy_tasks := [] }

/-- Every file can be loaded. -/
def texture_create_ok : List Nat → Bool :=
  fun _ => true

/-- The texture that the first `engine_retain_texture` of the path "a" creates. -/
def texture_a : texture :=
  { addr := 0, path := [97] }

/-- The texture that a following `engine_retain_texture` of the path "b" creates. -/
def texture_b : texture :=
  { addr := 1, path := [98] }

/-- The engine after "a" has been retained once. -/
def engine_a : engine :=
  { nodes := [some { texture := texture_a, refcount := 1, prev := none, next := none }],
    textures := some 0, texture_count := 1, destroy_tasks := [] }

/-- The engine after "a" has been retained once and released again: the node is freed and
`textures` still holds its address. -/
def engine_a_released : engine :=
  { nodes := [none], textures := some 0, texture_count := 1, destroy_tasks := [texture_a] }

/-- The engine after "a" and then "b" have been retained once each. -/
def engine_a_b : engine :=
  { nodes := [some { texture := texture_a, refcount := 1, prev := none, next := some 1 },
              some { texture := texture_b, refcount := 1, prev := none, next := none }],
    textures := some 0, texture_count := 2, destroy_tasks := [] }

/-- The engine after "a" and "b" have been retained and "b" released: the node of "b" is
freed and the `next` field of the node of "a" still holds its address. -/
def engine_a_b_released : engine :=
  { nodes := [some { texture := texture_a, refcount := 1, prev := none, next := some 1 },
              none],
    textures := some 0, texture_count := 2, destroy_tasks := [texture_b] }

/-! ## renderer/model.c -/

/-- The `struct model`, without texture and vertex array.  `vertex_data` holds
`3*frame_count*vertex_count` floats, `current_vertex_data` holds `3*vertex_count`. -/
structure model where
  vertex_data : List ℚ
  vertex_count : Nat
  frame_count : Nat
  current_vertex_data : List ℚ
  current_animation_fraction : ℚ
  gl_dirty : Bool

/-- The macro `LERP`. -/
def LERP (x y t : ℚ) : ℚ :=
  x + t * (y - x)

/-- The lerp loop of `model_set_animation_frac` from index `i` on, with `n` rounds to go:
the floats written to `current_vertex_data`.  A read outside `vertex_data` is
undefined. -/
def model_lerp_loop (vertex_data : List ℚ) (prev_index next_index : Nat) (t : ℚ) :
    Nat → Nat → outcome (List ℚ)
  | 0, _ => outcome.done []
  | n + 1, i =>
    match vertex_data.get? (prev_index + i), vertex_data.get? (next_index + i) with
    | some x, some y =>
      (model_lerp_loop vertex_data prev_index next_index t n (i + 1)).bind
        (fun r => outcome.done (LERP x y t :: r))
    | _, _ => outcome.undefined

/-- `model_set_animation_frac`.  The counts are of type `GLsizei`, a signed 32 bit
integer: the product `3*m->vertex_count` must fit; the conversion of a negative
`frame_progress` to `size_t` is undefined; the indices are of type `size_t`. -/
def model_set_animation_frac (m : model) (frac : ℚ) : outcome model :=
  if frac < 0 then outcome.assert_failed
  else if frac > 1 then outcome.assert_failed
  else
    let frame_progress : ℚ := frac * ((m.frame_count : ℚ) - 1)
    if frame_progress < 0 then outcome.undefined
    else
      let prev_frame : Nat := (Rat.floor frame_progress).toNat
      let t : ℚ := frame_progress - prev_frame
      if 2147483648 ≤ 3 * m.vertex_count then outcome.undefined
      else
        let prev_index := (prev_frame * 3 * m.vertex_count) % 18446744073709551616
        let next_index := (prev_index + 3 * m.vertex_count) % 18446744073709551616
        (model_lerp_loop m.vertex_data prev_index next_index t (3 * m.vertex_count) 0).bind
          (fun r => outcome.done
            { m with current_animation_fraction := frac, current_vertex_data := r,
                     gl_dirty := true })

/-- The model as `model_create` has it before its call `model_set_animation_frac(m, 0)`:
the arrays are allocated and `vertex_data` is read from the file. -/
def model_create_loaded (frame_count triangle_count : Nat) (vertex_data : List ℚ) : model :=
  { vertex_data := vertex_data, vertex_count := 3 * triangle_count, frame_count := frame_count,
    current_vertex_data := List.replicate (3 * (3 * triangle_count)) 0,
    current_animation_fraction := 0, gl_dirty := false }

/-- A model of one frame with one triangle. -/
def single_frame_model : model :=
  model_create_loaded 1 1 [0, 0, 0, 1, 0, 0, 0, 1, 0]

/-- A model of two frames with one triangle. -/
def two_frame_model : model :=
  model_create_loaded 2 1 [0, 0, 0, 1, 0, 0, 0, 1, 0, 0, 0, 0, 2, 0, 0, 0, 2, 0]

/-! ## platforms/osx/GPModelConverter/main.c -/

/-- The bytes of a map file with the vertices (0,0,1), (4,0,0), (0,4,0) and one triangle of
group 0 and mask 3 whose first vertex index has the bytes `index` and whose other
indices are 1 and 2; no border. -/
def index_map_file (index : List Nat) : List Nat :=
  [1, 0, 0, 0, 3, 0, 0, 0, 1, 0, 0, 0, 0, 0, 0, 0,
   0, 0, 0, 0, 0, 0, 0, 0, 0, 0, 128, 63,
   0, 0, 128, 64, 0, 0, 0, 0, 0, 0, 0, 0,
   0, 0, 0, 0, 0, 0, 128, 64, 0, 0, 0, 0,
   0, 0, 3, 0] ++ index ++ [1, 0, 0, 0, 2, 0, 0, 0]

/-- The bytes of a map file with the same three vertices, no triangle and one border of
group 0 and mask 3 with two vertices, the first with the index bytes `index`, the second
with index 1. -/
def border_map_file (index : List Nat) : List Nat :=
  [1, 0, 0, 0, 3, 0, 0, 0, 0, 0, 0, 0, 1, 0, 0, 0,
   0, 0, 0, 0, 0, 0, 0, 0, 0, 0, 128, 63,
   0, 0, 128, 64, 0, 0, 0, 0, 0, 0, 0, 0,
   0, 0, 0, 0, 0, 0, 128, 64, 0, 0, 0, 0,
   0, 0, 3, 0, 2, 0, 0, 0] ++ index ++ [1, 0, 0, 0]

/-! ## scene.c: timeouts -/

/-- The `struct timeout_list`; `next` is the address of a node, `none` the null
pointer. -/
structure timeout_list where
  ms_remaining : ℚ
  callback : Int
  next : Option Nat
deriving DecidableEq

/-- A `struct timeout_list **`: the address of `s->timeouts` or of the `next` field of a
node. -/
inductive timeout_slot where
  | head
  | next_of (a : Nat)
deriving DecidableEq

/-- The timeout part of `struct scene`: the nodes on the heap, the list head `timeouts`
and the pointer `timeouts_tail`. -/
structure scene where
  nodes : heap timeout_list
  timeouts : Option Nat
  timeouts_tail : timeout_slot
deriving DecidableEq

/-- A call `luabridge_scene_run_timeout(s->lua, callback, overflow)`. -/
structure timeout_call where
  callback : Int
  overflow : ℚ
deriving DecidableEq

/-- The timeout part of the scene that `scene_create` makes: no timeout, and
`timeouts_tail` is the address of `timeouts`. -/
def scene_create : scene :=
  { nodes := [], timeouts := none, timeouts_tail := timeout_slot.head }

/-- The read `*ptl` of a slot; undefined when the slot lies in a freed node. -/
def scene.read_slot (s : scene) : timeout_slot → outcome (Option Nat)
  | timeout_slot.head => outcome.done s.timeouts
  | timeout_slot.next_of a =>
    match s.nodes.read a with
    | none => outcome.undefined
    | some n => outcome.done n.next

/-- The store `*ptl = p` into a slot; undefined when the slot lies in a freed node. -/
def scene.write_slot (s : scene) (p : Option Nat) : timeout_slot → outcome scene
  | timeout_slot.head => outcome.done { s with timeouts := p }
  | timeout_slot.next_of a =>
    match s.nodes.read a with
    | none => outcome.undefined
    | some n => outcome.done { s with nodes := s.nodes.write a { n with next := p } }

/-- `scene_add_timeout`. -/
def scene_add_timeout (s : scene) (callback : Int) (ms : ℚ) : outcome scene :=
  let r := s.nodes.alloc { ms_remaining := ms, callback := callback, next := none }
  ({ s with nodes := r.1 }.write_slot (some r.2) s.timeouts_tail).bind
    (fun s1 => outcome.done { s1 with timeouts_tail := timeout_slot.next_of r.2 })

/-- The `while (*ptl)` loop of `scene_tick`, entered with the slot `ptl`: the scene after
the loop and the timeout callbacks run, in order.  The callbacks are taken not to touch
the timeouts.  Every round passes a node or frees one, so `fuel` above the number of
nodes is never used up unless the list is a cycle. -/
def scene_tick_loop (ms : ℚ) : Nat → scene → timeout_slot → outcome (scene × List timeout_call)
  | 0, _, _ => outcome.undefined
  | fuel + 1, s, ptl =>
    match s.read_slot ptl with
    | outcome.done none => outcome.done (s, [])
    | outcome.done (some a) =>
      match s.nodes.read a with
      | none => outcome.undefined
      | some tl =>
        let tl := { tl with ms_remaining := tl.ms_remaining - ms }
        let s := { s with nodes := s.nodes.write a tl }
        if tl.ms_remaining > 0 then scene_tick_loop ms fuel s (timeout_slot.next_of a)
        else
          (s.write_slot tl.next ptl).bind (fun s1 =>
            (scene_tick_loop ms fuel { s1 with nodes := s1.nodes.free a } ptl).bind (fun r =>
              outcome.done
                (r.1, { callback := tl.callback, overflow := -tl.ms_remaining } :: r.2)))
    | outcome.assert_failed => outcome.assert_failed
    | outcome.undefined => outcome.undefined

/-- The timeout part of `scene_tick`, `dt` in seconds. -/
def scene_tick (s : scene) (dt : ℚ) : outcome (scene × List timeout_call) :=
  scene_tick_loop (dt * 1000) (s.nodes.length + 1) s timeout_slot.head

/-- The timeouts reached from a pointer by following `next`, with at most `fuel` steps;
a freed node ends the walk and is listed as `none`. -/
def timeout_list_from (s : scene) : Nat → Option Nat → List (Nat × Option timeout_list)
  | 0, _ => []
  | _ + 1, none => []
  | fuel + 1, some a =>
    match s.nodes.read a with
    | none => [(a, none)]
    | some n => (a, some n) :: timeout_list_from s fuel n.next

/-- The timeout list reachable from `s->timeouts`. -/
def scene.timeout_list (s : scene) : List (Nat × Option timeout_list) :=
  timeout_list_from s (s.nodes.length + 1) s.timeouts

/-- The scene after `scene_add_timeout(s, 1, 10)` on a new scene. -/
def scene_one : scene :=
  { nodes := [some { ms_remaining := 10, callback := 1, next := none }],
    timeouts := some 0, timeouts_tail := timeout_slot.next_of 0 }

/-- The scene after a tick of 20 ms on `scene_one`: the timeout has run, its node is
freed and the list is empty, and `timeouts_tail` is still the address of the `next`
field of the freed node. -/
def scene_expired : scene :=
  { nodes := [none], timeouts := none, timeouts_tail := timeout_slot.next_of 0 }

/-- The scene after `scene_add_timeout(s, 1, 30)` and `scene_add_timeout(s, 2, 10)` on a
new scene. -/
def scene_two : scene :=
  { nodes := [some { ms_remaining := 30, callback := 1, next := some 1 },
              some { ms_remaining := 10, callback := 2, next := none }],
    timeouts := some 0, timeouts_tail := timeout_slot.next_of 1 }

/-- The scene after a tick of 20 ms on `scene_two`: the second timeout has run and its
node is freed, the first is the only node of the list, and `timeouts_tail` is still the
address of the `next` field of the freed node. -/
def scene_last_expired : scene :=
  { nodes := [some { ms_remaining := 10, callback := 1, next := none }, none],
    timeouts := some 0, timeouts_tail := timeout_slot.next_of 1 }

/-! ## actor.c and scene.c: actors on the walkmap -/

/-- The function `actor_movement_callback` as the value of a function pointer. -/
def actor_movement_callback : Nat :=
  1

/-- `actor_add_to_walkmap`: the actor and the walkmap after the call.  The fatal "Actor
outside walkmap" of `update_actor_data` is a failed assertion. -/
def actor_add_to_walkmap (circle : ℚ → b2Shape) (a : actor) (pos : vec3) (facing : ℚ)
    (w : walkmap) : outcome (actor × walkmap) :=
  match walkmap_register_actor circle w a.self pos a.collision_radius with
  | none => outcome.assert_failed
  | some (w1, ad) =>
    let ad1 := walkmap_set_movement_callback ad (some actor_movement_callback)
    outcome.done
      ({ a with facing := facing, walkmap_data := some ad.co.body,
                cached_position := walkmap_actor_position ad1 },
        { w1 with collision := store_actordata ad.co.body ad1 w1.collision })

/-- `actor_remove_from_walkmap`: the actor and the walkmap after the call.
`walkmap_unregister_actor` reads `ad->co` through the pointer it is given, so a null
`walkmap_data` is undefined. -/
def actor_remove_from_walkmap (a : actor) (w : walkmap) : outcome (actor × walkmap) :=
  match a.walkmap_data with
  | none => outcome.undefined
  | some p =>
    match w.actordata p with
    | none => outcome.undefined
    | some ad =>
      (walkmap_unregister_actor w ad).bind
        (fun w1 => outcome.done ({ a with walkmap_data := none }, w1))

/-- `actor_destroy`, without the model: the walkmap after the call. -/
def actor_destroy (a : actor) (w : walkmap) : outcome walkmap :=
  match a.walkmap_data with
  | none => outcome.done w
  | some _ => (actor_remove_from_walkmap a w).bind (fun r => outcome.done r.2)

/-- The actor loop of `scene_destroy`. -/
def scene_destroy_actors : List actor → walkmap → outcome walkmap
  | [], w => outcome.done w
  | a :: al, w => (actor_destroy a w).bind (fun w1 => scene_destroy_actors al w1)

/-- `scene_destroy` for the actors and the walkmap of the scene: the actors are
destroyed, then the walkmap. -/
def scene_destroy (actors : List actor) (w : walkmap) : outcome Unit :=
  (scene_destroy_actors actors w).bind (fun w1 => walkmap_destroy w1)

/-- The number of live bodies of the `collision` world that belong to the actor. -/
def actor_body_count (w : walkmap) (a : actor) : Nat :=
  w.actors.countP (fun ad => ad.actor == a.self)

/-- A call of `actor_add_to_walkmap` or of `actor_remove_from_walkmap`. -/
inductive actor_call where
  | add (pos : vec3) (facing : ℚ)
  | remove

/-- A sequence of calls on one actor, from the first call on. -/
def actor_calls (circle : ℚ → b2Shape) : List actor_call → actor × walkmap →
    outcome (actor × walkmap)
  | [], s => outcome.done s
  | actor_call.add pos facing :: cs, s =>
    (actor_add_to_walkmap circle s.1 pos facing s.2).bind (fun s1 => actor_calls circle cs s1)
  | actor_call.remove :: cs, s =>
    (actor_remove_from_walkmap s.1 s.2).bind (fun s1 => actor_calls circle cs s1)

/-- The calls alternate: the actor is added only while it is off the walkmap and removed
only while it is on it; `attached` tells where it is before the first call. -/
def alternating : Bool → List actor_call → Bool
  | _, [] => true
  | false, actor_call.add _ _ :: cs => alternating true cs
  | true, actor_call.remove :: cs => alternating false cs
  | _, _ => false

/-! ## Lemmas on the filters -/

theorem height_filter_eq (current test : walkmap_triangle) (pos : vec3) :
    walkmap_triangle_hittest_height_filter current test pos =
      if height_gap pos test < height_gap pos current then test else current := rfl

theorem group_filter_eq (current test : walkmap_triangle) (group_mask : Nat) :
    walkmap_triangle_hittest_group_filter current test group_mask =
      if group_in_mask group_mask test = true ∧ group_in_mask group_mask current = false then test
      else current := by
  unfold walkmap_triangle_hittest_group_filter group_in_mask
  by_cases h1 : group_mask &&& (1 <<< test.group) ≠ 0 <;>
    by_cases h2 : group_mask &&& (1 <<< current.group) ≠ 0 <;> simp [h1, h2]

/-- Folding a strict "smaller key wins" filter from `c` over `cs` splits `c :: cs` around
the first element of minimal key. -/
theorem foldl_first_min {α : Type} (d : α → ℚ) (cs : List α) (c : α) :
    ∃ pre post, c :: cs = pre ++ cs.foldl (fun m t => if d t < d m then t else m) c :: post ∧
      (∀ x ∈ pre, d (cs.foldl (fun m t => if d t < d m then t else m) c) < d x) ∧
      (∀ x ∈ post, d (cs.foldl (fun m t => if d t < d m then t else m) c) ≤ d x) := by
  induction cs using List.reverseRecOn with
  | nil => exact ⟨[], [], rfl, by simp, by simp⟩
  | append_singleton cs t ih =>
    obtain ⟨pre, post, hsplit, hpre, hpost⟩ := ih
    rw [List.foldl_append]
    simp only [List.foldl_cons, List.foldl_nil]
    set r := cs.foldl (fun m t => if d t < d m then t else m) c with hr
    by_cases h : d t < d r
    · rw [if_pos h]
      refine ⟨pre ++ r :: post, [], ?_, ?_, by simp⟩
      · rw [← List.cons_append, hsplit]
      · intro x hx
        rcases List.mem_append.1 hx with hx | hx
        · exact lt_trans h (hpre x hx)
        · rcases List.mem_cons.1 hx with hx | hx
          · rw [hx]; exact h
          · exact lt_of_lt_of_le h (hpost x hx)
    · rw [if_neg h]
      refine ⟨pre, post ++ [t], ?_, hpre, ?_⟩
      · rw [← List.cons_append, hsplit]; simp
      · intro x hx
        rcases List.mem_append.1 hx with hx | hx
        · exact hpost x hx
        · rw [List.mem_singleton.1 hx]; exact not_lt.1 h

/-- Folding the "first match wins" filter from `c` over `cs` finds the first element of
`c :: cs` that passes the test, or `c` when there is none. -/
theorem foldl_first_match {α : Type} (q : α → Bool) (cs : List α) (c : α) :
    cs.foldl (fun m t => if q t = true ∧ q m = false then t else m) c =
      ((c :: cs).find? q).getD c := by
  induction cs generalizing c with
  | nil => cases h : q c <;> simp [List.find?, h]
  | cons t cs ih =>
    rw [List.foldl_cons, ih]
    cases hc : q c <;> cases ht : q t <;> simp [List.find?, hc, ht]

/-! ## Lemmas on the hittest -/

theorem foldl_filter_step {α γ : Type} (q : α → Bool) (g : γ → α → γ) (l : List α) (init : γ) :
    l.foldl (fun m f => if !q f then m else g m f) init = (l.filter q).foldl g init := by
  induction l generalizing init with
  | nil => rfl
  | cons a l ih =>
    rw [List.foldl_cons, List.filter_cons]
    cases h : q a
    · exact ih _
    · exact ih _

theorem collision_world_hittest_eq {α β : Type} (world : collision_world α) (pos : b2Vec2)
    (callback : Option α → Option α → β → Option α) (callbackdata : β) :
    collision_world_hittest world pos callback callbackdata =
      ((QueryAABB world (probe pos)).filter (fun f => f.fixture.TestPoint pos)).foldl
        (match_step callback callbackdata) none := by
  unfold collision_world_hittest
  simp only []
  rw [← foldl_filter_step]
  rfl

/-- The broad phase misses no fixture: the box of a fixture that contains `pos` overlaps
the query box around `pos`. -/
theorem broadphase_sound (co : collision_object) (pos : b2Vec2)
    (h : co.TestPoint pos = true) : b2TestOverlap co.aabb (probe pos) = true := by
  have he := co.shape.encloses _ h
  simp only at he
  unfold b2TestOverlap probe collision_object.aabb
  simp only []
  rw [if_neg, if_neg]
  · rintro (h1 | h1) <;> linarith [he.1, he.2.1]
  · rintro (h1 | h1) <;> linarith [he.2.2.1, he.2.2.2]

theorem query_containing {α : Type} (world : collision_world α) (pos : b2Vec2) :
    (QueryAABB world (probe pos)).filter (fun f => f.fixture.TestPoint pos) =
      containing world pos := by
  unfold QueryAABB containing
  rw [List.filter_filter]
  apply List.filter_congr
  intro f _
  cases h : f.fixture.TestPoint pos
  · simp
  · simp [broadphase_sound f.fixture pos h]

theorem foldl_match_step_some {α β : Type} (f : α → α → β → α) (data : β)
    (l : List (b2Body α)) (hl : ∀ b ∈ l, b.userData ≠ none) (m : α) :
    l.foldl (match_step (as_callback f) data) (some m) =
      some ((l.filterMap (fun b => b.userData)).foldl (fun m t => f m t data) m) := by
  induction l generalizing m with
  | nil => rfl
  | cons b l ih =>
    have hb : b.userData ≠ none := hl b (List.mem_cons_self _ _)
    obtain ⟨t, ht⟩ := Option.ne_none_iff_exists'.1 hb
    have hl2 : ∀ b ∈ l, b.userData ≠ none := fun x hx => hl x (List.mem_cons_of_mem _ hx)
    simp only [List.foldl_cons, match_step, as_callback, ht, List.filterMap_cons]
    exact ih hl2 _

theorem foldl_match_step_none {α β : Type} (f : α → α → β → α) (data : β)
    (l : List (b2Body α)) (hl : ∀ b ∈ l, b.userData ≠ none) :
    l.foldl (match_step (as_callback f) data) none =
      hittest_fold f data (l.filterMap (fun b => b.userData)) := by
  cases l with
  | nil => rfl
  | cons b l =>
    have hb : b.userData ≠ none := hl b (List.mem_cons_self _ _)
    obtain ⟨t, ht⟩ := Option.ne_none_iff_exists'.1 hb
    have hl2 : ∀ b ∈ l, b.userData ≠ none := fun x hx => hl x (List.mem_cons_of_mem _ hx)
    simp only [List.foldl_cons, match_step, ht, List.filterMap_cons, hittest_fold]
    exact foldl_match_step_some f data l hl2 t

/-- With a typed filter and no null user data among the fixtures that contain the
point, the hittest is the fold of the filter over the candidates found by the query. -/
theorem collision_world_hittest_fold {α β : Type} (world : collision_world α) (pos : b2Vec2)
    (f : α → α → β → α) (data : β)
    (hu : ∀ b ∈ world, b.fixture.TestPoint pos = true → b.userData ≠ none) :
    collision_world_hittest world pos (as_callback f) data =
      hittest_fold f data
        (((QueryAABB world (probe pos)).filter (fun b => b.fixture.TestPoint pos)).filterMap
          (fun b => b.userData)) := by
  rw [collision_world_hittest_eq]
  apply foldl_match_step_none
  intro b hb
  rw [List.mem_filter] at hb
  exact hu b (List.mem_of_mem_filter hb.1) hb.2

theorem hittest_fold_isSome {α β : Type} (f : α → α → β → α) (data : β) (l : List α) :
    (hittest_fold f data l).isSome = !l.isEmpty := by
  cases l <;> rfl

/-- In a world whose bodies all carry user data, the hittest with a typed filter is the
fold of the filter over the user data of the fixtures that contain the point. -/
theorem collision_world_hittest_candidates {α β : Type} (world : collision_world α)
    (pos : b2Vec2) (f : α → α → β → α) (data : β) (hu : ∀ b ∈ world, b.userData ≠ none) :
    collision_world_hittest world pos (as_callback f) data =
      hittest_fold f data ((containing world pos).filterMap (fun b => b.userData)) := by
  rw [collision_world_hittest_fold world pos f data (fun b hb _ => hu b hb), query_containing]

/-! ## Height interpolation -/

/-- C1: for a triangle built by the loader from vertices whose planar projections are not
collinear, at the point `c + s (a - c) + t (b - c)` the computed weights are `s` and `t`,
the three weights sum to one, the height is `c.z + s (a.z - c.z) + t (b.z - c.z)`, and
the heights at the three vertices are `a.z`, `b.z`, `c.z`. -/
theorem height_at_point_barycentric (polygon : List b2Vec2 → b2Shape) (group mask : Nat)
    (a b c : vec3) (s t : ℚ)
    (hdet : (b.y - c.y) * (a.x - c.x) - (b.x - c.x) * (a.y - c.y) ≠ 0) :
    let T := load_map_triangle polygon group mask a b c
    let P : b2Vec2 :=
      ⟨c.x + s * (a.x - c.x) + t * (b.x - c.x), c.y + s * (a.y - c.y) + t * (b.y - c.y)⟩
    T.invdet = 1 / ((b.y - c.y) * (a.x - c.x) - (b.x - c.x) * (a.y - c.y)) ∧
    walkmap_triangle_height_at_point T P =
      barycentric_u T P * a.z + barycentric_v T P * b.z +
        (1 - barycentric_u T P - barycentric_v T P) * c.z ∧
    barycentric_u T P = s ∧ barycentric_v T P = t ∧
    barycentric_u T P + barycentric_v T P + (1 - barycentric_u T P - barycentric_v T P) = 1 ∧
    walkmap_triangle_height_at_point T P = c.z + s * (a.z - c.z) + t * (b.z - c.z) ∧
    walkmap_triangle_height_at_point T a.xy = a.z ∧
    walkmap_triangle_height_at_point T b.xy = b.z ∧
    walkmap_triangle_height_at_point T c.xy = c.z := by
  intro T P
  have hu : barycentric_u T P = s := by
    simp only [barycentric_u, T, P, load_map_triangle]
    field_simp
    ring
  have hv : barycentric_v T P = t := by
    simp only [barycentric_v, T, P, load_map_triangle]
    field_simp
    ring
  have hh : walkmap_triangle_height_at_point T P =
      barycentric_u T P * a.z + barycentric_v T P * b.z +
        (1 - barycentric_u T P - barycentric_v T P) * c.z := rfl
  refine ⟨rfl, hh, hu, hv, by ring, ?_, ?_, ?_, ?_⟩
  · rw [hh, hu, hv]; ring
  · simp only [walkmap_triangle_height_at_point, T, load_map_triangle, vec3.xy]
    field_simp
    ring
  · simp only [walkmap_triangle_height_at_point, T, load_map_triangle, vec3.xy]
    field_simp
    ring
  · simp only [walkmap_triangle_height_at_point, T, load_map_triangle, vec3.xy]
    ring

/-- An instance of the preceding theorem: at the ramp of the example, with
`s = 1/4` and `t = 1/4`. -/
theorem height_at_point_barycentric_witness :
    ((0 : ℚ) - 4) * (0 - 0) - (4 - 0) * (0 - 4) ≠ 0 ∧
    walkmap_triangle_height_at_point ramp_triangle ⟨1, 1⟩ = 2 ∧
    barycentric_u (load_map_triangle exact_polygon 1 2 ⟨0, 0, 6⟩ ⟨4, 0, -2⟩ ⟨0, 4, -2⟩)
      ⟨0 + 1 / 4 * (0 - 0) + 1 / 4 * (4 - 0), 4 + 1 / 4 * (0 - 4) + 1 / 4 * (0 - 4)⟩ = 1 / 4 :=
  ⟨by norm_num, by with_unfolding_all decide,
    (height_at_point_barycentric exact_polygon 1 2 ⟨0, 0, 6⟩ ⟨4, 0, -2⟩ ⟨0, 4, -2⟩ (1 / 4) (1 / 4)
      (by norm_num)).2.2.1⟩

/-! ## The two filters -/

theorem height_fold_eq (pos : vec3) (c : walkmap_triangle) (cs : List walkmap_triangle) :
    hittest_fold walkmap_triangle_hittest_height_filter pos (c :: cs) =
      some (cs.foldl
        (fun m t => if height_gap pos t < height_gap pos m then t else m) c) := rfl

/-- The result of the height fold is the only strict minimiser, when there is one. -/
theorem height_fold_unique (pos : vec3) (l : List walkmap_triangle) (m : walkmap_triangle)
    (hm : m ∈ l) (hmin : ∀ x ∈ l, x ≠ m → height_gap pos m < height_gap pos x) :
    hittest_fold walkmap_triangle_hittest_height_filter pos l = some m := by
  cases l with
  | nil => cases hm
  | cons c cs =>
    rw [height_fold_eq]
    obtain ⟨pre, post, hsplit, -, -⟩ := foldl_first_min (height_gap pos) cs c
    obtain ⟨pre2, post2, hsplit2, hpre2, hpost2⟩ := foldl_first_min (height_gap pos) cs c
    set r := cs.foldl (fun m t => if height_gap pos t < height_gap pos m then t else m) c
    have hr : r ∈ c :: cs := by rw [hsplit]; simp
    by_contra hne
    have hrm : r ≠ m := fun h => hne (by rw [h])
    have h1 : height_gap pos m < height_gap pos r := hmin r hr hrm
    have h2 : height_gap pos r ≤ height_gap pos m := by
      rw [hsplit2] at hm
      rcases List.mem_append.1 hm with h | h
      · exact le_of_lt (hpre2 m h)
      · rcases List.mem_cons.1 h with h | h
        · rw [h]
        · exact hpost2 m h
    exact absurd h1 (not_lt.2 h2)

/-- C2: the hittest with the height filter is the fold of the filter over the candidates
(first candidate as initial match), and this fold over a non-empty candidate sequence returns a
candidate of minimal distance between its height at the query point and the query
height; every earlier candidate is strictly farther (on a tie the earlier candidate is
kept); and when one candidate is strictly closer than all others it is the result for
every order of the candidates. -/
theorem height_filter_fold_closest (pos : vec3) (c : walkmap_triangle)
    (cs : List walkmap_triangle) :
    (∀ (world : collision_world walkmap_triangle) (p : b2Vec2),
      (∀ b ∈ world, b.userData ≠ none) →
      collision_world_hittest world p (as_callback walkmap_triangle_hittest_height_filter) pos =
        hittest_fold walkmap_triangle_hittest_height_filter pos
          ((containing world p).filterMap (fun b => b.userData))) ∧
    ∃ r, hittest_fold walkmap_triangle_hittest_height_filter pos (c :: cs) = some r ∧
      (∀ x ∈ c :: cs, |walkmap_triangle_height_at_point r pos.xy - pos.z| ≤
        |walkmap_triangle_height_at_point x pos.xy - pos.z|) ∧
      (∃ pre post, c :: cs = pre ++ r :: post ∧
        ∀ x ∈ pre, |walkmap_triangle_height_at_point r pos.xy - pos.z| <
          |walkmap_triangle_height_at_point x pos.xy - pos.z|) ∧
      (∀ m ∈ c :: cs,
        (∀ x ∈ c :: cs, x ≠ m → |walkmap_triangle_height_at_point m pos.xy - pos.z| <
          |walkmap_triangle_height_at_point x pos.xy - pos.z|) →
        r = m ∧ ∀ l : List walkmap_triangle, l.Perm (c :: cs) →
          hittest_fold walkmap_triangle_hittest_height_filter pos l = some m) := by
  obtain ⟨pre, post, hsplit, hpre, hpost⟩ := foldl_first_min (height_gap pos) cs c
  refine ⟨fun world p hu => collision_world_hittest_candidates world p _ pos hu,
    _, height_fold_eq pos c cs, ?_, ⟨pre, post, hsplit, hpre⟩, ?_⟩
  · intro x hx
    rw [hsplit] at hx
    rcases List.mem_append.1 hx with h | h
    · exact le_of_lt (hpre x h)
    · rcases List.mem_cons.1 h with h | h
      · rw [h]
      · exact hpost x h
  · intro m hm hmin
    have h := height_fold_unique pos (c :: cs) m hm hmin
    rw [height_fold_eq] at h
    refine ⟨Option.some.inj h, ?_⟩
    intro l hl
    apply height_fold_unique pos l m (hl.mem_iff.2 hm)
    intro x hx hne
    exact hmin x (hl.mem_iff.1 hx) hne

/-- C5: the hittest with the group filter is the fold of the filter over the candidates
(first candidate as initial match), and this fold over a non-empty candidate sequence returns the
first candidate whose group bit is set in the mask, or the first candidate when no
candidate has its bit set.  Hence a candidate whose group is in the mask wins over one
whose group is not, in either order and whatever their heights, and with the mask
0xFFFF of an actor without previous triangle the first candidate is kept (its group
being below 16). -/
theorem group_filter_fold_first (group_mask : Nat) (c : walkmap_triangle)
    (cs : List walkmap_triangle) :
    (∀ (world : collision_world walkmap_triangle) (p : b2Vec2),
      (∀ b ∈ world, b.userData ≠ none) →
      collision_world_hittest world p (as_callback walkmap_triangle_hittest_group_filter)
          group_mask =
        hittest_fold walkmap_triangle_hittest_group_filter group_mask
          ((containing world p).filterMap (fun b => b.userData))) ∧
    hittest_fold walkmap_triangle_hittest_group_filter group_mask (c :: cs) =
        some (((c :: cs).find? (fun t => decide (group_mask &&& (1 <<< t.group) ≠ 0))).getD c) ∧
      (∀ B C : walkmap_triangle, group_mask &&& (1 <<< B.group) ≠ 0 →
        group_mask &&& (1 <<< C.group) = 0 →
        hittest_fold walkmap_triangle_hittest_group_filter group_mask [B, C] = some B ∧
        hittest_fold walkmap_triangle_hittest_group_filter group_mask [C, B] = some B) ∧
      (c.group < 16 →
        hittest_fold walkmap_triangle_hittest_group_filter 65535 (c :: cs) = some c) := by
  have key : ∀ (mask : Nat) (c : walkmap_triangle) (cs : List walkmap_triangle),
      hittest_fold walkmap_triangle_hittest_group_filter mask (c :: cs) =
        some (((c :: cs).find? (group_in_mask mask)).getD c) := by
    intro mask c cs
    simp only [hittest_fold, group_filter_eq]
    rw [foldl_first_match (group_in_mask mask) cs c]
  refine ⟨fun world p hu => collision_world_hittest_candidates world p _ group_mask hu,
    key group_mask c cs, ?_, ?_⟩
  · intro B C hB hC
    have hB2 : group_in_mask group_mask B = true := by simp [group_in_mask, hB]
    have hC2 : group_in_mask group_mask C = false := by simp [group_in_mask, hC]
    constructor
    · rw [key]; simp [List.find?, hB2]
    · rw [key]; simp [List.find?, hB2, hC2]
  · intro hc
    have h16 : group_in_mask 65535 c = true := by
      have : ∀ g < 16, decide (65535 &&& (1 <<< g) ≠ 0) = true := by decide
      exact this c.group hc
    rw [key]; simp [List.find?, h16]

/-- An instance of the preceding theorem: for an actor standing on the ramp (mask 2):
the ramp (group 1) wins over the floor (group 0) in both orders, and with the mask
0xFFFF the floor, listed first, is kept. -/
theorem group_filter_fold_first_witness :
    (2 &&& (1 <<< ramp_triangle.group) ≠ 0 ∧ 2 &&& (1 <<< floor_triangle.group) = 0 ∧
      floor_triangle.group < 16) ∧
    ((hittest_fold walkmap_triangle_hittest_group_filter 2 [ramp_triangle, floor_triangle]).map
        (fun t => t.group) = some 1 ∧
      (hittest_fold walkmap_triangle_hittest_group_filter 2 [floor_triangle, ramp_triangle]).map
        (fun t => t.group) = some 1) ∧
    hittest_fold walkmap_triangle_hittest_group_filter 65535 [floor_triangle, ramp_triangle] =
      some floor_triangle :=
  ⟨⟨by decide, by decide, by decide⟩,
    by
      have h := (group_filter_fold_first 2 floor_triangle [ramp_triangle]).2.2.1 ramp_triangle
        floor_triangle (by decide) (by decide)
      rw [h.1, h.2]
      exact ⟨rfl, rfl⟩,
    (group_filter_fold_first 2 floor_triangle [ramp_triangle]).2.2.2 (by decide)⟩

/-- An instance of the preceding theorem: at the point (1, 1, 2) of the ramp:
the ramp is at distance 0, the floor at distance 2, and the ramp is the result in both
orders. -/
theorem height_filter_fold_closest_witness :
    (hittest_fold walkmap_triangle_hittest_height_filter ⟨1, 1, 2⟩
        [floor_triangle, ramp_triangle]).map (fun t => t.group) = some 1 ∧
    (hittest_fold walkmap_triangle_hittest_height_filter ⟨1, 1, 2⟩
        [ramp_triangle, floor_triangle]).map (fun t => t.group) = some 1 ∧
    ∃ r, hittest_fold walkmap_triangle_hittest_height_filter ⟨1, 1, 2⟩
        [floor_triangle, ramp_triangle] = some r ∧
      ∀ x ∈ [floor_triangle, ramp_triangle],
        |walkmap_triangle_height_at_point r (vec3.xy ⟨1, 1, 2⟩) - 2| ≤
          |walkmap_triangle_height_at_point x (vec3.xy ⟨1, 1, 2⟩) - 2| :=
  ⟨by with_unfolding_all decide, by with_unfolding_all decide,
    (height_filter_fold_closest ⟨1, 1, 2⟩ floor_triangle [ramp_triangle]).2.imp
      (fun _ h => ⟨h.1, h.2.1⟩)⟩

/-! ## The hittest of a world -/

theorem foldl_match_step_callback {α β : Type} (callback : Option α → Option α → β → Option α)
    (data : β) (hc : ∀ m t, callback (some m) (some t) data ≠ none)
    (l : List (b2Body α)) (hl : ∀ b ∈ l, b.userData ≠ none) (m : α) :
    ∃ r, l.foldl (match_step callback data) (some m) = some r ∧
      (l.map (fun b => b.userData)).foldl (fun m t => callback m t data) (some m) = some r := by
  induction l generalizing m with
  | nil => exact ⟨m, rfl, rfl⟩
  | cons b l ih =>
    have hb : b.userData ≠ none := hl b (List.mem_cons_self _ _)
    obtain ⟨t, ht⟩ := Option.ne_none_iff_exists'.1 hb
    obtain ⟨m2, hm2⟩ := Option.ne_none_iff_exists'.1 (hc m t)
    have hl2 : ∀ b ∈ l, b.userData ≠ none := fun x hx => hl x (List.mem_cons_of_mem _ hx)
    simp only [List.foldl_cons, List.map_cons, match_step, ht, hm2]
    exact ih hl2 m2

theorem containing_eq_nil {α : Type} (world : collision_world α) (pos : b2Vec2) :
    containing world pos = [] ↔ ∀ f ∈ world, f.fixture.TestPoint pos = false := by
  unfold containing
  rw [List.filter_eq_nil_iff]
  constructor
  · intro h f hf
    cases hfp : f.fixture.TestPoint pos
    · rfl
    · exact absurd hfp (h f hf)
  · intro h f hf
    rw [h f hf]
    simp

/-- C8, as the code has it: a null `match` is the "nothing found yet" mark, so a
containing fixture whose user data is null leaves the result null.  Here the only
fixture of the world contains the point (1, 1) and the hittest returns null. -/
theorem collision_world_hittest_null_userdata :
    ¬ (collision_world_hittest null_userdata_world ⟨1, 1⟩
          (as_callback walkmap_triangle_hittest_height_filter) ⟨1, 1, 0⟩ = none ↔
        ∀ f ∈ null_userdata_world, f.fixture.TestPoint ⟨1, 1⟩ = false) := by
  intro h
  have hnone : collision_world_hittest null_userdata_world ⟨1, 1⟩
      (as_callback walkmap_triangle_hittest_height_filter) ⟨1, 1, 0⟩ = none := by
    rw [collision_world_hittest_eq]
    have hq : ∀ l : List (b2Body walkmap_triangle), (∀ b ∈ l, b.userData = none) →
        l.foldl (match_step (as_callback walkmap_triangle_hittest_height_filter)
          (⟨1, 1, 0⟩ : vec3)) none = none := by
      intro l
      induction l with
      | nil => intro _; rfl
      | cons b l ih =>
        intro hl
        rw [List.foldl_cons]
        have hb : b.userData = none := hl b (List.mem_cons_self _ _)
        simp only [match_step, hb]
        exact ih (fun x hx => hl x (List.mem_cons_of_mem _ hx))
    apply hq
    intro b hb
    have hb2 := List.mem_of_mem_filter (List.mem_of_mem_filter hb)
    simp only [null_userdata_world, List.mem_singleton] at hb2
    rw [hb2]
  have hall := h.1 hnone
  have hin := hall ⟨floor_triangle.co, none⟩ (by simp [null_userdata_world])
  have hcontains : floor_triangle.co.TestPoint ⟨1, 1⟩ = true := by with_unfolding_all decide
  simp only at hin
  rw [hcontains] at hin
  exact Bool.noConfusion hin

/-- C8, amended: when every fixture that contains `pos` carries non-null user data and
the callback never returns null for two non-null arguments, the hittest returns null if
and only if no fixture of the world contains `pos`, and otherwise it returns the left
fold of the callback over the user data of exactly the fixtures that contain `pos`, in
world order, the first of them being the initial value. -/
theorem collision_world_hittest_fold_containing {α β : Type} (world : collision_world α)
    (pos : b2Vec2) (callback : Option α → Option α → β → Option α) (callbackdata : β)
    (hu : ∀ f ∈ world, f.fixture.TestPoint pos = true → f.userData ≠ none)
    (hc : ∀ m t, callback (some m) (some t) callbackdata ≠ none) :
    (collision_world_hittest world pos callback callbackdata = none ↔
        ∀ f ∈ world, f.fixture.TestPoint pos = false) ∧
      collision_world_hittest world pos callback callbackdata =
        match (containing world pos).map (fun f => f.userData) with
        | [] => none
        | c :: cs => cs.foldl (fun m t => callback m t callbackdata) c := by
  rw [collision_world_hittest_eq, query_containing, ← containing_eq_nil]
  have hl : ∀ b ∈ containing world pos, b.userData ≠ none := by
    intro b hb
    have hb2 := List.mem_filter.1 hb
    exact hu b hb2.1 hb2.2
  cases hcont : containing world pos with
  | nil => exact ⟨by simp, rfl⟩
  | cons b l =>
    rw [hcont] at hl
    have hb : b.userData ≠ none := hl b (List.mem_cons_self _ _)
    obtain ⟨t, ht⟩ := Option.ne_none_iff_exists'.1 hb
    have hl2 : ∀ b ∈ l, b.userData ≠ none := fun x hx => hl x (List.mem_cons_of_mem _ hx)
    obtain ⟨r, hr1, hr2⟩ := foldl_match_step_callback callback callbackdata hc l hl2 t
    simp only [List.foldl_cons, List.map_cons, match_step, ht]
    rw [hr1, hr2]
    exact ⟨by simp, rfl⟩

/-- An instance of the preceding theorem: in the lookup world of the
example at the point (1, 1): both triangles contain the point and carry their triangle
as user data, so the hittest does not return null. -/
theorem collision_world_hittest_fold_containing_witness :
    (∃ f ∈ bridge_walkmap.walkmap_triangle_lookup, f.fixture.TestPoint ⟨1, 1⟩ = true) ∧
    collision_world_hittest bridge_walkmap.walkmap_triangle_lookup ⟨1, 1⟩
      (as_callback walkmap_triangle_hittest_height_filter) ⟨1, 1, 2⟩ ≠ none := by
  have hin : triangle_body floor_triangle ∈ bridge_walkmap.walkmap_triangle_lookup := by
    simp [bridge_walkmap]
  have hcontains : (triangle_body floor_triangle).fixture.TestPoint ⟨1, 1⟩ = true := by
    with_unfolding_all decide
  have h := collision_world_hittest_fold_containing bridge_walkmap.walkmap_triangle_lookup
    ⟨1, 1⟩ (as_callback walkmap_triangle_hittest_height_filter) (⟨1, 1, 2⟩ : vec3)
    (by
      intro f hf _
      simp only [bridge_walkmap, List.mem_cons, List.mem_singleton, List.not_mem_nil,
        or_false] at hf
      rcases hf with hf | hf <;> rw [hf] <;> simp [triangle_body])
    (by intro m t; simp [as_callback])
  refine ⟨⟨_, hin, hcontains⟩, ?_⟩
  intro hnone
  have hall := h.1.1 hnone _ hin
  rw [hcontains] at hall
  exact Bool.noConfusion hall

/-! ## The update of an actor -/

theorem update_actor_data_eq (w : walkmap) (ad : walkmap_actordata) (ph : Bool) :
    update_actor_data w ad ph =
      (actor_hittest w ad ph).map (fun wt =>
        { ad with
          co := { ad.co with filter := wt.co.filter }
          current_triangle := some wt
          position := ⟨ad.co.position.x, ad.co.position.y,
            walkmap_triangle_height_at_point wt ad.co.position⟩ }) := by
  unfold update_actor_data actor_hittest
  cases ph <;> simp only [collision_object_position] <;>
    split <;> simp_all [collision_object_copy_collisiondata, vec3.xy]

theorem height_filter_choice (c t : walkmap_triangle) (d : vec3) :
    walkmap_triangle_hittest_height_filter c t d = c ∨
      walkmap_triangle_hittest_height_filter c t d = t := by
  unfold walkmap_triangle_hittest_height_filter
  simp only []
  split
  · exact Or.inr rfl
  · exact Or.inl rfl

theorem group_filter_choice (c t : walkmap_triangle) (d : Nat) :
    walkmap_triangle_hittest_group_filter c t d = c ∨
      walkmap_triangle_hittest_group_filter c t d = t := by
  unfold walkmap_triangle_hittest_group_filter
  split
  · exact Or.inr rfl
  · exact Or.inl rfl

theorem foldl_match_step_mem {α β : Type} (f : α → α → β → α) (data : β)
    (hf : ∀ c t, f c t data = c ∨ f c t data = t) (l : List (b2Body α)) (init : Option α)
    (r : α) (h : l.foldl (match_step (as_callback f) data) init = some r) :
    init = some r ∨ ∃ b ∈ l, b.userData = some r := by
  induction l generalizing init with
  | nil => exact Or.inl h
  | cons b l ih =>
    rw [List.foldl_cons] at h
    rcases ih _ h with h1 | ⟨b2, hb2, hu2⟩
    · cases init with
      | none =>
        exact Or.inr ⟨b, List.mem_cons_self _ _, h1⟩
      | some m =>
        cases hu : b.userData with
        | none => simp [match_step, as_callback, hu] at h1
        | some t =>
          simp only [match_step, as_callback, hu, Option.some.injEq] at h1
          rcases hf m t with h2 | h2
          · left; rw [← h1, h2]
          · right; exact ⟨b, List.mem_cons_self _ _, by rw [hu, ← h1, h2]⟩
    · exact Or.inr ⟨b2, List.mem_cons_of_mem _ hb2, hu2⟩

/-- A result of the hittest with a filter that returns one of its arguments is the user
data of a fixture of the world that contains the point. -/
theorem collision_world_hittest_mem {α β : Type} (world : collision_world α) (pos : b2Vec2)
    (f : α → α → β → α) (data : β) (hf : ∀ c t, f c t data = c ∨ f c t data = t) (r : α)
    (h : collision_world_hittest world pos (as_callback f) data = some r) :
    ∃ b ∈ world, b.fixture.TestPoint pos = true ∧ b.userData = some r := by
  rw [collision_world_hittest_eq, query_containing] at h
  rcases foldl_match_step_mem f data hf _ none r h with h1 | ⟨b, hb, hu⟩
  · cases h1
  · have hb2 := List.mem_filter.1 hb
    exact ⟨b, hb2.1, hb2.2, hu⟩

theorem collision_world_hittest_none {α β : Type} (world : collision_world α) (pos : b2Vec2)
    (callback : Option α → Option α → β → Option α) (data : β)
    (h : ∀ f ∈ world, f.fixture.TestPoint pos = false) :
    collision_world_hittest world pos callback data = none := by
  rw [collision_world_hittest_eq, query_containing, (containing_eq_nil world pos).2 h]
  rfl

theorem collision_world_hittest_isSome {α β : Type} (world : collision_world α) (pos : b2Vec2)
    (f : α → α → β → α) (data : β) (hu : ∀ b ∈ world, b.userData ≠ none)
    (h : ∃ b ∈ world, b.fixture.TestPoint pos = true) :
    (collision_world_hittest world pos (as_callback f) data).isSome = true := by
  rw [collision_world_hittest_fold world pos f data (fun b hb _ => hu b hb), query_containing,
    hittest_fold_isSome]
  obtain ⟨b, hb, hp⟩ := h
  have hmem : b ∈ containing world pos := List.mem_filter.2 ⟨hb, hp⟩
  obtain ⟨t, ht⟩ := Option.ne_none_iff_exists'.1 (hu b hb)
  have : t ∈ (containing world pos).filterMap (fun b => b.userData) :=
    List.mem_filterMap.2 ⟨b, hmem, ht⟩
  cases hl : (containing world pos).filterMap (fun b => b.userData) with
  | nil => rw [hl] at this; cases this
  | cons _ _ => rfl

theorem actor_hittest_mem (w : walkmap) (ad : walkmap_actordata) (ph : Bool)
    (wt : walkmap_triangle) (h : actor_hittest w ad ph = some wt) :
    ∃ b ∈ w.walkmap_triangle_lookup, b.fixture.TestPoint ad.co.position = true ∧
      b.userData = some wt := by
  unfold actor_hittest at h
  cases ph
  · exact collision_world_hittest_mem _ _ _ _ (fun c t => group_filter_choice c t _) wt h
  · exact collision_world_hittest_mem _ _ _ _ (fun c t => height_filter_choice c t _) wt h

theorem actor_hittest_none (w : walkmap) (ad : walkmap_actordata) (ph : Bool)
    (h : ¬ on_walkmap w ad.co.position) : actor_hittest w ad ph = none := by
  have h2 : ∀ f ∈ w.walkmap_triangle_lookup, f.fixture.TestPoint ad.co.position = false := by
    intro f hf
    cases hp : f.fixture.TestPoint ad.co.position
    · rfl
    · exact absurd ⟨f, hf, hp⟩ h
  unfold actor_hittest
  cases ph <;> exact collision_world_hittest_none _ _ _ _ h2

theorem loaded_userData (polygon : List b2Vec2 → b2Shape) (w : walkmap)
    (hl : w.loaded polygon) : ∀ b ∈ w.walkmap_triangle_lookup, b.userData ≠ none := by
  intro b hb
  obtain ⟨wt, -, rfl⟩ := hl.2 b hb
  simp [triangle_body]

theorem actor_hittest_isSome (polygon : List b2Vec2 → b2Shape) (w : walkmap)
    (hl : w.loaded polygon) (ad : walkmap_actordata) (ph : Bool)
    (h : on_walkmap w ad.co.position) : (actor_hittest w ad ph).isSome = true := by
  unfold actor_hittest
  cases ph <;>
    exact collision_world_hittest_isSome _ _ _ _ (loaded_userData polygon w hl) h

theorem update_actor_data_some (w : walkmap) (ad ad1 : walkmap_actordata) (ph : Bool)
    (h : update_actor_data w ad ph = some ad1) :
    ∃ wt, (∃ b ∈ w.walkmap_triangle_lookup, b.fixture.TestPoint ad.co.position = true ∧
        b.userData = some wt) ∧
      ad1 = { ad with
        co := { ad.co with filter := wt.co.filter }
        current_triangle := some wt
        position := ⟨ad.co.position.x, ad.co.position.y,
          walkmap_triangle_height_at_point wt ad.co.position⟩ } := by
  rw [update_actor_data_eq] at h
  cases hh : actor_hittest w ad ph with
  | none => rw [hh] at h; cases h
  | some wt =>
    rw [hh] at h
    exact ⟨wt, actor_hittest_mem w ad ph wt hh, (Option.some.inj h).symm⟩

theorem update_actor_data_none (w : walkmap) (ad : walkmap_actordata) (ph : Bool)
    (h : ¬ on_walkmap w ad.co.position) : update_actor_data w ad ph = none := by
  rw [update_actor_data_eq, actor_hittest_none w ad ph h]
  rfl

theorem update_actor_data_isSome (polygon : List b2Vec2 → b2Shape) (w : walkmap)
    (hl : w.loaded polygon) (ad : walkmap_actordata) (ph : Bool)
    (h : on_walkmap w ad.co.position) : (update_actor_data w ad ph).isSome = true := by
  rw [update_actor_data_eq, Option.isSome_map']
  exact actor_hittest_isSome polygon w hl ad ph h

theorem update_actor_data_consistent (w : walkmap) (ad ad1 : walkmap_actordata) (ph : Bool)
    (h : update_actor_data w ad ph = some ad1) :
    actor_consistent ad1 ∧ ad1.co.position = ad.co.position := by
  obtain ⟨wt, -, rfl⟩ := update_actor_data_some w ad ad1 ph h
  exact ⟨⟨wt, rfl, rfl, rfl, rfl⟩, rfl⟩

theorem shift_group_bit : ∀ g < 16, (1 <<< g) % 65536 = 1 <<< g := by decide

theorem update_actor_data_filter (polygon : List b2Vec2 → b2Shape) (w : walkmap)
    (hl : w.loaded polygon) (ad ad1 : walkmap_actordata) (ph : Bool)
    (h : update_actor_data w ad ph = some ad1) : filter_inherited ad1 := by
  obtain ⟨wt, ⟨b, hb, -, hu⟩, rfl⟩ := update_actor_data_some w ad ad1 ph h
  obtain ⟨wt0, hwt0, rfl⟩ := hl.2 b hb
  simp only [triangle_body, Option.some.injEq] at hu
  subst hu
  obtain ⟨group, mask, a, b, c, body, hg, -, rfl⟩ := hl.1 wt0 hwt0
  refine ⟨_, rfl, rfl, rfl, ?_⟩
  exact shift_group_bit group hg

theorem walkmap_tick_body_some (w : walkmap) (b b1 : collision_body)
    (ev : List movement_event) (h : walkmap_tick_body w b = some (b1, ev)) :
    (b1.userdata = none ∧ b.userdata = none) ∨
      ∃ ad ad1, b.userdata = some ad ∧ b1.userdata = some ad1 ∧
        update_actor_data w ad false = some ad1 := by
  cases b with
  | border co =>
    simp only [walkmap_tick_body, Option.some.injEq, Prod.mk.injEq] at h
    left
    rw [← h.1]
    exact ⟨rfl, rfl⟩
  | actor ad =>
    right
    unfold walkmap_tick_body at h
    cases hu : update_actor_data w ad false with
    | none => cases hc : ad.movement_callback <;> simp [hc, hu] at h
    | some ad1 =>
      refine ⟨ad, ad1, rfl, ?_, hu⟩
      cases hc : ad.movement_callback <;> simp [hc, hu] at h <;> rw [← h.1] <;> rfl

theorem walkmap_tick_loop_some (w : walkmap) (bs bs1 : List collision_body)
    (evs : List movement_event) (h : walkmap_tick_loop w bs = some (bs1, evs)) :
    ∀ ad1 ∈ actors_of bs1, ∃ ad ∈ actors_of bs, update_actor_data w ad false = some ad1 := by
  induction bs generalizing bs1 evs with
  | nil =>
    simp only [walkmap_tick_loop, Option.some.injEq, Prod.mk.injEq] at h
    rw [← h.1]
    intro ad1 h1
    cases h1
  | cons b bs ih =>
    unfold walkmap_tick_loop at h
    cases hb : walkmap_tick_body w b with
    | none => simp [hb] at h
    | some r =>
      obtain ⟨b1, ev⟩ := r
      cases hr : walkmap_tick_loop w bs with
      | none => simp [hb, hr] at h
      | some r2 =>
        obtain ⟨bs2, evs2⟩ := r2
        simp only [hb, hr, Option.some.injEq, Prod.mk.injEq] at h
        rw [← h.1]
        intro ad1 h1
        unfold actors_of at h1
        rw [List.filterMap_cons] at h1
        rcases walkmap_tick_body_some w b b1 ev hb with ⟨hn1, hn⟩ | ⟨ad, ad2, hu, hu1, hupd⟩
        · rw [hn1] at h1
          obtain ⟨ad, had, hupd⟩ := ih bs2 evs2 hr ad1 h1
          refine ⟨ad, ?_, hupd⟩
          unfold actors_of
          rw [List.filterMap_cons, hn]
          exact had
        · rw [hu1] at h1
          rcases List.mem_cons.1 h1 with h2 | h2
          · refine ⟨ad, ?_, by rw [h2]; exact hupd⟩
            unfold actors_of
            rw [List.filterMap_cons, hu]
            exact List.mem_cons_self _ _
          · obtain ⟨ad3, had, hupd3⟩ := ih bs2 evs2 hr ad1 h2
            refine ⟨ad3, ?_, hupd3⟩
            unfold actors_of
            rw [List.filterMap_cons, hu]
            exact List.mem_cons_of_mem _ had

theorem walkmap_tick_loop_none (w : walkmap) (bs : List collision_body)
    (h : ∃ ad ∈ actors_of bs, update_actor_data w ad false = none) :
    walkmap_tick_loop w bs = none := by
  induction bs with
  | nil =>
    obtain ⟨ad, had, -⟩ := h
    cases had
  | cons b bs ih =>
    obtain ⟨ad, had, hupd⟩ := h
    unfold walkmap_tick_loop
    cases b with
    | border co =>
      have had2 : ad ∈ actors_of bs := by
        unfold actors_of at had
        rw [List.filterMap_cons] at had
        exact had
      simp [walkmap_tick_body, ih ⟨ad, had2, hupd⟩]
    | actor ad0 =>
      unfold actors_of at had
      rw [List.filterMap_cons] at had
      simp only [collision_body.userdata] at had
      rcases List.mem_cons.1 had with h2 | h2
      · subst h2
        have : walkmap_tick_body w (collision_body.actor ad) = none := by
          unfold walkmap_tick_body
          cases hc : ad.movement_callback <;> simp [hc, hupd]
        rw [this]
      · rw [ih ⟨ad, h2, hupd⟩]
        cases walkmap_tick_body w (collision_body.actor ad0) with
        | none => rfl
        | some r => rfl

theorem walkmap_tick_loop_isSome (w : walkmap) (bs : List collision_body)
    (h : ∀ ad ∈ actors_of bs, (update_actor_data w ad false).isSome = true) :
    (walkmap_tick_loop w bs).isSome = true := by
  induction bs with
  | nil => rfl
  | cons b bs ih =>
    have hrest : ∀ ad ∈ actors_of bs, (update_actor_data w ad false).isSome = true := by
      intro ad had
      apply h
      unfold actors_of at had ⊢
      rw [List.filterMap_cons]
      cases b.userdata with
      | none => exact had
      | some _ => exact List.mem_cons_of_mem _ had
    obtain ⟨r, hr⟩ := Option.isSome_iff_exists.1 (ih hrest)
    unfold walkmap_tick_loop
    cases b with
    | border co => simp [walkmap_tick_body, hr]
    | actor ad =>
      have hin : ad ∈ actors_of (collision_body.actor ad :: bs) := by
        unfold actors_of
        rw [List.filterMap_cons]
        exact List.mem_cons_self _ _
      obtain ⟨ad1, had1⟩ := Option.isSome_iff_exists.1 (h ad hin)
      have : ∃ ev, walkmap_tick_body w (collision_body.actor ad) =
          some (collision_body.actor ad1, ev) := by
        unfold walkmap_tick_body
        cases hc : ad.movement_callback <;> simp [hc, had1]
      obtain ⟨ev, hev⟩ := this
      simp [hev, hr]

theorem bridge_walkmap_loaded : bridge_walkmap.loaded exact_polygon := by
  constructor
  · intro wt hwt
    simp only [bridge_walkmap, List.mem_cons, List.mem_singleton, List.not_mem_nil,
      or_false] at hwt
    rcases hwt with rfl | rfl
    · exact ⟨0, 3, ⟨0, 0, 0⟩, ⟨4, 0, 0⟩, ⟨0, 4, 0⟩, 0, by decide, by decide, rfl⟩
    · exact ⟨1, 2, ⟨0, 0, 6⟩, ⟨4, 0, -2⟩, ⟨0, 4, -2⟩, 0, by decide, by decide, rfl⟩
  · intro f hf
    simp only [bridge_walkmap, List.mem_cons, List.mem_singleton, List.not_mem_nil,
      or_false] at hf
    rcases hf with rfl | rfl
    · exact ⟨floor_triangle, by simp [bridge_walkmap], rfl⟩
    · exact ⟨ramp_triangle, by simp [bridge_walkmap], rfl⟩

theorem walkmap_register_actor_some (circle : ℚ → b2Shape) (w w1 : walkmap) (a : Nat)
    (pos : vec3) (radius : ℚ) (ad1 : walkmap_actordata)
    (h : walkmap_register_actor circle w a pos radius = some (w1, ad1)) :
    update_actor_data w
      { actor := a, movement_callback := none, radius := radius, position := ⟨0, 0, pos.z⟩,
        current_triangle := none,
        co := { collision_object_create_circle circle pos.xy radius with
          body := w.next_body } } true = some ad1 := by
  unfold walkmap_register_actor at h
  simp only [] at h
  split at h
  · cases h
  · rename_i ad2 hupd
    simp only [Option.some.injEq, Prod.mk.injEq] at h
    rw [hupd, h.2]

theorem walkmap_tick_some (Step : List collision_object → ℚ → Nat → b2Vec2 × b2Vec2)
    (w w1 : walkmap) (dt : ℚ) (evs : List movement_event)
    (h : walkmap_tick Step w dt = some (w1, evs)) :
    ∀ ad1 ∈ w1.actors, ∃ ad ∈ actors_of (collision_world_tick Step w.collision dt),
      update_actor_data w ad false = some ad1 := by
  unfold walkmap_tick at h
  simp only [] at h
  split at h
  · cases h
  · rename_i bodies events hloop
    simp only [Option.some.injEq, Prod.mk.injEq] at h
    intro ad1 had1
    rw [← h.1] at had1
    exact walkmap_tick_loop_some _ _ _ _ hloop ad1 had1

/-! ## Filter inheritance, position invariant, leaving the walkmap -/

/-- C6: on a loaded walkmap, after every successful `update_actor_data`, and so after
`walkmap_register_actor`, `walkmap_set_actor_position` and for every actor after
`walkmap_tick`, the filter of the actor's fixture is the filter of the fixture of the
selected triangle: its mask bits are the triangle's `group_interaction_mask` and its
category bits are `1 << group`, whatever triangle the actor had before. -/
theorem actor_filter_from_triangle (polygon : List b2Vec2 → b2Shape) (w : walkmap)
    (hl : w.loaded polygon) :
    (∀ ad ph ad1, update_actor_data w ad ph = some ad1 →
      ∃ t, ad1.current_triangle = some t ∧ ad1.co.filter = t.co.filter ∧
        ad1.co.filter.maskBits = t.group_interaction_mask ∧
        ad1.co.filter.categoryBits = 1 <<< t.group) ∧
    (∀ circle a pos radius w1 ad1,
      walkmap_register_actor circle w a pos radius = some (w1, ad1) → filter_inherited ad1) ∧
    (∀ ad p ad1, walkmap_set_actor_position w ad p = some ad1 → filter_inherited ad1) ∧
    (∀ Step dt w1 evs, walkmap_tick Step w dt = some (w1, evs) →
      ∀ ad1 ∈ w1.actors, filter_inherited ad1) := by
  refine ⟨fun ad ph ad1 h => update_actor_data_filter polygon w hl ad ad1 ph h, ?_, ?_, ?_⟩
  · intro circle a pos radius w1 ad1 h
    exact update_actor_data_filter polygon w hl _ ad1 true
      (walkmap_register_actor_some circle w w1 a pos radius ad1 h)
  · intro ad p ad1 h
    exact update_actor_data_filter polygon w hl _ ad1 true h
  · intro Step dt w1 evs h ad1 had1
    obtain ⟨ad, -, hupd⟩ := walkmap_tick_some Step w w1 dt evs h ad1 had1
    exact update_actor_data_filter polygon w hl ad ad1 false hupd

/-- An instance of the preceding theorem: for an actor registered on the floor of
the example at (1, 1, 0): it takes the mask 3 and the category bit 1 of the floor. -/
theorem actor_filter_from_triangle_witness :
    bridge_walkmap.loaded exact_polygon ∧
    (walkmap_register_actor exact_circle bridge_walkmap 7 ⟨1, 1, 0⟩ (1 / 2)).map
      (fun r => (r.2.co.filter.categoryBits, r.2.co.filter.maskBits)) = some (1, 3) ∧
    ∃ w1 ad1, walkmap_register_actor exact_circle bridge_walkmap 7 ⟨1, 1, 0⟩ (1 / 2) =
      some (w1, ad1) ∧ filter_inherited ad1 := by
  refine ⟨bridge_walkmap_loaded, by with_unfolding_all decide, ?_⟩
  have hs : (walkmap_register_actor exact_circle bridge_walkmap 7 ⟨1, 1, 0⟩ (1 / 2)).isSome
      = true := by with_unfolding_all decide
  obtain ⟨⟨w1, ad1⟩, h⟩ := Option.isSome_iff_exists.1 hs
  exact ⟨w1, ad1, h,
    (actor_filter_from_triangle exact_polygon bridge_walkmap bridge_walkmap_loaded).2.1
      exact_circle 7 ⟨1, 1, 0⟩ (1 / 2) w1 ad1 h⟩

/-- C7: after `update_actor_data`, and so after `walkmap_register_actor`,
`walkmap_set_actor_position` and for every actor after `walkmap_tick`, the current
triangle is set, the cached planar position is the position of the body and the cached
height is `walkmap_triangle_height_at_point` of the current triangle at that position;
on a loaded walkmap the update completes with such a state whenever the body is on the
walkmap. -/
theorem actor_position_from_triangle (polygon : List b2Vec2 → b2Shape) (w : walkmap)
    (hl : w.loaded polygon) :
    (∀ ad ph ad1, update_actor_data w ad ph = some ad1 →
      ∃ t, ad1.current_triangle = some t ∧ ad1.position.x = ad1.co.position.x ∧
        ad1.position.y = ad1.co.position.y ∧
        ad1.position.z = walkmap_triangle_height_at_point t ad1.position.xy) ∧
    (∀ ad ph, on_walkmap w ad.co.position →
      ∃ ad1, update_actor_data w ad ph = some ad1 ∧ actor_consistent ad1) ∧
    (∀ circle a pos radius w1 ad1,
      walkmap_register_actor circle w a pos radius = some (w1, ad1) →
        actor_consistent ad1 ∧ ad1.co.position = pos.xy) ∧
    (∀ ad p ad1, walkmap_set_actor_position w ad p = some ad1 →
      actor_consistent ad1 ∧ ad1.co.position = p.xy) ∧
    (∀ Step dt w1 evs, walkmap_tick Step w dt = some (w1, evs) →
      ∀ ad1 ∈ w1.actors, actor_consistent ad1) := by
  refine ⟨fun ad ph ad1 h => (update_actor_data_consistent w ad ad1 ph h).1, ?_, ?_, ?_, ?_⟩
  · intro ad ph hon
    obtain ⟨ad1, h⟩ := Option.isSome_iff_exists.1 (update_actor_data_isSome polygon w hl ad ph hon)
    exact ⟨ad1, h, (update_actor_data_consistent w ad ad1 ph h).1⟩
  · intro circle a pos radius w1 ad1 h
    exact update_actor_data_consistent w _ ad1 true
      (walkmap_register_actor_some circle w w1 a pos radius ad1 h)
  · intro ad p ad1 h
    exact update_actor_data_consistent w _ ad1 true h
  · intro Step dt w1 evs h ad1 had1
    obtain ⟨ad, -, hupd⟩ := walkmap_tick_some Step w w1 dt evs h ad1 had1
    exact (update_actor_data_consistent w ad ad1 false hupd).1

/-- An instance of the preceding theorem: for an actor registered in the example
at (1, 1) with seed height 1: the cached height is 0, the height of the floor, not the
seed. -/
theorem actor_position_from_triangle_witness :
    bridge_walkmap.loaded exact_polygon ∧
    (walkmap_register_actor exact_circle bridge_walkmap 7 ⟨1, 1, 1⟩ (1 / 2)).map
      (fun r => r.2.position) = some ⟨1, 1, 0⟩ ∧
    ∃ w1 ad1, walkmap_register_actor exact_circle bridge_walkmap 7 ⟨1, 1, 1⟩ (1 / 2) =
      some (w1, ad1) ∧ actor_consistent ad1 := by
  refine ⟨bridge_walkmap_loaded, by with_unfolding_all decide, ?_⟩
  have hs : (walkmap_register_actor exact_circle bridge_walkmap 7 ⟨1, 1, 1⟩ (1 / 2)).isSome
      = true := by with_unfolding_all decide
  obtain ⟨⟨w1, ad1⟩, h⟩ := Option.isSome_iff_exists.1 hs
  exact ⟨w1, ad1, h,
    ((actor_position_from_triangle exact_polygon bridge_walkmap bridge_walkmap_loaded).2.2.1
      exact_circle 7 ⟨1, 1, 1⟩ (1 / 2) w1 ad1 h).1⟩

/-- C9: when no triangle of the walkmap contains the planar position of the body,
`update_actor_data` ends in the fatal error and yields no actor state, and so do
`walkmap_register_actor`, `walkmap_set_actor_position` and `walkmap_tick`; on a loaded
walkmap, when some triangle contains the position, they complete. -/
theorem actor_outside_walkmap_fatal (polygon : List b2Vec2 → b2Shape) (w : walkmap)
    (hl : w.loaded polygon) :
    (∀ ad ph, (∀ f ∈ w.walkmap_triangle_lookup, f.fixture.TestPoint ad.co.position = false) →
      update_actor_data w ad ph = none) ∧
    (∀ ad ph, (∃ f ∈ w.walkmap_triangle_lookup, f.fixture.TestPoint ad.co.position = true) →
      (update_actor_data w ad ph).isSome = true) ∧
    (∀ circle a pos radius, ¬ on_walkmap w pos.xy →
      walkmap_register_actor circle w a pos radius = none) ∧
    (∀ circle a pos radius, on_walkmap w pos.xy →
      (walkmap_register_actor circle w a pos radius).isSome = true) ∧
    (∀ ad p, ¬ on_walkmap w p.xy → walkmap_set_actor_position w ad p = none) ∧
    (∀ ad p, on_walkmap w p.xy → (walkmap_set_actor_position w ad p).isSome = true) ∧
    (∀ Step dt, (∃ ad ∈ actors_of (collision_world_tick Step w.collision dt),
        ¬ on_walkmap w ad.co.position) → walkmap_tick Step w dt = none) ∧
    (∀ Step dt, (∀ ad ∈ actors_of (collision_world_tick Step w.collision dt),
        on_walkmap w ad.co.position) → (walkmap_tick Step w dt).isSome = true) := by
  refine ⟨?_, ?_, ?_, ?_, ?_, ?_, ?_, ?_⟩
  · intro ad ph h
    apply update_actor_data_none
    rintro ⟨f, hf, hp⟩
    rw [h f hf] at hp
    exact Bool.noConfusion hp
  · intro ad ph h
    exact update_actor_data_isSome polygon w hl ad ph h
  · intro circle a pos radius h
    unfold walkmap_register_actor
    simp only []
    rw [update_actor_data_none w _ true h]
  · intro circle a pos radius h
    unfold walkmap_register_actor
    simp only []
    obtain ⟨ad1, h1⟩ := Option.isSome_iff_exists.1
      (update_actor_data_isSome polygon w hl
        { actor := a, movement_callback := none, radius := radius, position := ⟨0, 0, pos.z⟩,
          current_triangle := none,
          co := { collision_object_create_circle circle pos.xy radius with
            body := w.next_body } } true h)
    rw [h1]
    rfl
  · intro ad p h
    exact update_actor_data_none w _ true h
  · intro ad p h
    exact update_actor_data_isSome polygon w hl _ true h
  · intro Step dt h
    obtain ⟨ad, had, hout⟩ := h
    unfold walkmap_tick
    simp only []
    have hnone := walkmap_tick_loop_none
      { w with collision := collision_world_tick Step w.collision dt }
      (collision_world_tick Step w.collision dt)
      ⟨ad, had, update_actor_data_none _ ad false hout⟩
    rw [hnone]
  · intro Step dt h
    unfold walkmap_tick
    simp only []
    obtain ⟨r, hr⟩ := Option.isSome_iff_exists.1
      (walkmap_tick_loop_isSome { w with collision := collision_world_tick Step w.collision dt }
        _ (fun ad had => update_actor_data_isSome polygon _ hl ad false (h ad had)))
    rw [hr]
    rfl

/-- An instance of the preceding theorem: in the example: registering an actor at
(5, 5), outside both triangles, is fatal, and registering it at (1, 1) completes. -/
theorem actor_outside_walkmap_fatal_witness :
    bridge_walkmap.loaded exact_polygon ∧
    walkmap_register_actor exact_circle bridge_walkmap 7 ⟨5, 5, 0⟩ (1 / 2) = none ∧
    (walkmap_register_actor exact_circle bridge_walkmap 7 ⟨1, 1, 0⟩ (1 / 2)).isSome = true :=
  ⟨bridge_walkmap_loaded,
    (actor_outside_walkmap_fatal exact_polygon bridge_walkmap bridge_walkmap_loaded).2.2.1
      exact_circle 7 ⟨5, 5, 0⟩ (1 / 2) (by unfold on_walkmap; with_unfolding_all decide),
    (actor_outside_walkmap_fatal exact_polygon bridge_walkmap bridge_walkmap_loaded).2.2.2.1
      exact_circle 7 ⟨1, 1, 0⟩ (1 / 2) (by unfold on_walkmap; with_unfolding_all decide)⟩

/-! ## The height filter at registration and repositioning -/

/-- C3, evaluated: in the example both triangles contain (1, 1); there the ramp is at
height 2 and the floor at height 0.  Registering an actor at (1, 1) with seed height 2
selects the floor (group 0) and caches height 0: the filter is given the zeroed cached
position of the new actor and compares the heights at the origin, 6 for the ramp and 0
for the floor.  The trigger registration, which passes the query point itself to the
same filter, selects the ramp (group 1) at that point. -/
theorem register_actor_compares_heights_at_origin :
    floor_triangle.co.TestPoint ⟨1, 1⟩ = true ∧ ramp_triangle.co.TestPoint ⟨1, 1⟩ = true ∧
    walkmap_triangle_height_at_point ramp_triangle ⟨1, 1⟩ = 2 ∧
    walkmap_triangle_height_at_point floor_triangle ⟨1, 1⟩ = 0 ∧
    (walkmap_register_actor exact_circle bridge_walkmap 7 ⟨1, 1, 2⟩ (1 / 2)).map
      (fun r => (r.2.current_triangle.map (fun t => t.group), r.2.position)) =
        some (some 0, ⟨1, 1, 0⟩) ∧
    walkmap_triangle_height_at_point ramp_triangle ⟨0, 0⟩ = 6 ∧
    walkmap_triangle_height_at_point floor_triangle ⟨0, 0⟩ = 0 ∧
    (walkmap_register_trigger_region exact_polygon bridge_walkmap ⟨1, 1, 2⟩
        [⟨-1, -1⟩, ⟨1, -1⟩, ⟨0, 1⟩] 5).map (fun w => w.triggers.map (fun tr => tr.group)) =
      some [1] := by
  refine ⟨?_, ?_, ?_, ?_, ?_, ?_, ?_, ?_⟩ <;> with_unfolding_all decide

/-- C4, evaluated: an actor registered in the example at (1/4, 1/4, 0) stands on the
floor with cached position (1/4, 1/4, 0).  Moving it to (1, 1, 2), a point of the ramp,
selects the floor (group 0) and caches height 0: the filter compares the heights at the
previous cached point (1/4, 1/4), 5 for the ramp and 0 for the floor, with the new
height 2. -/
theorem set_actor_position_compares_heights_at_previous_point :
    (walkmap_register_actor exact_circle bridge_walkmap 7 ⟨1 / 4, 1 / 4, 0⟩ (1 / 2)).map
      (fun r => (r.2.current_triangle.map (fun t => t.group), r.2.position)) =
        some (some 0, ⟨1 / 4, 1 / 4, 0⟩) ∧
    ((walkmap_register_actor exact_circle bridge_walkmap 7 ⟨1 / 4, 1 / 4, 0⟩ (1 / 2)).bind
      (fun r => walkmap_set_actor_position bridge_walkmap r.2 ⟨1, 1, 2⟩)).map
      (fun ad => (ad.current_triangle.map (fun t => t.group), ad.position)) =
        some (some 0, ⟨1, 1, 0⟩) ∧
    ramp_triangle.co.TestPoint ⟨1, 1⟩ = true ∧
    walkmap_triangle_height_at_point ramp_triangle ⟨1, 1⟩ = 2 ∧
    walkmap_triangle_height_at_point floor_triangle ⟨1, 1⟩ = 0 ∧
    walkmap_triangle_height_at_point ramp_triangle ⟨1 / 4, 1 / 4⟩ = 5 ∧
    walkmap_triangle_height_at_point floor_triangle ⟨1 / 4, 1 / 4⟩ = 0 := by
  refine ⟨?_, ?_, ?_, ?_, ?_, ?_, ?_⟩ <;> with_unfolding_all decide

/-! ## Trigger regions -/

theorem collision_object_hittest_iff (co : collision_object) (p : b2Vec2) (flags : Nat) :
    collision_object_hittest co p flags = true ↔
      (co.filter.maskBits &&& flags ≠ 0 ∧ co.TestPoint p = true) := by
  unfold collision_object_hittest
  by_cases h : co.filter.maskBits &&& flags = 0
  · simp [h]
  · simp [h]

theorem trigger_test_iff (ad : walkmap_actordata) (t : walkmap_triangle) (tr : trigger_region)
    (ht : ad.current_triangle = some t) (hg : t.group < 16) :
    trigger_test ad t tr = true ↔ trigger_hit ad tr := by
  unfold trigger_test trigger_hit
  rw [collision_object_hittest_iff, shift_group_bit t.group hg]
  constructor
  · rintro ⟨h1, h2⟩
    exact ⟨h2, t, ht, h1⟩
  · rintro ⟨h2, t2, ht2, h1⟩
    rw [ht] at ht2
    cases ht2
    exact ⟨h1, h2⟩

theorem check_triggers_actor_spec (ad : walkmap_actordata) (t : walkmap_triangle)
    (ht : ad.current_triangle = some t) (trs : List trigger_region) :
    ∃ evs, walkmap_check_triggers_actor ad trs = some evs ∧
      (∀ e, e ∈ evs ↔ ∃ tr ∈ trs, trigger_test ad t tr = true ∧ e = ⟨ad.actor, tr.callback⟩) ∧
      ((trs.map (fun tr => tr.callback)).Nodup → ∀ tr ∈ trs,
        evs.count ⟨ad.actor, tr.callback⟩ = if trigger_test ad t tr = true then 1 else 0) := by
  induction trs with
  | nil => exact ⟨[], rfl, by simp, by simp⟩
  | cons tr0 trs ih =>
    obtain ⟨evs, hevs, hmem, hcount⟩ := ih
    have hstep : walkmap_check_triggers_actor ad (tr0 :: trs) =
        if trigger_test ad t tr0 = true then some (⟨ad.actor, tr0.callback⟩ :: evs)
        else some evs := by
      rw [walkmap_check_triggers_actor]
      simp only [ht, hevs]
      rfl
    have hnot : (tr0.callback ∉ trs.map (fun tr => tr.callback)) →
        (⟨ad.actor, tr0.callback⟩ : trigger_event) ∉ evs := by
      intro hn he
      obtain ⟨tr, htr, -, heq⟩ := (hmem _).1 he
      apply hn
      have : tr0.callback = tr.callback := by
        have := congrArg trigger_event.callback heq
        exact this
      rw [this]
      exact List.mem_map_of_mem _ htr
    by_cases h0 : trigger_test ad t tr0 = true
    · rw [if_pos h0] at hstep
      refine ⟨_, hstep, ?_, ?_⟩
      · intro e
        rw [List.mem_cons, hmem]
        constructor
        · rintro (rfl | ⟨tr, htr, h1, h2⟩)
          · exact ⟨tr0, List.mem_cons_self _ _, h0, rfl⟩
          · exact ⟨tr, List.mem_cons_of_mem _ htr, h1, h2⟩
        · rintro ⟨tr, htr, h1, h2⟩
          rcases List.mem_cons.1 htr with rfl | htr
          · exact Or.inl h2
          · exact Or.inr ⟨tr, htr, h1, h2⟩
      · intro hnd tr htr
        rw [List.map_cons, List.nodup_cons] at hnd
        rcases List.mem_cons.1 htr with rfl | htr
        · rw [List.count_cons_self, List.count_eq_zero.2 (hnot hnd.1), if_pos h0]
        · have hne : (⟨ad.actor, tr0.callback⟩ : trigger_event) ≠ ⟨ad.actor, tr.callback⟩ := by
            intro heq
            apply hnd.1
            have : tr0.callback = tr.callback := congrArg trigger_event.callback heq
            rw [this]
            exact List.mem_map_of_mem _ htr
          rw [List.count_cons_of_ne (Ne.symm hne)]
          exact hcount hnd.2 tr htr
    · rw [if_neg h0] at hstep
      refine ⟨_, hstep, ?_, ?_⟩
      · intro e
        rw [hmem]
        constructor
        · rintro ⟨tr, htr, h1, h2⟩
          exact ⟨tr, List.mem_cons_of_mem _ htr, h1, h2⟩
        · rintro ⟨tr, htr, h1, h2⟩
          rcases List.mem_cons.1 htr with rfl | htr
          · exact absurd h1 h0
          · exact ⟨tr, htr, h1, h2⟩
      · intro hnd tr htr
        rw [List.map_cons, List.nodup_cons] at hnd
        rcases List.mem_cons.1 htr with rfl | htr
        · rw [List.count_eq_zero.2 (hnot hnd.1), if_neg h0]
        · exact hcount hnd.2 tr htr

theorem actors_of_border (co : collision_object) (bs : List collision_body) :
    actors_of (collision_body.border co :: bs) = actors_of bs := rfl

theorem actors_of_actor (ad : walkmap_actordata) (bs : List collision_body) :
    actors_of (collision_body.actor ad :: bs) = ad :: actors_of bs := rfl

theorem check_triggers_loop_spec (trs : List trigger_region) (bs : List collision_body)
    (hact : ∀ ad ∈ actors_of bs, ∃ t, ad.current_triangle = some t ∧ t.group < 16) :
    ∃ evs, walkmap_check_triggers_loop trs bs = some evs ∧
      (∀ e, e ∈ evs ↔ ∃ ad ∈ actors_of bs, ∃ tr ∈ trs,
        trigger_hit ad tr ∧ e = ⟨ad.actor, tr.callback⟩) ∧
      (((actors_of bs).map (fun ad => ad.actor)).Nodup →
        (trs.map (fun tr => tr.callback)).Nodup →
        ∀ ad ∈ actors_of bs, ∀ tr ∈ trs,
          (trigger_hit ad tr → evs.count ⟨ad.actor, tr.callback⟩ = 1) ∧
          (¬ trigger_hit ad tr → evs.count ⟨ad.actor, tr.callback⟩ = 0)) := by
  induction bs with
  | nil =>
    refine ⟨[], rfl, ?_, ?_⟩
    · intro e
      constructor
      · intro h; cases h
      · rintro ⟨ad, had, -⟩; cases had
    · intro _ _ ad had
      cases had
  | cons b bs ih =>
    cases b with
    | border co =>
      rw [actors_of_border] at hact ⊢
      exact ih hact
    | actor ad0 =>
      rw [actors_of_actor] at hact ⊢
      obtain ⟨t0, ht0, hg0⟩ := hact ad0 (List.mem_cons_self _ _)
      obtain ⟨evs1, hevs1, hmem1, hcount1⟩ :=
        ih (fun ad had => hact ad (List.mem_cons_of_mem _ had))
      obtain ⟨evs0, hevs0, hmem0, hcount0⟩ := check_triggers_actor_spec ad0 t0 ht0 trs
      have hstep : walkmap_check_triggers_loop trs (collision_body.actor ad0 :: bs) =
          some (evs0 ++ evs1) := by
        rw [walkmap_check_triggers_loop]
        simp only [hevs0, hevs1]
      refine ⟨_, hstep, ?_, ?_⟩
      · intro e
        rw [List.mem_append, hmem0, hmem1]
        constructor
        · rintro (⟨tr, htr, h1, h2⟩ | ⟨ad, had, tr, htr, h1, h2⟩)
          · exact ⟨ad0, List.mem_cons_self _ _, tr, htr,
              (trigger_test_iff ad0 t0 tr ht0 hg0).1 h1, h2⟩
          · exact ⟨ad, List.mem_cons_of_mem _ had, tr, htr, h1, h2⟩
        · rintro ⟨ad, had, tr, htr, h1, h2⟩
          rcases List.mem_cons.1 had with rfl | had
          · exact Or.inl ⟨tr, htr, (trigger_test_iff ad t0 tr ht0 hg0).2 h1, h2⟩
          · exact Or.inr ⟨ad, had, tr, htr, h1, h2⟩
      · intro hids hcbs ad had tr htr
        rw [List.map_cons, List.nodup_cons] at hids
        rw [List.count_append]
        rcases List.mem_cons.1 had with rfl | had
        · have hzero : evs1.count ⟨ad.actor, tr.callback⟩ = 0 := by
            rw [List.count_eq_zero, hmem1]
            rintro ⟨ad2, had2, tr2, -, -, heq⟩
            apply hids.1
            have : ad.actor = ad2.actor := congrArg trigger_event.actor heq
            rw [this]
            exact List.mem_map_of_mem _ had2
          rw [hzero, hcount0 hcbs tr htr, Nat.add_zero]
          constructor
          · intro hh
            rw [if_pos ((trigger_test_iff ad t0 tr ht0 hg0).2 hh)]
          · intro hh
            rw [if_neg (fun h => hh ((trigger_test_iff ad t0 tr ht0 hg0).1 h))]
        · have hzero : evs0.count ⟨ad.actor, tr.callback⟩ = 0 := by
            rw [List.count_eq_zero, hmem0]
            rintro ⟨tr2, -, -, heq⟩
            apply hids.1
            have : ad.actor = ad0.actor := congrArg trigger_event.actor heq
            rw [← this]
            exact List.mem_map_of_mem _ had
          rw [hzero, Nat.zero_add]
          exact hcount1 hids.2 hcbs ad had tr htr

theorem walkmap_register_trigger_region_some (polygon : List b2Vec2 → b2Shape) (w w1 : walkmap)
    (pos : vec3) (vertices : List b2Vec2) (callback : Int)
    (h : walkmap_register_trigger_region polygon w pos vertices callback = some w1) :
    ∃ wt tr, collision_world_hittest w.walkmap_triangle_lookup pos.xy
        (as_callback walkmap_triangle_hittest_height_filter) pos = some wt ∧
      w1.triggers = w.triggers ++ [tr] ∧ w1.collision = w.collision ∧
      tr.callback = callback ∧ tr.group = wt.group ∧
      tr.co.filter.maskBits = wt.group_interaction_mask ∧
      ∀ p, tr.co.TestPoint p = (polygon vertices).TestPoint ⟨p.x - pos.x, p.y - pos.y⟩ := by
  unfold walkmap_register_trigger_region at h
  split at h
  · cases h
  · rename_i wt hwt
    simp only [Option.some.injEq] at h
    refine ⟨wt,
      { callback := callback, position := pos, group := wt.group,
        co := collision_object_set_position
          { collision_object_create_polygon polygon vertices wt.group
              wt.group_interaction_mask with body := w.next_body } pos.xy },
      hwt, ?_, ?_, rfl, rfl, rfl, ?_⟩
    · rw [← h]
    · rw [← h]
    · intro p
      rfl

/-- C10: in one call of `walkmap_check_triggers` on a walkmap whose actors stand on
triangles of group below 16, with pairwise distinct actors and pairwise distinct callback
handles, the trigger callback is invoked with an actor and the handle of a region exactly
once when the cached position of the actor is inside the polygon of the region and the
bit `1 << group` of the actor's current triangle meets the mask bits of the region's
fixture, and not at all otherwise; every invocation is of that kind.
`collision_object_hittest` is true exactly when the mask bits meet the flags and the
fixture contains the point, and a region gets as mask bits the `group_interaction_mask`
of the triangle found by the height hittest at its anchor. -/
theorem check_triggers_fires_once (w : walkmap)
    (hact : ∀ ad ∈ w.actors, ∃ t, ad.current_triangle = some t ∧ t.group < 16)
    (hids : (w.actors.map (fun ad => ad.actor)).Nodup)
    (hcbs : (w.triggers.map (fun tr => tr.callback)).Nodup) :
    (∃ evs, walkmap_check_triggers w = some evs ∧
      (∀ ad ∈ w.actors, ∀ tr ∈ w.triggers,
        ((tr.co.TestPoint ad.position.xy = true ∧
            ∃ t, ad.current_triangle = some t ∧
              tr.co.filter.maskBits &&& (1 <<< t.group) ≠ 0) →
          evs.count ⟨ad.actor, tr.callback⟩ = 1) ∧
        (¬ (tr.co.TestPoint ad.position.xy = true ∧
            ∃ t, ad.current_triangle = some t ∧
              tr.co.filter.maskBits &&& (1 <<< t.group) ≠ 0) →
          evs.count ⟨ad.actor, tr.callback⟩ = 0)) ∧
      (∀ e, e ∈ evs ↔ ∃ ad ∈ w.actors, ∃ tr ∈ w.triggers,
        trigger_hit ad tr ∧ e = ⟨ad.actor, tr.callback⟩)) ∧
    (∀ co p flags, collision_object_hittest co p flags = true ↔
      (co.filter.maskBits &&& flags ≠ 0 ∧ co.TestPoint p = true)) ∧
    (∀ polygon pos vertices callback w1,
      walkmap_register_trigger_region polygon w pos vertices callback = some w1 →
      ∃ wt tr, collision_world_hittest w.walkmap_triangle_lookup pos.xy
          (as_callback walkmap_triangle_hittest_height_filter) pos = some wt ∧
        w1.triggers = w.triggers ++ [tr] ∧ tr.callback = callback ∧
        tr.co.filter.maskBits = wt.group_interaction_mask ∧
        ∀ p, tr.co.TestPoint p = (polygon vertices).TestPoint ⟨p.x - pos.x, p.y - pos.y⟩) := by
  refine ⟨?_, collision_object_hittest_iff, ?_⟩
  · obtain ⟨evs, hevs, hmem, hcount⟩ := check_triggers_loop_spec w.triggers w.collision hact
    exact ⟨evs, hevs, hcount hids hcbs, hmem⟩
  · intro polygon pos vertices callback w1 h
    obtain ⟨wt, tr, h1, h2, -, h4, -, h6, h7⟩ :=
      walkmap_register_trigger_region_some polygon w w1 pos vertices callback h
    exact ⟨wt, tr, h1, h2, h4, h6, h7⟩

/-- An instance of the preceding theorem: in the example with one actor on the floor
at (1, 1) and two regions: the callback 5 of the region around the actor is invoked once
for actor 7, the callback 6 of the region around (3, 0) is not invoked. -/
theorem check_triggers_fires_once_witness :
    walkmap_check_triggers trigger_walkmap = some [⟨7, 5⟩] ∧
    ∃ evs, walkmap_check_triggers trigger_walkmap = some evs ∧
      evs.count ⟨floor_actor.actor, near_region.callback⟩ = 1 ∧
      evs.count ⟨floor_actor.actor, far_region.callback⟩ = 0 := by
  refine ⟨by with_unfolding_all decide, ?_⟩
  have hact : ∀ ad ∈ trigger_walkmap.actors,
      ∃ t, ad.current_triangle = some t ∧ t.group < 16 := by
    intro ad had
    have : ad = floor_actor := by
      simpa [trigger_walkmap, walkmap.actors, actors_of, collision_body.userdata] using had
    subst this
    exact ⟨floor_triangle, rfl, by with_unfolding_all decide⟩
  have hids : (trigger_walkmap.actors.map (fun ad => ad.actor)).Nodup := by
    with_unfolding_all decide
  have hcbs : (trigger_walkmap.triggers.map (fun tr => tr.callback)).Nodup := by
    with_unfolding_all decide
  obtain ⟨evs, hevs, hcount, -⟩ := (check_triggers_fires_once trigger_walkmap hact hids hcbs).1
  have hin : floor_actor ∈ trigger_walkmap.actors := by
    simp [trigger_walkmap, walkmap.actors, actors_of, collision_body.userdata]
  refine ⟨evs, hevs, ?_, ?_⟩
  · apply (hcount floor_actor hin near_region (by simp [trigger_walkmap])).1
    refine ⟨by with_unfolding_all decide, floor_triangle, rfl, by with_unfolding_all decide⟩
  · apply (hcount floor_actor hin far_region (by simp [trigger_walkmap])).2
    rintro ⟨h, -⟩
    have : far_region.co.TestPoint floor_actor.position.xy = false := by
      with_unfolding_all decide
    rw [this] at h
    exact Bool.noConfusion h

/-! ## Repeated trigger checks -/

/-- C11: successive calls of `walkmap_check_triggers` keep no memory of earlier calls.
When in each of the `N` states in which it is called the walkmap holds an actor `a`
that hits the region `tr` (actors on triangles of group below 16, distinct actors,
distinct callback handles), the callback of `tr` is invoked for `a` exactly `N` times;
in particular `N` calls on one unchanged walkmap give `N` invocations. -/
theorem check_triggers_refires (ws : List walkmap) (a : Nat) (tr : trigger_region)
    (h : ∀ w ∈ ws,
      (∀ ad ∈ w.actors, ∃ t, ad.current_triangle = some t ∧ t.group < 16) ∧
      (w.actors.map (fun ad => ad.actor)).Nodup ∧
      (w.triggers.map (fun tr => tr.callback)).Nodup ∧
      tr ∈ w.triggers ∧ ∃ ad ∈ w.actors, ad.actor = a ∧ trigger_hit ad tr) :
    (∃ evs, check_triggers_calls ws = some evs ∧ evs.count ⟨a, tr.callback⟩ = ws.length) ∧
    (∀ w ∈ ws, ∀ N, ∃ evs, check_triggers_calls (List.replicate N w) = some evs ∧
      evs.count ⟨a, tr.callback⟩ = N) := by
  have main : ∀ ws : List walkmap,
      (∀ w ∈ ws,
        (∀ ad ∈ w.actors, ∃ t, ad.current_triangle = some t ∧ t.group < 16) ∧
        (w.actors.map (fun ad => ad.actor)).Nodup ∧
        (w.triggers.map (fun tr => tr.callback)).Nodup ∧
        tr ∈ w.triggers ∧ ∃ ad ∈ w.actors, ad.actor = a ∧ trigger_hit ad tr) →
      ∃ evs, check_triggers_calls ws = some evs ∧ evs.count ⟨a, tr.callback⟩ = ws.length := by
    intro ws
    induction ws with
    | nil => intro _; exact ⟨[], rfl, rfl⟩
    | cons w ws ih =>
      intro h
      obtain ⟨evs, hevs, hcount⟩ := ih (fun w1 hw1 => h w1 (List.mem_cons_of_mem _ hw1))
      obtain ⟨hact, hids, hcbs, htr, ad, had, hada, hhit⟩ := h w (List.mem_cons_self _ _)
      obtain ⟨ev, hev, -, hc⟩ := check_triggers_loop_spec w.triggers w.collision hact
      have h1 := (hc hids hcbs ad had tr htr).1 hhit
      rw [hada] at h1
      refine ⟨ev ++ evs, ?_, ?_⟩
      · rw [check_triggers_calls]
        have hev2 : walkmap_check_triggers w = some ev := hev
        simp only [hev2, hevs]
      · rw [List.count_append, h1, hcount, List.length_cons, Nat.add_comm]
  refine ⟨main ws h, ?_⟩
  intro w hw N
  have := main (List.replicate N w) (fun w1 hw1 => by
    rw [List.eq_of_mem_replicate hw1]; exact h w hw)
  rw [List.length_replicate] at this
  exact this

/-- An instance of the preceding theorem: three calls on the walkmap of the example, in
which actor 7 stands inside the region with callback 5, invoke that callback for that
actor three times. -/
theorem check_triggers_refires_witness :
    check_triggers_calls [trigger_walkmap, trigger_walkmap, trigger_walkmap] =
      some [⟨7, 5⟩, ⟨7, 5⟩, ⟨7, 5⟩] ∧
    ∃ evs, check_triggers_calls [trigger_walkmap, trigger_walkmap, trigger_walkmap] = some evs ∧
      evs.count ⟨7, near_region.callback⟩ = 3 := by
  refine ⟨by with_unfolding_all decide, ?_⟩
  have hin : floor_actor ∈ trigger_walkmap.actors := by
    simp [trigger_walkmap, walkmap.actors, actors_of, collision_body.userdata]
  have hw : ∀ w ∈ [trigger_walkmap, trigger_walkmap, trigger_walkmap],
      (∀ ad ∈ w.actors, ∃ t, ad.current_triangle = some t ∧ t.group < 16) ∧
      (w.actors.map (fun ad => ad.actor)).Nodup ∧
      (w.triggers.map (fun tr => tr.callback)).Nodup ∧
      near_region ∈ w.triggers ∧ ∃ ad ∈ w.actors, ad.actor = 7 ∧ trigger_hit ad near_region := by
    intro w hw
    have hw2 : w = trigger_walkmap := by simpa using hw
    subst hw2
    refine ⟨?_, by with_unfolding_all decide, by with_unfolding_all decide,
      by simp [trigger_walkmap], floor_actor, hin, rfl, ?_⟩
    · intro ad had
      have : ad = floor_actor := by
        simpa [trigger_walkmap, walkmap.actors, actors_of, collision_body.userdata] using had
      subst this
      exact ⟨floor_triangle, rfl, by with_unfolding_all decide⟩
    · exact ⟨by with_unfolding_all decide, floor_triangle, rfl, by with_unfolding_all decide⟩
  exact (check_triggers_refires [trigger_walkmap, trigger_walkmap, trigger_walkmap] 7
    near_region hw).1

/-! ## The tick: movement callbacks and actors at rest -/

theorem zipWith_moved (g : Nat → b2Vec2 × b2Vec2) (l2 : List collision_body) (l1 : List Nat)
    (hlen : l1.length = l2.length) :
    List.Forall₂ (fun b b1 => ∃ pv, b1 = collision_body.moved pv b) l2
      (List.zipWith (fun i b => collision_body.moved (g i) b) l1 l2) := by
  induction l2 generalizing l1 with
  | nil =>
    cases l1 with
    | nil => exact List.Forall₂.nil
    | cons _ _ => cases hlen
  | cons b l2 ih =>
    cases l1 with
    | nil => cases hlen
    | cons i l1 =>
      rw [List.zipWith_cons_cons]
      exact List.Forall₂.cons ⟨g i, rfl⟩ (ih l1 (Nat.succ.inj hlen))

theorem collision_world_tick_moved (Step : List collision_object → ℚ → Nat → b2Vec2 × b2Vec2)
    (world : List collision_body) (dt : ℚ) :
    List.Forall₂ (fun b b1 => ∃ pv, b1 = collision_body.moved pv b) world
      (collision_world_tick Step world dt) :=
  zipWith_moved _ world _ (List.length_range _)

theorem actors_of_moved (bs bs1 : List collision_body)
    (h : List.Forall₂ (fun b b1 => ∃ pv, b1 = collision_body.moved pv b) bs bs1) :
    List.Forall₂ (fun ad s => s.actor = ad.actor ∧ s.position = ad.position ∧
      s.movement_callback = ad.movement_callback ∧ s.current_triangle = ad.current_triangle)
      (actors_of bs) (actors_of bs1) := by
  induction bs generalizing bs1 with
  | nil =>
    rw [List.forall₂_nil_left_iff] at h
    rw [h]
    exact List.Forall₂.nil
  | cons b bs ih =>
    obtain ⟨b1, bs2, ⟨pv, hb⟩, htail, rfl⟩ := List.forall₂_cons_left_iff.1 h
    rw [hb]
    cases b with
    | border co => exact ih bs2 htail
    | actor ad => exact List.Forall₂.cons ⟨rfl, rfl, rfl, rfl⟩ (ih bs2 htail)

theorem walkmap_tick_loop_calls (w : walkmap) (bs bs1 : List collision_body)
    (evs : List movement_event) (h : walkmap_tick_loop w bs = some (bs1, evs)) :
    List.Forall₂ (fun s ad1 => update_actor_data w s false = some ad1 ∧ ad1.actor = s.actor ∧
        ad1.movement_callback = s.movement_callback) (actors_of bs) (actors_of bs1) ∧
      evs = ((actors_of bs).zip (actors_of bs1)).filterMap (fun p => movement_call p.1 p.2) := by
  induction bs generalizing bs1 evs with
  | nil =>
    simp only [walkmap_tick_loop, Option.some.injEq, Prod.mk.injEq] at h
    rw [← h.1, ← h.2]
    exact ⟨List.Forall₂.nil, rfl⟩
  | cons b bs ih =>
    unfold walkmap_tick_loop at h
    cases hb : walkmap_tick_body w b with
    | none => simp [hb] at h
    | some r =>
      obtain ⟨b1, ev⟩ := r
      cases hr : walkmap_tick_loop w bs with
      | none => simp [hb, hr] at h
      | some r2 =>
        obtain ⟨bs2, evs2⟩ := r2
        simp only [hb, hr, Option.some.injEq, Prod.mk.injEq] at h
        obtain ⟨ih1, ih2⟩ := ih bs2 evs2 hr
        rw [← h.1, ← h.2]
        cases b with
        | border co =>
          simp only [walkmap_tick_body, Option.some.injEq, Prod.mk.injEq] at hb
          rw [← hb.1, ← hb.2, actors_of_border, actors_of_border, List.nil_append]
          exact ⟨ih1, ih2⟩
        | actor ad =>
          unfold walkmap_tick_body at hb
          cases hu : update_actor_data w ad false with
          | none => cases hc : ad.movement_callback <;> simp [hc, hu] at hb
          | some ad1 =>
            obtain ⟨wt, -, hform⟩ := update_actor_data_some w ad ad1 false hu
            have hid : ad1.actor = ad.actor := by rw [hform]
            have hcb : ad1.movement_callback = ad.movement_callback := by rw [hform]
            cases hc : ad.movement_callback with
            | none =>
              simp only [hc, hu, Option.some.injEq, Prod.mk.injEq] at hb
              rw [← hb.1, ← hb.2, actors_of_actor, actors_of_actor, List.zip_cons_cons,
                List.filterMap_cons]
              simp only [movement_call, hc, List.nil_append]
              exact ⟨List.Forall₂.cons ⟨hu, hid, by rw [hcb, hc]⟩ ih1, ih2⟩
            | some cb =>
              simp only [hc, hu, Option.some.injEq, Prod.mk.injEq] at hb
              rw [← hb.1, ← hb.2, actors_of_actor, actors_of_actor, List.zip_cons_cons,
                List.filterMap_cons]
              simp only [movement_call, hc, List.singleton_append, List.cons.injEq, true_and]
              exact ⟨List.Forall₂.cons ⟨hu, hid, by rw [hcb, hc]⟩ ih1, ih2⟩

theorem movement_calls_length (w : walkmap) (l1 l2 l3 : List walkmap_actordata)
    (h12 : List.Forall₂ (fun ad s => s.actor = ad.actor ∧ s.position = ad.position ∧
      s.movement_callback = ad.movement_callback ∧ s.current_triangle = ad.current_triangle)
      l1 l2)
    (h23 : List.Forall₂ (fun s ad1 => update_actor_data w s false = some ad1 ∧
      ad1.actor = s.actor ∧ ad1.movement_callback = s.movement_callback) l2 l3) :
    ((l2.zip l3).filterMap (fun p => movement_call p.1 p.2)).length =
      (l1.filter (fun ad => ad.movement_callback.isSome)).length := by
  induction l1 generalizing l2 l3 with
  | nil =>
    rw [List.forall₂_nil_left_iff] at h12
    subst h12
    rw [List.forall₂_nil_left_iff] at h23
    subst h23
    rfl
  | cons ad l1 ih =>
    obtain ⟨s, l2b, hhead, htail, rfl⟩ := List.forall₂_cons_left_iff.1 h12
    obtain ⟨ad1, l3b, -, htail2, rfl⟩ := List.forall₂_cons_left_iff.1 h23
    rw [List.zip_cons_cons, List.filterMap_cons, List.filter_cons]
    have hcb := hhead.2.2.1
    have hrest := ih l2b l3b htail htail2
    cases hc : ad.movement_callback with
    | none =>
      rw [hc] at hcb
      simp only [movement_call, hcb, Option.isSome_none, Bool.false_eq_true, if_false]
      exact hrest
    | some cb =>
      rw [hc] at hcb
      simp only [movement_call, hcb, Option.isSome_some, if_true, List.length_cons]
      rw [← hrest]
      rfl

/-- C17: in a completed `walkmap_tick`, after the physics step (which keeps the cached
position, callback and triangle of every actor), every actor is updated by
`update_actor_data` in the group mode, and the calls of movement callbacks are, in
the order of the bodies, one call for each actor that has a callback, with the cached
position after the update as new position and the cached position before the tick as
old position; an actor without callback is updated and gets no call. -/
theorem tick_movement_callbacks (Step : List collision_object → ℚ → Nat → b2Vec2 × b2Vec2)
    (w w1 : walkmap) (dt : ℚ) (evs : List movement_event)
    (h : walkmap_tick Step w dt = some (w1, evs)) :
    ∃ stepped : List walkmap_actordata,
      List.Forall₂ (fun ad s => s.actor = ad.actor ∧ s.position = ad.position ∧
        s.movement_callback = ad.movement_callback ∧ s.current_triangle = ad.current_triangle)
        w.actors stepped ∧
      List.Forall₂ (fun s ad1 => update_actor_data w s false = some ad1 ∧
        ad1.actor = s.actor ∧ ad1.movement_callback = s.movement_callback) stepped w1.actors ∧
      evs = (stepped.zip w1.actors).filterMap (fun p =>
        match p.1.movement_callback with
        | some _ => some ⟨p.2.actor, p.2.position, p.1.position⟩
        | none => none) ∧
      evs.length = (w.actors.filter (fun ad => ad.movement_callback.isSome)).length := by
  unfold walkmap_tick at h
  simp only [] at h
  split at h
  · cases h
  · rename_i bodies events hloop
    simp only [Option.some.injEq, Prod.mk.injEq] at h
    have h12 := actors_of_moved _ _ (collision_world_tick_moved Step w.collision dt)
    obtain ⟨h23, hev⟩ := walkmap_tick_loop_calls _ _ _ _ hloop
    refine ⟨actors_of (collision_world_tick Step w.collision dt), h12, ?_, ?_, ?_⟩
    · rw [← h.1]; exact h23
    · rw [← h.1, ← h.2]; exact hev
    · rw [← h.2, hev]
      exact movement_calls_length _ _ _ _ h12 h23

/-- An instance of the preceding theorem: a tick of the example with two actors at rest on
the floor, actor 7 with a callback and actor 8 without, makes the one call
(7, (1, 1, 0), (1, 1, 0)). -/
theorem tick_movement_callbacks_witness :
    (walkmap_tick still_step tick_walkmap 1).map
      (fun r => r.2.map (fun e => (e.actor, e.new_pos, e.old_pos))) =
        some [(7, ⟨1, 1, 0⟩, ⟨1, 1, 0⟩)] ∧
    ∃ w1 evs, walkmap_tick still_step tick_walkmap 1 = some (w1, evs) ∧
      evs.length = (tick_walkmap.actors.filter (fun ad => ad.movement_callback.isSome)).length := by
  refine ⟨by with_unfolding_all decide, ?_⟩
  have hs : (walkmap_tick still_step tick_walkmap 1).isSome = true := by
    with_unfolding_all decide
  obtain ⟨⟨w1, evs⟩, h⟩ := Option.isSome_iff_exists.1 hs
  obtain ⟨stepped, -, -, -, hlen⟩ := tick_movement_callbacks still_step tick_walkmap w1 1 evs h
  exact ⟨w1, evs, h, hlen⟩

theorem collision_world_hittest_single {α β : Type} (world : collision_world α) (pos : b2Vec2)
    (callback : Option α → Option α → β → Option α) (data : β) (b : b2Body α)
    (h : containing world pos = [b]) :
    collision_world_hittest world pos callback data = b.userData := by
  rw [collision_world_hittest_eq, query_containing, h]
  rfl

theorem update_actor_data_single (w : walkmap) (ad : walkmap_actordata) (ph : Bool)
    (T : walkmap_triangle)
    (h : containing w.walkmap_triangle_lookup ad.co.position = [triangle_body T]) :
    update_actor_data w ad ph = some
      { ad with
        co := { ad.co with filter := T.co.filter }
        current_triangle := some T
        position := ⟨ad.co.position.x, ad.co.position.y,
          walkmap_triangle_height_at_point T ad.co.position⟩ } := by
  rw [update_actor_data_eq]
  have hh : actor_hittest w ad ph = some T := by
    unfold actor_hittest
    cases ph
    · exact collision_world_hittest_single _ _ _ _ _ h
    · exact collision_world_hittest_single _ _ _ _ _ h
  rw [hh]
  rfl

theorem collision_world_tick_cons (Step : List collision_object → ℚ → Nat → b2Vec2 × b2Vec2)
    (b : collision_body) (bs : List collision_body) (dt : ℚ) :
    ∃ rest, collision_world_tick Step (b :: bs) dt =
      collision_body.moved (Step ((b :: bs).map collision_body.co) dt 0) b :: rest := by
  unfold collision_world_tick
  rw [List.length_cons, List.range_succ_eq_map, List.zipWith_cons_cons]
  exact ⟨_, rfl⟩

theorem update_actor_data_single_fields (w : walkmap) (ad ad2 : walkmap_actordata) (ph : Bool)
    (T : walkmap_triangle)
    (h : containing w.walkmap_triangle_lookup ad.co.position = [triangle_body T])
    (hu : update_actor_data w ad ph = some ad2) :
    ad2.actor = ad.actor ∧ ad2.current_triangle = some T ∧
      ad2.position = ⟨ad.co.position.x, ad.co.position.y,
        walkmap_triangle_height_at_point T ad.co.position⟩ := by
  rw [update_actor_data_single w ad ph T h] at hu
  rw [← Option.some.inj hu]
  exact ⟨rfl, rfl, rfl⟩

theorem walkmap_register_actor_world (circle : ℚ → b2Shape) (w w1 : walkmap) (a : Nat)
    (pos : vec3) (radius : ℚ) (ad1 : walkmap_actordata)
    (h : walkmap_register_actor circle w a pos radius = some (w1, ad1)) :
    w1 = { w with
      collision := collision_body.actor ad1 :: w.collision
      next_body := w.next_body + 1 } := by
  unfold walkmap_register_actor at h
  simp only [] at h
  split at h
  · cases h
  · simp only [Option.some.injEq, Prod.mk.injEq] at h
    rw [← h.1, h.2]

theorem walkmap_tick_loop_actor (w : walkmap) (s : walkmap_actordata)
    (bs bs1 : List collision_body) (evs : List movement_event)
    (h : walkmap_tick_loop w (collision_body.actor s :: bs) = some (bs1, evs)) :
    ∃ ad2 rest, bs1 = collision_body.actor ad2 :: rest ∧
      update_actor_data w s false = some ad2 := by
  unfold walkmap_tick_loop at h
  cases hb : walkmap_tick_body w (collision_body.actor s) with
  | none => simp [hb] at h
  | some r =>
    obtain ⟨b1, ev⟩ := r
    cases hr : walkmap_tick_loop w bs with
    | none => simp [hb, hr] at h
    | some r2 =>
      obtain ⟨bs2, evs2⟩ := r2
      simp only [hb, hr, Option.some.injEq, Prod.mk.injEq] at h
      unfold walkmap_tick_body at hb
      cases hu : update_actor_data w s false with
      | none => cases hc : s.movement_callback <;> simp [hc, hu] at hb
      | some ad2 =>
        refine ⟨ad2, bs2, ?_, rfl⟩
        rw [← h.1]
        cases hc : s.movement_callback <;> simp [hc, hu] at hb <;> rw [← hb.1]

/-- C12: an actor registered at a point that exactly one triangle `T` contains stands on
`T` with cached height the height of `T` there.  A tick whose physics step leaves the
planar position of its body unchanged, if it completes, leaves the cached position and
the current triangle of the actor unchanged; on a loaded walkmap the tick completes when
every actor is on the walkmap after the step. -/
theorem tick_at_rest_keeps_actor (circle : ℚ → b2Shape) (w w1 : walkmap) (a : Nat) (pos : vec3)
    (radius : ℚ) (ad1 : walkmap_actordata) (T : walkmap_triangle)
    (hreg : walkmap_register_actor circle w a pos radius = some (w1, ad1))
    (hone : containing w.walkmap_triangle_lookup pos.xy = [triangle_body T]) :
    ad1.current_triangle = some T ∧
    ad1.position = ⟨pos.x, pos.y, walkmap_triangle_height_at_point T pos.xy⟩ ∧
    (∀ Step dt, (Step (w1.collision.map collision_body.co) dt 0).1 = pos.xy →
      ∀ w2 evs, walkmap_tick Step w1 dt = some (w2, evs) →
        ∃ ad2 rest, w2.collision = collision_body.actor ad2 :: rest ∧
          ad2.actor = a ∧ ad2.position = ad1.position ∧
          ad2.current_triangle = ad1.current_triangle) ∧
    (∀ polygon Step dt, w.loaded polygon →
      (∀ ad ∈ actors_of (collision_world_tick Step w1.collision dt),
        on_walkmap w ad.co.position) →
      (walkmap_tick Step w1 dt).isSome = true) := by
  have hupd := walkmap_register_actor_some circle w w1 a pos radius ad1 hreg
  have hf := update_actor_data_single_fields w _ ad1 true T hone hupd
  have hw1 := walkmap_register_actor_world circle w w1 a pos radius ad1 hreg
  have hpos : ad1.position = ⟨pos.x, pos.y, walkmap_triangle_height_at_point T pos.xy⟩ := hf.2.2
  refine ⟨hf.2.1, hpos, ?_, ?_⟩
  · intro Step dt hstep w2 evs htick
    unfold walkmap_tick at htick
    simp only [] at htick
    split at htick
    · cases htick
    · rename_i bodies events hloop
      simp only [Option.some.injEq, Prod.mk.injEq] at htick
      have hcol : w1.collision = collision_body.actor ad1 :: w.collision := by rw [hw1]
      obtain ⟨rest, hrest⟩ := collision_world_tick_cons Step (collision_body.actor ad1)
        w.collision dt
      rw [← hcol] at hrest
      rw [hrest] at hloop
      obtain ⟨ad2, rest2, hb, hu⟩ := walkmap_tick_loop_actor _ _ _ _ _ hloop
      have hlook : w1.walkmap_triangle_lookup = w.walkmap_triangle_lookup := by rw [hw1]
      have hs : containing w1.walkmap_triangle_lookup
          (Step (w1.collision.map collision_body.co) dt 0).1 = [triangle_body T] := by
        rw [hlook, hstep]; exact hone
      have hf2 := update_actor_data_single_fields _ _ ad2 false T hs hu
      refine ⟨ad2, rest2, by rw [← htick.1]; exact hb, ?_, ?_, ?_⟩
      · rw [hf2.1]; exact hf.1
      · rw [hf2.2.2, hpos]
        have h1 : (Step (w1.collision.map collision_body.co) dt 0).1 = pos.xy := hstep
        show (⟨(Step (w1.collision.map collision_body.co) dt 0).1.x,
          (Step (w1.collision.map collision_body.co) dt 0).1.y,
          walkmap_triangle_height_at_point T
            (Step (w1.collision.map collision_body.co) dt 0).1⟩ : vec3) = _
        rw [h1]
        rfl
      · rw [hf2.2.1, hf.2.1]
  · intro polygon Step dt hl hall
    unfold walkmap_tick
    simp only []
    have hlook : w1.walkmap_triangle_lookup = w.walkmap_triangle_lookup := by rw [hw1]
    have hl1 : w1.loaded polygon := by rw [hw1]; exact hl
    obtain ⟨r, hr⟩ := Option.isSome_iff_exists.1
      (walkmap_tick_loop_isSome { w1 with collision := collision_world_tick Step w1.collision dt }
        _ (fun ad had => update_actor_data_isSome polygon _ hl1 ad false (by
          have := hall ad had
          unfold on_walkmap at this ⊢
          rw [← hlook] at this
          exact this)))
    rw [hr]
    rfl

/-- An instance of the preceding theorem: an actor registered on the lone floor triangle at
(1, 1) with seed height 0; after a tick in which nothing moves its cached position is still
(1, 1, 0) and it still stands on the floor. -/
theorem tick_at_rest_keeps_actor_witness :
    containing floor_walkmap.walkmap_triangle_lookup (vec3.xy ⟨1, 1, 0⟩) =
      [triangle_body floor_triangle] ∧
    ((walkmap_register_actor exact_circle floor_walkmap 7 ⟨1, 1, 0⟩ (1 / 2)).bind
      (fun r => walkmap_tick still_step r.1 1)).map
      (fun r => r.1.actors.map (fun ad => (ad.position, ad.current_triangle.map (fun t => t.group))))
      = some [(⟨1, 1, 0⟩, some 0)] ∧
    ∃ w1 ad1, walkmap_register_actor exact_circle floor_walkmap 7 ⟨1, 1, 0⟩ (1 / 2) =
        some (w1, ad1) ∧
      ad1.current_triangle = some floor_triangle ∧ ad1.position = ⟨1, 1, 0⟩ := by
  have hone : containing floor_walkmap.walkmap_triangle_lookup (vec3.xy ⟨1, 1, 0⟩) =
      [triangle_body floor_triangle] := by
    have ht : (triangle_body floor_triangle).fixture.TestPoint (vec3.xy ⟨1, 1, 0⟩) = true := by
      with_unfolding_all decide
    simp [containing, floor_walkmap, List.filter, ht]
  refine ⟨hone, by with_unfolding_all decide, ?_⟩
  have hs : (walkmap_register_actor exact_circle floor_walkmap 7 ⟨1, 1, 0⟩ (1 / 2)).isSome
      = true := by with_unfolding_all decide
  obtain ⟨⟨w1, ad1⟩, h⟩ := Option.isSome_iff_exists.1 hs
  have hthm := tick_at_rest_keeps_actor exact_circle floor_walkmap w1 7 ⟨1, 1, 0⟩ (1 / 2) ad1
    floor_triangle h hone
  refine ⟨w1, ad1, h, hthm.1, ?_⟩
  rw [hthm.2.1]
  have : walkmap_triangle_height_at_point floor_triangle (vec3.xy ⟨1, 1, 0⟩) = 0 := by
    with_unfolding_all decide
  rw [this]

/-! ## The next power of two -/

/-- One line of the smear: when bit `i` of `z` tells whether `y` has a bit in
`[i, i + k]`, bit `i` of `z ||| z >>> (k + 1)` tells whether `y` has one in
`[i, i + (2 k + 1)]`. -/
theorem smear_step (y z k : Nat)
    (h : ∀ i, z.testBit i = true ↔ ∃ j, i ≤ j ∧ j ≤ i + k ∧ y.testBit j = true) :
    ∀ i, (z ||| (z >>> (k + 1))).testBit i = true ↔
      ∃ j, i ≤ j ∧ j ≤ i + (2 * k + 1) ∧ y.testBit j = true := by
  intro i
  rw [Nat.testBit_or, Nat.testBit_shiftRight, Bool.or_eq_true, h, h]
  constructor
  · rintro (⟨j, h1, h2, h3⟩ | ⟨j, h1, h2, h3⟩)
    · exact ⟨j, h1, by omega, h3⟩
    · exact ⟨j, by omega, by omega, h3⟩
  · rintro ⟨j, h1, h2, h3⟩
    by_cases hj : j ≤ i + k
    · exact Or.inl ⟨j, h1, hj, h3⟩
    · exact Or.inr ⟨j, by omega, by omega, h3⟩

theorem npot_smear_testBit (y : Nat) (hy : y < 4294967296) (i : Nat) :
    (npot_smear y).testBit i = true ↔ ∃ j, i ≤ j ∧ y.testBit j = true := by
  have h0 : ∀ i, y.testBit i = true ↔ ∃ j, i ≤ j ∧ j ≤ i + 0 ∧ y.testBit j = true := by
    intro i
    constructor
    · intro h; exact ⟨i, le_refl _, le_refl _, h⟩
    · rintro ⟨j, h1, h2, h3⟩
      have : j = i := by omega
      rw [← this]; exact h3
  have h1 := smear_step y _ 0 h0
  have h2 := smear_step y _ 1 h1
  have h3 := smear_step y _ 3 h2
  have h4 := smear_step y _ 7 h3
  have h5 := smear_step y _ 15 h4
  have h6 : (npot_smear y).testBit i = true ↔
      ∃ j, i ≤ j ∧ j ≤ i + (2 * 15 + 1) ∧ y.testBit j = true := h5 i
  rw [h6]
  constructor
  · rintro ⟨j, hj1, -, hj3⟩
    exact ⟨j, hj1, hj3⟩
  · rintro ⟨j, hj1, hj3⟩
    refine ⟨j, hj1, ?_, hj3⟩
    have hge := Nat.testBit_implies_ge hj3
    have hlt : 2 ^ j < 2 ^ 32 := lt_of_le_of_lt hge (by norm_num; exact hy)
    have := (Nat.pow_lt_pow_iff_right (by norm_num : 1 < 2)).1 hlt
    omega

/-- The smear of a non-zero 32 bit number fills all bits up to its top bit. -/
theorem npot_smear_eq (y : Nat) (hy : y < 4294967296) (hy0 : y ≠ 0) :
    ∃ i, 2 ^ i ≤ y ∧ y < 2 ^ (i + 1) ∧ npot_smear y = 2 ^ (i + 1) - 1 := by
  obtain ⟨i, hi, hmax⟩ := Nat.exists_most_significant_bit hy0
  refine ⟨i, Nat.testBit_implies_ge hi, ?_, ?_⟩
  · apply Nat.lt_pow_two_of_testBit
    intro j hj
    exact hmax j hj
  · apply Nat.eq_of_testBit_eq
    intro k
    rw [Nat.testBit_two_pow_sub_one]
    by_cases hk : k < i + 1
    · rw [decide_eq_true hk]
      exact (npot_smear_testBit y hy k).2 ⟨i, by omega, hi⟩
    · rw [decide_eq_false hk]
      cases hb : (npot_smear y).testBit k
      · rfl
      · obtain ⟨j, hj1, hj2⟩ := (npot_smear_testBit y hy k).1 hb
        rw [hmax j (by omega)] at hj2
        exact Bool.noConfusion hj2

theorem npot_eq (x : Nat) (h1 : 1 ≤ x) (h2 : x ≤ 2 ^ 31) :
    ∃ k, npot x = 2 ^ k ∧ x ≤ 2 ^ k ∧ 2 ^ k < 2 * x := by
  have hx : (x + 4294967296 - 1) % 4294967296 = x - 1 := by
    have : x + 4294967296 - 1 = (x - 1) + 4294967296 := by omega
    rw [this, Nat.add_mod_right]
    apply Nat.mod_eq_of_lt
    norm_num at h2
    omega
  unfold npot
  simp only []
  rw [hx]
  by_cases hy0 : x - 1 = 0
  · refine ⟨0, ?_, by omega, by omega⟩
    rw [hy0]
    rfl
  · have hy : x - 1 < 4294967296 := by norm_num at h2; omega
    obtain ⟨i, hi1, hi2, hi3⟩ := npot_smear_eq (x - 1) hy hy0
    have hpos : 0 < 2 ^ (i + 1) := Nat.two_pow_pos _
    have hi31 : i < 31 := by
      have : 2 ^ i < 2 ^ 31 := by omega
      exact (Nat.pow_lt_pow_iff_right (by norm_num : 1 < 2)).1 this
    have hle : 2 ^ (i + 1) ≤ 2 ^ 31 := Nat.pow_le_pow_right (by norm_num) (by omega)
    refine ⟨i + 1, ?_, by omega, ?_⟩
    · rw [hi3, Nat.sub_add_cancel hpos]
      apply Nat.mod_eq_of_lt
      norm_num at hle ⊢
      omega
    · rw [Nat.pow_succ]
      omega

/-- C20: for `1 ≤ x ≤ 2^31`, `npot x` is a power of two with `x ≤ npot x < 2 x`; it is
the least power of two that is at least `x`, and it is `x` when `x` is a power of two.
Hence `framebuffer_size w h` is a power of two that is at least `w` and `h` when the
larger of them is in that range. -/
theorem npot_least_power_of_two (x : Nat) (h1 : 1 ≤ x) (h2 : x ≤ 2 ^ 31) :
    (∃ k, npot x = 2 ^ k) ∧ x ≤ npot x ∧ npot x < 2 * x ∧
    (∀ k, x ≤ 2 ^ k → npot x ≤ 2 ^ k) ∧
    ((∃ k, x = 2 ^ k) → npot x = x) ∧
    (∀ w h, max w h = x →
      (∃ k, framebuffer_size w h = 2 ^ k) ∧ w ≤ framebuffer_size w h ∧
        h ≤ framebuffer_size w h ∧ framebuffer_size w h < 2 * max w h) := by
  obtain ⟨m, hm, hm1, hm2⟩ := npot_eq x h1 h2
  have hleast : ∀ k, x ≤ 2 ^ k → npot x ≤ 2 ^ k := by
    intro k hk
    rw [hm]
    apply Nat.pow_le_pow_right (by norm_num)
    have : 2 ^ m < 2 ^ (k + 1) := by
      rw [Nat.pow_succ]
      omega
    have := (Nat.pow_lt_pow_iff_right (by norm_num : 1 < 2)).1 this
    omega
  refine ⟨⟨m, hm⟩, by rw [hm]; exact hm1, by rw [hm]; exact hm2, hleast, ?_, ?_⟩
  · rintro ⟨k, hk⟩
    have := hleast k (le_of_eq hk)
    rw [hm] at this ⊢
    omega
  · intro w h hmax
    have hfs : framebuffer_size w h = npot x := by
      unfold framebuffer_size
      rw [← hmax]
      by_cases hwh : w > h
      · rw [if_pos hwh, max_eq_left (le_of_lt hwh)]
      · rw [if_neg hwh, max_eq_right (not_lt.1 hwh)]
    rw [hfs, hmax, hm]
    have hw : w ≤ x := by rw [← hmax]; exact le_max_left _ _
    have hh : h ≤ x := by rw [← hmax]; exact le_max_right _ _
    exact ⟨⟨m, rfl⟩, by omega, by omega, hm2⟩

/-- An instance of the preceding theorem: at `x = 640`, where `npot` gives 1024, and for
the framebuffer of a 640 by 480 area. -/
theorem npot_least_power_of_two_witness :
    npot 640 = 1024 ∧ framebuffer_size 640 480 = 1024 ∧ npot 1 = 1 ∧
    npot 2147483648 = 2147483648 ∧
    (640 ≤ npot 640 ∧ npot 640 < 2 * 640) :=
  ⟨by decide, by decide, by decide, by decide,
    (npot_least_power_of_two 640 (by decide) (by decide)).2.1,
    (npot_least_power_of_two 640 (by decide) (by decide)).2.2.1⟩

/-! ## Layers of a scene -/

/-- C19, evaluated: loading layers with the world depths 3, 1 and 0, in this order, leaves
the layer list in the order 3, 0, 1, which is not monotone: the third call finds a list
of two layers, does not put the new layer in front and inserts it behind the first layer
in the first pass of the loop.  Inserting in front of the first layer of smaller order,
as the comments describe, gives 3, 1, 0. -/
theorem scene_load_layer_unsorted :
    (scene_load_layer (scene_load_layer (scene_load_layer [] 3 1) 1 1) 0 1).map
        layer_render_order = [3, 0, 1] ∧
    ¬ List.Sorted (fun a b : ℚ => a ≥ b)
      ((scene_load_layer (scene_load_layer (scene_load_layer [] 3 1) 1 1) 0 1).map
        layer_render_order) ∧
    (insert_by_render_order (layer_create 0 1)
        (insert_by_render_order (layer_create 1 1)
          (insert_by_render_order (layer_create 3 1) []))).map layer_render_order =
      [3, 1, 0] ∧
    (∀ (ll cur next : layer) (order cur_order : ℚ) (rest : List layer),
      scene_load_layer_loop ll order cur cur_order (next :: rest) = cur :: ll :: next :: rest) := by
  refine ⟨by with_unfolding_all decide, ?_, by with_unfolding_all decide, fun _ _ _ _ _ _ => rfl⟩
  have h : (scene_load_layer (scene_load_layer (scene_load_layer [] 3 1) 1 1) 0 1).map
      layer_render_order = [3, 0, 1] := by with_unfolding_all decide
  rw [h]
  intro hs
  have h01 : (0 : ℚ) ≥ 1 := by
    have := List.rel_of_sorted_cons (List.Sorted.of_cons hs) 1 (by simp)
    exact this
  norm_num at h01

/-! ## Actors outside a walkmap -/

/-- C16: for an actor whose `walkmap_data` is null, `actor_position` writes (0, 0, 0) and
`actor_velocity` writes (0, 0), both returning, and `actor_set_position` and
`actor_set_velocity` return with the actor and the walkmap as they were. -/
theorem detached_actor_queries (a : actor) (w : walkmap) (h : a.walkmap_data = none) :
    actor_position a w = outcome.done ⟨0, 0, 0⟩ ∧
    actor_velocity a w = outcome.done ⟨0, 0⟩ ∧
    (∀ p, actor_set_position a p w = outcome.done (a, w)) ∧
    (∀ v, actor_set_velocity a v w = outcome.done (a, w)) := by
  refine ⟨?_, ?_, ?_, ?_⟩
  · unfold actor_position; rw [h]
  · unfold actor_velocity; rw [h]
  · intro p; unfold actor_set_position; rw [h]
  · intro v; unfold actor_set_velocity; rw [h]

/-- An instance of the preceding theorem: an actor that was never added to the walkmap of
the example. -/
theorem detached_actor_queries_witness :
    detached_actor.walkmap_data = none ∧
    actor_position detached_actor bridge_walkmap = outcome.done ⟨0, 0, 0⟩ ∧
    actor_velocity detached_actor bridge_walkmap = outcome.done ⟨0, 0⟩ :=
  ⟨rfl, (detached_actor_queries detached_actor bridge_walkmap rfl).1,
    (detached_actor_queries detached_actor bridge_walkmap rfl).2.1⟩

/-! ## Freeing a collision object -/

theorem collision_object_free_done {β : Type} (body_of : β → Nat) (co : collision_object)
    (world : List β) (h : ∃ b ∈ world, body_of b = co.body) :
    collision_object_free body_of co world =
      outcome.done (world.filter (fun b => body_of b != co.body)) := by
  unfold collision_object_free
  rw [if_pos]
  rw [List.any_eq_true]
  obtain ⟨b, hb, hid⟩ := h
  exact ⟨b, hb, by simp [hid]⟩

theorem collision_object_free_undefined {β : Type} (body_of : β → Nat) (co : collision_object)
    (world : List β) (h : ∀ b ∈ world, body_of b ≠ co.body) :
    collision_object_free body_of co world = outcome.undefined := by
  unfold collision_object_free
  rw [if_neg]
  rw [List.any_eq_true]
  rintro ⟨b, hb, hid⟩
  exact h b hb (by simpa using hid)

/-- C18, as the code has it: in a world of two bodies the first `collision_object_free` of
a handle returns and leaves one body; the second call on the same handle uses the
destroyed fixture, which is undefined behaviour and not a failed assertion. -/
theorem collision_object_free_twice_undefined :
    ¬ (∀ world1, collision_object_free collision_body.body floor_actor.co two_body_world =
        outcome.done world1 →
      collision_object_free collision_body.body floor_actor.co world1 =
        outcome.assert_failed) := by
  intro h
  have h1 := collision_object_free_done collision_body.body floor_actor.co two_body_world
    ⟨collision_body.actor floor_actor, by simp [two_body_world], rfl⟩
  have h2 := h _ h1
  rw [collision_object_free_undefined] at h2
  · cases h2
  · intro b hb
    have := (List.mem_filter.1 hb).2
    simpa using this

/-- C18, amended: `collision_object_free` makes no check of its own.  On a handle whose
body is live in the world it returns with that body removed and the other bodies kept;
a second call on the same handle finds the fixture destroyed: its behaviour is
undefined, no assertion is reached. -/
theorem collision_object_free_twice {β : Type} (body_of : β → Nat) (co : collision_object)
    (world : List β) (h : ∃ b ∈ world, body_of b = co.body) :
    ∃ world1, collision_object_free body_of co world = outcome.done world1 ∧
      (∀ b, b ∈ world1 ↔ b ∈ world ∧ body_of b ≠ co.body) ∧
      collision_object_free body_of co world1 = outcome.undefined := by
  refine ⟨_, collision_object_free_done body_of co world h, ?_, ?_⟩
  · intro b
    rw [List.mem_filter]
    simp
  · apply collision_object_free_undefined
    intro b hb
    have := (List.mem_filter.1 hb).2
    simpa using this

/-- An instance of the preceding theorem: freeing the handle of body 0 in the world of two
bodies leaves the body 1, and freeing it again is undefined. -/
theorem collision_object_free_twice_witness :
    (∃ b ∈ two_body_world, collision_body.body b = floor_actor.co.body) ∧
    ∃ world1, collision_object_free collision_body.body floor_actor.co two_body_world =
        outcome.done world1 ∧
      world1.map collision_body.body = [1] ∧
      collision_object_free collision_body.body floor_actor.co world1 = outcome.undefined := by
  have hin : ∃ b ∈ two_body_world, collision_body.body b = floor_actor.co.body :=
    ⟨collision_body.actor floor_actor, by simp [two_body_world], rfl⟩
  obtain ⟨world1, h1, -, h3⟩ :=
    collision_object_free_twice collision_body.body floor_actor.co two_body_world hin
  refine ⟨hin, world1, h1, ?_, h3⟩
  rw [collision_object_free_done collision_body.body floor_actor.co two_body_world hin] at h1
  cases h1
  with_unfolding_all decide

/-! ## Destroying a walkmap -/

theorem free_all_done {β : Type} (body_of : β → Nat) (cos : List collision_object)
    (world : List β) (hnd : (cos.map (fun co => co.body)).Nodup)
    (hin : ∀ co ∈ cos, ∃ b ∈ world, body_of b = co.body) :
    ∃ world1, free_all body_of cos world = outcome.done world1 ∧
      ∀ b, b ∈ world1 ↔ b ∈ world ∧ body_of b ∉ cos.map (fun co => co.body) := by
  induction cos generalizing world with
  | nil => exact ⟨world, rfl, by simp⟩
  | cons co cos ih =>
    rw [List.map_cons, List.nodup_cons] at hnd
    have h1 := collision_object_free_done body_of co world (hin co (List.mem_cons_self _ _))
    have hin2 : ∀ co2 ∈ cos, ∃ b ∈ world.filter (fun b => body_of b != co.body),
        body_of b = co2.body := by
      intro co2 hco2
      obtain ⟨b, hb, hid⟩ := hin co2 (List.mem_cons_of_mem _ hco2)
      refine ⟨b, List.mem_filter.2 ⟨hb, ?_⟩, hid⟩
      have hne : body_of b ≠ co.body := by
        rw [hid]
        intro heq
        apply hnd.1
        rw [← heq]
        exact List.mem_map_of_mem (fun co => co.body) hco2
      simpa using hne
    obtain ⟨world1, hw1, hmem⟩ := ih _ hnd.2 hin2
    refine ⟨world1, ?_, ?_⟩
    · rw [free_all, h1]
      exact hw1
    · intro b
      rw [hmem, List.mem_filter, List.map_cons, List.mem_cons]
      constructor
      · rintro ⟨⟨hb, hne⟩, hnot⟩
        refine ⟨hb, ?_⟩
        rintro (heq | hmem2)
        · simp [heq] at hne
        · exact hnot hmem2
      · rintro ⟨hb, hnot⟩
        refine ⟨⟨hb, ?_⟩, fun hmem2 => hnot (Or.inr hmem2)⟩
        have hne : body_of b ≠ co.body := fun heq => hnot (Or.inl heq)
        simpa using hne

theorem actors_of_eq_nil (bs : List collision_body) :
    actors_of bs = [] ↔ ∀ b ∈ bs, b.userdata = none := by
  unfold actors_of
  rw [List.filterMap_eq_nil_iff]

theorem map_co_body (bs : List walkmap_border) :
    (bs.map (fun b => b.co)).map (fun co => co.body) = bs.map (fun x => x.co.body) := by
  rw [List.map_map]
  rfl

theorem walkmap_destroy_collision_eq (w : walkmap) (hok : w.bodies_ok) :
    (w.actors = [] → walkmap_destroy_collision w = outcome.done ()) ∧
    (w.actors ≠ [] → walkmap_destroy_collision w = outcome.assert_failed) := by
  obtain ⟨h1, h2, -, -, -, -, hnd, -, -, -, -⟩ := hok
  have hnd2 : ((w.borders.map (fun b => b.co)).map (fun co => co.body)).Nodup := by
    rw [map_co_body]; exact hnd
  have hin : ∀ co ∈ w.borders.map (fun b => b.co), ∃ b ∈ w.collision,
      collision_body.body b = co.body := by
    intro co hco
    obtain ⟨x, hx, rfl⟩ := List.mem_map.1 hco
    exact h2 x hx
  obtain ⟨world1, hw1, hmem⟩ := free_all_done collision_body.body _ w.collision hnd2 hin
  rw [map_co_body] at hmem
  unfold walkmap_destroy_collision
  rw [hw1]
  simp only [outcome.bind, collision_world_count]
  constructor
  · intro hact
    have hnil : world1 = [] := by
      apply List.eq_nil_iff_forall_not_mem.2
      intro b hb
      obtain ⟨hb1, hb2⟩ := (hmem b).1 hb
      have hu : b.userdata = none :=
        (actors_of_eq_nil w.collision).1 hact b hb1
      exact hb2 ((h1 b hb1).1 hu)
    rw [hnil]
    rfl
  · intro hact
    have hne : world1 ≠ [] := by
      intro hnil
      apply hact
      apply (actors_of_eq_nil w.collision).2
      intro b hb
      by_contra hu
      have : b ∈ world1 := (hmem b).2 ⟨hb, fun hid => hu ((h1 b hb).2 hid)⟩
      rw [hnil] at this
      cases this
    rw [if_neg]
    intro hlen
    exact hne (List.length_eq_zero.1 hlen)

theorem free_all_empty {β : Type} (body_of : β → Nat) (cos : List collision_object)
    (world : List β) (hnd : (cos.map (fun co => co.body)).Nodup)
    (hin : ∀ co ∈ cos, ∃ b ∈ world, body_of b = co.body)
    (hall : ∀ b ∈ world, body_of b ∈ cos.map (fun co => co.body)) :
    (free_all body_of cos world).bind
      (fun c => if collision_world_count c = 0 then outcome.done () else outcome.assert_failed) =
      outcome.done () := by
  obtain ⟨world1, hw1, hmem⟩ := free_all_done body_of cos world hnd hin
  have hnil : world1 = [] := by
    apply List.eq_nil_iff_forall_not_mem.2
    intro b hb
    obtain ⟨hb1, hb2⟩ := (hmem b).1 hb
    exact hb2 (hall b hb1)
  rw [hw1, hnil]
  rfl

theorem walkmap_destroy_lookup_eq (w : walkmap) (hok : w.bodies_ok) :
    walkmap_destroy_lookup w = outcome.done () := by
  obtain ⟨-, -, h3, h4, -, -, -, hnd, -, -, -⟩ := hok
  unfold walkmap_destroy_lookup
  apply free_all_empty
  · rw [List.map_map]; exact hnd
  · intro co hco
    obtain ⟨t, ht, rfl⟩ := List.mem_map.1 hco
    exact h4 t ht
  · intro f hf
    rw [List.map_map]
    exact h3 f hf

theorem walkmap_destroy_triggers_eq (w : walkmap) (hok : w.bodies_ok) :
    walkmap_destroy_triggers w = outcome.done () := by
  obtain ⟨-, -, -, -, h5, h6, -, -, hnd, -, -⟩ := hok
  unfold walkmap_destroy_triggers
  apply free_all_empty
  · rw [List.map_map]; exact hnd
  · intro co hco
    obtain ⟨t, ht, rfl⟩ := List.mem_map.1 hco
    exact h6 t ht
  · intro f hf
    rw [List.map_map]
    exact h5 f hf

theorem mem_actors_of (bs : List collision_body) (ad : walkmap_actordata) :
    ad ∈ actors_of bs ↔ collision_body.actor ad ∈ bs := by
  unfold actors_of
  rw [List.mem_filterMap]
  constructor
  · rintro ⟨b, hb, hu⟩
    cases b with
    | border co => cases hu
    | actor ad2 =>
      simp only [collision_body.userdata, Option.some.injEq] at hu
      rw [← hu]; exact hb
  · intro h
    exact ⟨_, h, rfl⟩

theorem walkmap_unregister_actor_ok (w : walkmap) (hok : w.bodies_ok) (ad : walkmap_actordata)
    (had : ad ∈ w.actors) :
    ∃ w1, walkmap_unregister_actor w ad = outcome.done w1 ∧ w1.bodies_ok ∧
      ∀ x, x ∈ w1.actors ↔ (x ∈ w.actors ∧ x.co.body ≠ ad.co.body) := by
  have hmem : collision_body.actor ad ∈ w.collision := (mem_actors_of _ _).1 had
  have hfree := collision_object_free_done collision_body.body ad.co w.collision
    ⟨_, hmem, rfl⟩
  refine ⟨{ w with
    collision := (w.collision.filter (fun b => collision_body.body b != ad.co.body)) },
    ?_, ?_, ?_⟩
  · unfold walkmap_unregister_actor
    rw [hfree]
    rfl
  · obtain ⟨h1, h2, h3, h4, h5, h6, h7, h8, h9, h10, h11⟩ := hok
    refine ⟨?_, ?_, h3, h4, h5, h6, h7, h8, h9, h10, h11⟩
    · intro b hb
      exact h1 b (List.mem_filter.1 hb).1
    · intro x hx
      obtain ⟨b, hb, hid⟩ := h2 x hx
      refine ⟨b, List.mem_filter.2 ⟨hb, ?_⟩, hid⟩
      have hne : collision_body.body b ≠ ad.co.body := by
        intro heq
        have hin : (collision_body.actor ad).body ∈ w.borders.map (fun x => x.co.body) := by
          show ad.co.body ∈ _
          rw [← heq, hid]
          exact List.mem_map_of_mem (fun x => x.co.body) hx
        have := (h1 _ hmem).2 hin
        cases this
      simpa using hne
  · intro x
    unfold walkmap.actors
    rw [mem_actors_of, mem_actors_of]
    show collision_body.actor x ∈ w.collision.filter _ ↔ _
    rw [List.mem_filter]
    constructor
    · rintro ⟨hx, hne⟩
      refine ⟨hx, ?_⟩
      have : collision_body.body (collision_body.actor x) ≠ ad.co.body := by simpa using hne
      exact this
    · rintro ⟨hx, hne⟩
      refine ⟨hx, ?_⟩
      have : collision_body.body (collision_body.actor x) ≠ ad.co.body := hne
      simpa using this

theorem walkmap_register_actor_ok (circle : ℚ → b2Shape) (w w1 : walkmap) (hok : w.bodies_ok)
    (a : Nat) (pos : vec3) (radius : ℚ) (ad : walkmap_actordata)
    (h : walkmap_register_actor circle w a pos radius = some (w1, ad)) :
    w1.bodies_ok ∧ w1.actors = ad :: w.actors ∧ ad.co.body = w.next_body := by
  have hw1 := walkmap_register_actor_world circle w w1 a pos radius ad h
  have hupd := walkmap_register_actor_some circle w w1 a pos radius ad h
  obtain ⟨wt, -, hform⟩ := update_actor_data_some w _ ad true hupd
  have hbody : ad.co.body = w.next_body := by rw [hform]
  obtain ⟨h1, h2, h3, h4, h5, h6, h7, h8, h9, h10, h11⟩ := hok
  refine ⟨?_, by rw [hw1]; rfl, hbody⟩
  rw [hw1]
  refine ⟨?_, ?_, h3, h4, h5, h6, h7, h8, h9, ?_,
    fun tr htr => Nat.lt_succ_of_lt (h11 tr htr)⟩
  · intro b hb
    rcases List.mem_cons.1 hb with rfl | hb
    · constructor
      · intro hu; cases hu
      · intro hin
        exfalso
        obtain ⟨x, hx, hid⟩ := List.mem_map.1 hin
        have hlt := h10 x hx
        have : x.co.body = w.next_body := by rw [hid]; exact hbody
        omega
    · exact h1 b hb
  · intro x hx
    obtain ⟨b, hb, hid⟩ := h2 x hx
    exact ⟨b, List.mem_cons_of_mem _ hb, hid⟩
  · intro x hx
    exact Nat.lt_succ_of_lt (h10 x hx)

/-! ## Loading a map file -/

theorem fread_uint_some (size : Nat) (input rest : List Nat) (v : Nat)
    (h : fread_uint size input = some (v, rest)) :
    v = uint_le (input.take size) ∧ rest = input.drop size ∧ size ≤ input.length := by
  unfold fread_uint at h
  by_cases hs : size ≤ input.length
  · rw [if_pos hs] at h
    simp only [Option.some.injEq, Prod.mk.injEq] at h
    exact ⟨h.1.symm, h.2.symm, hs⟩
  · rw [if_neg hs] at h
    cases h

theorem fread_uint_append (v rest : List Nat) :
    fread_uint v.length (v ++ rest) = some (uint_le v, rest) := by
  unfold fread_uint
  rw [if_pos (by simp), List.take_left, List.drop_left]

/-- A completed pass of the triangle loop read its first record with a group below 16 and
went on with the rest of the records behind the 16 bytes of that record. -/
theorem load_map_triangles_succ (polygon : List b2Vec2 → b2Shape) (vertices : List ℚ)
    (n : Nat) (input : List Nat) (body : Nat) (ts : List walkmap_triangle) (rest : List Nat)
    (h : load_map_triangles polygon vertices (n + 1) input body = outcome.done (ts, rest)) :
    ∃ a b c ts1, uint_le (input.take 2) < 16 ∧
      load_map_triangles polygon vertices n (input.drop 16) (body + 1) =
        outcome.done (ts1, rest) ∧
      ts = load_map_triangle_body polygon (uint_le (input.take 2))
        (uint_le ((input.drop 2).take 2)) a b c body :: ts1 := by
  unfold load_map_triangles at h
  cases h1 : fread_uint 2 input with
  | none => simp [h1] at h
  | some p1 =>
    obtain ⟨group, input1⟩ := p1
    obtain ⟨hg1, hi1, -⟩ := fread_uint_some 2 input input1 group h1
    simp only [h1] at h
    by_cases hg : 16 ≤ group
    · rw [if_pos hg] at h; cases h
    · rw [if_neg hg] at h
      cases h2 : fread_uint 2 input1 with
      | none => simp [h2] at h
      | some p2 =>
        obtain ⟨mask, input2⟩ := p2
        obtain ⟨hm1, hi2, -⟩ := fread_uint_some 2 input1 input2 mask h2
        simp only [h2] at h
        by_cases hlen : input2.length < 12
        · rw [if_pos hlen] at h; cases h
        · rw [if_neg hlen] at h
          cases hv0 : read_vertex vertices (uint_le (input2.take 4)) with
          | none => simp [hv0] at h
          | some a =>
            cases hv1 : read_vertex vertices (uint_le ((input2.drop 4).take 4)) with
            | none => simp [hv0, hv1] at h
            | some b =>
              cases hv2 : read_vertex vertices (uint_le ((input2.drop 8).take 4)) with
              | none => simp [hv0, hv1, hv2] at h
              | some c =>
                simp only [hv0, hv1, hv2] at h
                cases hr : load_map_triangles polygon vertices n (input2.drop 12) (body + 1) with
                | assert_failed => simp [hr, outcome.bind] at h
                | undefined => simp [hr, outcome.bind] at h
                | done r =>
                  obtain ⟨ts1, rest1⟩ := r
                  simp only [hr, outcome.bind, outcome.done.injEq, Prod.mk.injEq] at h
                  have hdrop : input2.drop 12 = input.drop 16 := by
                    rw [hi2, hi1, List.drop_drop, List.drop_drop]
                  refine ⟨a, b, c, ts1, ?_, ?_, ?_⟩
                  · rw [← hg1]; omega
                  · rw [← hdrop, hr, h.2]
                  · rw [← h.1, ← hg1, ← hi1, ← hm1]

/-- C14, evaluated: `load_map` reads the version field and never looks at it.  Two files
that differ in their first four bytes only are loaded alike, and the map file of the
example with version 2 is loaded like the one with version 1: the load returns with the
same triangle. -/
theorem load_map_ignores_version :
    (∀ (polygon chain : List b2Vec2 → b2Shape) (float_of_bits : Nat → ℚ) (w : walkmap)
        (v1 v2 rest : List Nat), v1.length = 4 → v2.length = 4 →
      load_map polygon chain float_of_bits w (v1 ++ rest) =
        load_map polygon chain float_of_bits w (v2 ++ rest)) ∧
    uint_le ((example_map_file 2 0).take 4) = 2 ∧
    (walkmap_create exact_polygon exact_polygon ieee_single (example_map_file 2 0)).isDone =
      true ∧
    walkmap_create exact_polygon exact_polygon ieee_single (example_map_file 2 0) =
      walkmap_create exact_polygon exact_polygon ieee_single (example_map_file 1 0) := by
  have hgen : ∀ (polygon chain : List b2Vec2 → b2Shape) (float_of_bits : Nat → ℚ) (w : walkmap)
      (v1 v2 rest : List Nat), v1.length = 4 → v2.length = 4 →
      load_map polygon chain float_of_bits w (v1 ++ rest) =
        load_map polygon chain float_of_bits w (v2 ++ rest) := by
    intro polygon chain float_of_bits w v1 v2 rest h1 h2
    have e1 := fread_uint_append v1 rest
    have e2 := fread_uint_append v2 rest
    rw [h1] at e1
    rw [h2] at e2
    unfold load_map
    rw [e1, e2]
  refine ⟨hgen, by decide, by with_unfolding_all decide, ?_⟩
  exact hgen exact_polygon exact_polygon ieee_single _ [2, 0, 0, 0] [1, 0, 0, 0] _ rfl rfl

theorem load_map_triangles_bodies (polygon : List b2Vec2 → b2Shape) (vertices : List ℚ)
    (n : Nat) (input : List Nat) (body : Nat) (ts : List walkmap_triangle) (rest : List Nat)
    (h : load_map_triangles polygon vertices n input body = outcome.done (ts, rest)) :
    ts.map (fun t => t.co.body) = List.range' body n := by
  induction n generalizing input body ts with
  | zero =>
    simp only [load_map_triangles, outcome.done.injEq, Prod.mk.injEq] at h
    rw [← h.1]
    rfl
  | succ n ih =>
    obtain ⟨a, b, c, ts1, -, hrec, hts⟩ :=
      load_map_triangles_succ polygon vertices n input body ts rest h
    rw [hts, List.map_cons, ih _ _ _ hrec]
    rfl

theorem load_map_borders_succ (chain : List b2Vec2 → b2Shape) (vertices : List ℚ)
    (n : Nat) (input : List Nat) (body : Nat) (bs : List walkmap_border) (rest : List Nat)
    (h : load_map_borders chain vertices (n + 1) input body = outcome.done (bs, rest)) :
    ∃ b0 bs1 input1, b0.co.body = body ∧
      load_map_borders chain vertices n input1 (body + 1) = outcome.done (bs1, rest) ∧
      bs = b0 :: bs1 := by
  unfold load_map_borders at h
  cases h1 : fread_uint 2 input with
  | none => simp [h1] at h
  | some p1 =>
    obtain ⟨group, input1⟩ := p1
    simp only [h1] at h
    by_cases hg : 16 ≤ group
    · rw [if_pos hg] at h; cases h
    · rw [if_neg hg] at h
      cases h2 : fread_uint 2 input1 with
      | none => simp [h2] at h
      | some p2 =>
        obtain ⟨mask, input2⟩ := p2
        simp only [h2] at h
        cases h3 : fread_uint 4 input2 with
        | none => simp [h3] at h
        | some p3 =>
          obtain ⟨length, input3⟩ := p3
          simp only [h3] at h
          by_cases hneg : 2147483648 ≤ length
          · rw [if_pos hneg] at h
            by_cases hsmall : 3 * (4294967296 - length) ≤ 2147483648
            · rw [if_pos hsmall] at h; cases h
            · rw [if_neg hsmall] at h; cases h
          · rw [if_neg hneg] at h
            by_cases hov : 2147483648 ≤ 3 * length
            · rw [if_pos hov] at h; cases h
            · rw [if_neg hov] at h
              cases hbv : load_map_border_vertices vertices length input3 with
              | assert_failed => simp [hbv, outcome.bind] at h
              | undefined => simp [hbv, outcome.bind] at h
              | done bv =>
                simp only [hbv, outcome.bind] at h
                cases hr : load_map_borders chain vertices n bv.2 (body + 1) with
                | assert_failed => simp [hr] at h
                | undefined => simp [hr] at h
                | done r =>
                  simp only [hr, outcome.done.injEq, Prod.mk.injEq] at h
                  refine ⟨_, r.1, bv.2, ?_, ?_, h.1.symm⟩
                  · rfl
                  · rw [hr, ← h.2]

theorem load_map_borders_bodies (chain : List b2Vec2 → b2Shape) (vertices : List ℚ)
    (n : Nat) (input : List Nat) (body : Nat) (bs : List walkmap_border) (rest : List Nat)
    (h : load_map_borders chain vertices n input body = outcome.done (bs, rest)) :
    bs.map (fun x => x.co.body) = List.range' body n := by
  induction n generalizing input body bs with
  | zero =>
    simp only [load_map_borders, outcome.done.injEq, Prod.mk.injEq] at h
    rw [← h.1]
    rfl
  | succ n ih =>
    obtain ⟨b0, bs1, input1, hb0, hrec, hbs⟩ :=
      load_map_borders_succ chain vertices n input body bs rest h
    rw [hbs, List.map_cons, ih _ _ _ hrec, hb0]
    rfl

/-- The walkmap that a completed `load_map` returns, from the triangles and borders that
its two loops built. -/
theorem load_map_done_world (polygon chain : List b2Vec2 → b2Shape) (float_of_bits : Nat → ℚ)
    (w w1 : walkmap) (file : List Nat)
    (h : load_map polygon chain float_of_bits w file = outcome.done w1) :
    ∃ ts bs,
      ts.map (fun t => t.co.body) = List.range' w.next_body ts.length ∧
      bs.map (fun x => x.co.body) = List.range' (w.next_body + ts.length) bs.length ∧
      w1 = { w with
        triangles := ts
        borders := bs
        walkmap_triangle_lookup := (ts.map triangle_body).reverse ++ w.walkmap_triangle_lookup
        collision := (bs.map (fun b => collision_body.border b.co)).reverse ++ w.collision
        next_body := w.next_body + ts.length + bs.length } := by
  unfold load_map at h
  cases h1 : fread_uint 4 file with
  | none => simp [h1] at h
  | some p1 =>
    obtain ⟨version, input1⟩ := p1
    cases h2 : fread_uint 4 input1 with
    | none => simp [h1, h2] at h
    | some p2 =>
      obtain ⟨vertex_count, input2⟩ := p2
      cases h3 : fread_uint 4 input2 with
      | none => simp [h1, h2, h3] at h
      | some p3 =>
        obtain ⟨triangle_count, input3⟩ := p3
        cases h4 : fread_uint 4 input3 with
        | none => simp [h1, h2, h3, h4] at h
        | some p4 =>
          obtain ⟨border_count, input4⟩ := p4
          cases h5 : fread_floats float_of_bits ((3 * vertex_count) % 4294967296) input4 with
          | none => simp [h1, h2, h3, h4, h5] at h
          | some p5 =>
            obtain ⟨vertices, input5⟩ := p5
            simp only [h1, h2, h3, h4, h5] at h
            cases ht : load_map_triangles polygon vertices triangle_count input5 w.next_body with
            | assert_failed => simp [ht, outcome.bind] at h
            | undefined => simp [ht, outcome.bind] at h
            | done tr =>
              obtain ⟨ts, rest⟩ := tr
              simp only [ht, outcome.bind] at h
              cases hb : load_map_borders chain vertices border_count rest
                  (w.next_body + triangle_count) with
              | assert_failed => simp [hb] at h
              | undefined => simp [hb] at h
              | done br =>
                obtain ⟨bs, rest2⟩ := br
                simp only [hb, outcome.done.injEq] at h
                have hids := load_map_triangles_bodies polygon vertices _ _ _ ts rest ht
                have hbids := load_map_borders_bodies chain vertices _ _ _ bs rest2 hb
                have hlen : ts.length = triangle_count := by
                  have := congrArg List.length hids
                  rw [List.length_map, List.length_range'] at this
                  exact this
                have hblen : bs.length = border_count := by
                  have := congrArg List.length hbids
                  rw [List.length_map, List.length_range'] at this
                  exact this
                refine ⟨ts, bs, ?_, ?_, ?_⟩
                · rw [hlen]; exact hids
                · rw [hlen, hblen]; exact hbids
                · rw [hlen, hblen, ← h]

theorem walkmap_create_bodies_ok (polygon chain : List b2Vec2 → b2Shape)
    (float_of_bits : Nat → ℚ) (file : List Nat) (w1 : walkmap)
    (h : walkmap_create polygon chain float_of_bits file = outcome.done w1) :
    w1.bodies_ok ∧ w1.actors = [] := by
  obtain ⟨ts, bs, hts, hbs, rfl⟩ := load_map_done_world polygon chain float_of_bits _ w1 file h
  simp only [List.append_nil, Nat.zero_add] at hts hbs ⊢
  have hborder : ∀ b ∈ (bs.map (fun b => collision_body.border b.co)).reverse,
      ∃ x ∈ bs, b = collision_body.border x.co := by
    intro b hb
    rw [List.mem_reverse] at hb
    obtain ⟨x, hx, rfl⟩ := List.mem_map.1 hb
    exact ⟨x, hx, rfl⟩
  refine ⟨⟨?_, ?_, ?_, ?_, ?_, ?_, ?_, ?_, ?_, ?_, ?_⟩, ?_⟩
  · intro b hb
    obtain ⟨x, hx, rfl⟩ := hborder b hb
    constructor
    · intro _
      exact List.mem_map_of_mem (fun x => x.co.body) hx
    · intro _
      rfl
  · intro x hx
    refine ⟨collision_body.border x.co, ?_, rfl⟩
    rw [List.mem_reverse]
    exact List.mem_map_of_mem (fun b => collision_body.border b.co) hx
  · intro f hf
    rw [List.mem_reverse] at hf
    obtain ⟨t, ht, rfl⟩ := List.mem_map.1 hf
    exact List.mem_map_of_mem (fun t => t.co.body) ht
  · intro t ht
    refine ⟨triangle_body t, ?_, rfl⟩
    rw [List.mem_reverse]
    exact List.mem_map_of_mem triangle_body ht
  · intro f hf
    cases hf
  · intro tr htr
    cases htr
  · show (bs.map (fun x => x.co.body)).Nodup
    rw [hbs]
    exact List.nodup_range' _ _
  · show (ts.map (fun t => t.co.body)).Nodup
    rw [hts]
    exact List.nodup_range' _ _
  · exact List.nodup_nil
  · intro x hx
    have hmem : x.co.body ∈ bs.map (fun x => x.co.body) :=
      List.mem_map_of_mem (fun x => x.co.body) hx
    rw [hbs, List.mem_range'_1] at hmem
    show x.co.body < ts.length + bs.length
    omega
  · intro tr htr
    cases htr
  · apply (actors_of_eq_nil _).2
    intro b hb
    obtain ⟨x, hx, rfl⟩ := hborder b hb
    rfl

theorem walkmap_register_trigger_region_ok (polygon : List b2Vec2 → b2Shape) (w w1 : walkmap)
    (hok : w.bodies_ok) (pos : vec3) (vertices : List b2Vec2) (callback : Int)
    (h : walkmap_register_trigger_region polygon w pos vertices callback = some w1) :
    w1.bodies_ok ∧ w1.actors = w.actors := by
  unfold walkmap_register_trigger_region at h
  split at h
  · cases h
  · rename_i wt hwt
    simp only [Option.some.injEq] at h
    obtain ⟨h1, h2, h3, h4, h5, h6, h7, h8, h9, h10, h11⟩ := hok
    rw [← h]
    refine ⟨⟨h1, h2, h3, h4, ?_, ?_, h7, h8, ?_, ?_, ?_⟩, rfl⟩
    · intro f hf
      show f.fixture.body ∈ (w.triggers ++ [_]).map (fun (tr : trigger_region) => tr.co.body)
      rw [List.map_append, List.mem_append]
      rcases List.mem_cons.1 hf with rfl | hf
      · right; simp
      · left; exact h5 f hf
    · intro tr htr
      rcases List.mem_append.1 htr with htr | htr
      · obtain ⟨f, hf, hid⟩ := h6 tr htr
        exact ⟨f, List.mem_cons_of_mem _ hf, hid⟩
      · rw [List.mem_singleton.1 htr]
        exact ⟨_, List.mem_cons_self _ _, rfl⟩
    · show ((w.triggers ++ [_]).map (fun (tr : trigger_region) => tr.co.body)).Nodup
      rw [List.map_append, List.nodup_append]
      refine ⟨h9, by simp, ?_⟩
      intro x hx1 hx2
      obtain ⟨tr, htr, rfl⟩ := List.mem_map.1 hx1
      have hlt := h11 tr htr
      have heq : tr.co.body = w.next_body := by simpa [collision_object_set_position] using hx2
      omega
    · intro x hx
      exact Nat.lt_succ_of_lt (h10 x hx)
    · intro tr htr
      rcases List.mem_append.1 htr with htr | htr
      · exact Nat.lt_succ_of_lt (h11 tr htr)
      · rw [List.mem_singleton.1 htr]
        exact Nat.lt_succ_self _

/-! ## Destroying a walkmap -/

/-- C13: on a walkmap whose worlds hold the bodies it knows, `walkmap_destroy` returns when
no actor body is left in the `collision` world, and it fails the body count assertion of
the `collision` world when an actor body is left.  Unregistering an actor removes its
body and nothing else; after registering an actor the destruction fails, and when that
actor is the only one, unregistering it again makes the destruction return.  Registering a
trigger region adds no actor body, so the destruction still returns afterwards, and every
walkmap that `walkmap_create` returns holds exactly its own bodies and no actor. -/
theorem walkmap_destroy_body_count (w : walkmap) (hok : w.bodies_ok) :
    (w.actors = [] → walkmap_destroy w = outcome.done ()) ∧
    (w.actors ≠ [] → walkmap_destroy_collision w = outcome.assert_failed ∧
      walkmap_destroy w = outcome.assert_failed) ∧
    (∀ ad ∈ w.actors, ∃ w1, walkmap_unregister_actor w ad = outcome.done w1 ∧ w1.bodies_ok ∧
      ∀ x, x ∈ w1.actors ↔ (x ∈ w.actors ∧ x.co.body ≠ ad.co.body)) ∧
    (∀ circle a pos radius w1 ad,
      walkmap_register_actor circle w a pos radius = some (w1, ad) →
      w1.actors = ad :: w.actors ∧ walkmap_destroy w1 = outcome.assert_failed ∧
      (w.actors = [] → ∃ w2, walkmap_unregister_actor w1 ad = outcome.done w2 ∧
        w2.actors = [] ∧ walkmap_destroy w2 = outcome.done ())) ∧
    (∀ polygon pos vertices callback w1,
      walkmap_register_trigger_region polygon w pos vertices callback = some w1 →
      w1.bodies_ok ∧ w1.actors = w.actors ∧
      (w.actors = [] → walkmap_destroy w1 = outcome.done ())) ∧
    (∀ polygon chain float_of_bits file w0,
      walkmap_create polygon chain float_of_bits file = outcome.done w0 →
      w0.bodies_ok ∧ w0.actors = [] ∧ walkmap_destroy w0 = outcome.done ()) := by
  have hdone : ∀ w : walkmap, w.bodies_ok → w.actors = [] →
      walkmap_destroy w = outcome.done () := by
    intro w hok hact
    unfold walkmap_destroy
    rw [(walkmap_destroy_collision_eq w hok).1 hact, walkmap_destroy_lookup_eq w hok,
      walkmap_destroy_triggers_eq w hok]
    rfl
  have hfail : ∀ w : walkmap, w.bodies_ok → w.actors ≠ [] →
      walkmap_destroy w = outcome.assert_failed := by
    intro w hok hact
    unfold walkmap_destroy
    rw [(walkmap_destroy_collision_eq w hok).2 hact]
    rfl
  refine ⟨hdone w hok, fun hact => ⟨(walkmap_destroy_collision_eq w hok).2 hact,
    hfail w hok hact⟩, fun ad had => walkmap_unregister_actor_ok w hok ad had, ?_, ?_, ?_⟩
  rotate_left
  · intro polygon pos vertices callback w1 hreg
    obtain ⟨hok1, hact1⟩ :=
      walkmap_register_trigger_region_ok polygon w w1 hok pos vertices callback hreg
    exact ⟨hok1, hact1, fun hact => hdone w1 hok1 (by rw [hact1]; exact hact)⟩
  · intro polygon chain float_of_bits file w0 hcreate
    obtain ⟨hok0, hact0⟩ := walkmap_create_bodies_ok polygon chain float_of_bits file w0 hcreate
    exact ⟨hok0, hact0, hdone w0 hok0 hact0⟩
  intro circle a pos radius w1 ad hreg
  obtain ⟨hok1, hact1, -⟩ := walkmap_register_actor_ok circle w w1 hok a pos radius ad hreg
  refine ⟨hact1, hfail w1 hok1 (by rw [hact1]; exact List.cons_ne_nil _ _), ?_⟩
  intro hact
  obtain ⟨w2, hun, hok2, hmem⟩ := walkmap_unregister_actor_ok w1 hok1 ad
    (by rw [hact1]; exact List.mem_cons_self _ _)
  have hnil : w2.actors = [] := by
    apply List.eq_nil_iff_forall_not_mem.2
    intro x hx
    obtain ⟨hx1, hx2⟩ := (hmem x).1 hx
    rw [hact1, hact] at hx1
    rw [List.mem_singleton.1 hx1] at hx2
    exact hx2 rfl
  exact ⟨w2, hun, hnil, hdone w2 hok2 hnil⟩

theorem loaded_walkmap_bodies_ok : loaded_walkmap.bodies_ok := by
  refine ⟨?_, ?_, ?_, ?_, ?_, ?_, ?_, ?_, ?_, ?_, by simp [loaded_walkmap]⟩
  · intro b hb
    have : b = collision_body.border example_border.co := by simpa [loaded_walkmap] using hb
    subst this
    constructor
    · intro _; simp [loaded_walkmap, collision_body.body, collision_body.co]
    · intro _; rfl
  · intro x hx
    have : x = example_border := by simpa [loaded_walkmap] using hx
    subst this
    exact ⟨collision_body.border example_border.co, by simp [loaded_walkmap], rfl⟩
  · intro f hf
    have : f = triangle_body floor_triangle_1 := by simpa [loaded_walkmap] using hf
    subst this
    simp [loaded_walkmap, triangle_body]
  · intro t ht
    have : t = floor_triangle_1 := by simpa [loaded_walkmap] using ht
    subst this
    exact ⟨triangle_body floor_triangle_1, by simp [loaded_walkmap], rfl⟩
  · intro f hf
    simp [loaded_walkmap] at hf
  · intro tr htr
    simp [loaded_walkmap] at htr
  · simp [loaded_walkmap]
  · simp [loaded_walkmap]
  · simp [loaded_walkmap]
  · intro x hx
    have : x = example_border := by simpa [loaded_walkmap] using hx
    subst this
    with_unfolding_all decide

/-- An instance of the preceding theorem: the loaded walkmap of the example is destroyed
without failure; with an actor registered at (1, 1) the destruction fails its assertion. -/
theorem walkmap_destroy_body_count_witness :
    loaded_walkmap.bodies_ok ∧ loaded_walkmap.actors = [] ∧
    walkmap_destroy loaded_walkmap = outcome.done () ∧
    ∃ w1 ad, walkmap_register_actor exact_circle loaded_walkmap 7 ⟨1, 1, 0⟩ (1 / 2) =
        some (w1, ad) ∧
      walkmap_destroy w1 = outcome.assert_failed ∧
      ∃ w2, walkmap_unregister_actor w1 ad = outcome.done w2 ∧
        walkmap_destroy w2 = outcome.done () := by
  have hthm := walkmap_destroy_body_count loaded_walkmap loaded_walkmap_bodies_ok
  have hs : (walkmap_register_actor exact_circle loaded_walkmap 7 ⟨1, 1, 0⟩ (1 / 2)).isSome
      = true := by with_unfolding_all decide
  obtain ⟨⟨w1, ad⟩, h⟩ := Option.isSome_iff_exists.1 hs
  obtain ⟨-, hfail, hun⟩ := hthm.2.2.2.1 exact_circle 7 ⟨1, 1, 0⟩ (1 / 2) w1 ad h
  obtain ⟨w2, hw2, -, hdone⟩ := hun rfl
  exact ⟨loaded_walkmap_bodies_ok, rfl, hthm.1 rfl, w1, ad, h, hfail, w2, hw2, hdone⟩

/-! ## How a call ends -/

theorem outcome_bind_done {α β : Type} (r : outcome α) (f : α → outcome β) (b : β)
    (h : r.bind f = outcome.done b) : ∃ a, r = outcome.done a ∧ f a = outcome.done b := by
  cases r with
  | done a => exact ⟨a, rfl, h⟩
  | assert_failed => cases h
  | undefined => cases h

theorem outcome_isUndefined {α : Type} (r : outcome α) (h : r.isUndefined = true) :
    r = outcome.undefined := by
  cases r with
  | done a => cases h
  | assert_failed => cases h
  | undefined => rfl

theorem outcome_isAssertFailed {α : Type} (r : outcome α) (h : r.isAssertFailed = true) :
    r = outcome.assert_failed := by
  cases r with
  | done a => cases h
  | assert_failed => rfl
  | undefined => cases h

/-! ## Scaling a matrix -/

/-- The entries of a matrix given by its sixteen floats. -/
theorem mtx_entries (a0 a1 a2 a3 a4 a5 a6 a7 a8 a9 a10 a11 a12 a13 a14 a15 : ℚ) :
    (![a0, a1, a2, a3, a4, a5, a6, a7, a8, a9, a10, a11, a12, a13, a14, a15] : mtx) 0 = a0 ∧
    (![a0, a1, a2, a3, a4, a5, a6, a7, a8, a9, a10, a11, a12, a13, a14, a15] : mtx) 1 = a1 ∧
    (![a0, a1, a2, a3, a4, a5, a6, a7, a8, a9, a10, a11, a12, a13, a14, a15] : mtx) 2 = a2 ∧
    (![a0, a1, a2, a3, a4, a5, a6, a7, a8, a9, a10, a11, a12, a13, a14, a15] : mtx) 3 = a3 ∧
    (![a0, a1, a2, a3, a4, a5, a6, a7, a8, a9, a10, a11, a12, a13, a14, a15] : mtx) 4 = a4 ∧
    (![a0, a1, a2, a3, a4, a5, a6, a7, a8, a9, a10, a11, a12, a13, a14, a15] : mtx) 5 = a5 ∧
    (![a0, a1, a2, a3, a4, a5, a6, a7, a8, a9, a10, a11, a12, a13, a14, a15] : mtx) 6 = a6 ∧
    (![a0, a1, a2, a3, a4, a5, a6, a7, a8, a9, a10, a11, a12, a13, a14, a15] : mtx) 7 = a7 ∧
    (![a0, a1, a2, a3, a4, a5, a6, a7, a8, a9, a10, a11, a12, a13, a14, a15] : mtx) 8 = a8 ∧
    (![a0, a1, a2, a3, a4, a5, a6, a7, a8, a9, a10, a11, a12, a13, a14, a15] : mtx) 9 = a9 ∧
    (![a0, a1, a2, a3, a4, a5, a6, a7, a8, a9, a10, a11, a12, a13, a14, a15] : mtx) 10 = a10 ∧
    (![a0, a1, a2, a3, a4, a5, a6, a7, a8, a9, a10, a11, a12, a13, a14, a15] : mtx) 11 = a11 ∧
    (![a0, a1, a2, a3, a4, a5, a6, a7, a8, a9, a10, a11, a12, a13, a14, a15] : mtx) 12 = a12 ∧
    (![a0, a1, a2, a3, a4, a5, a6, a7, a8, a9, a10, a11, a12, a13, a14, a15] : mtx) 13 = a13 ∧
    (![a0, a1, a2, a3, a4, a5, a6, a7, a8, a9, a10, a11, a12, a13, a14, a15] : mtx) 14 = a14 ∧
    (![a0, a1, a2, a3, a4, a5, a6, a7, a8, a9, a10, a11, a12, a13, a14, a15] : mtx) 15 = a15 :=
  ⟨rfl, rfl, rfl, rfl, rfl, rfl, rfl, rfl, rfl, rfl, rfl, rfl, rfl, rfl, rfl, rfl⟩

/-- C21, evaluated: `mtxScaleApply` agrees with `mtxMultiply` by the diagonal matrix of
its comment in fifteen entries, but its last line multiplies entry 11 by `xScale` where
the product has `zScale`.  The two agree everywhere exactly when entry 11 is zero or the
x and z scales are equal; on a perspective matrix scaled by (2, 1, 3) entry 11 becomes
-2 instead of -3. -/
theorem mtxScaleApply_entry_11 :
    (∀ (m : mtx) (x y z : ℚ) (i : Fin 16), i ≠ 11 →
      mtxScaleApply m x y z i = mtxMultiply m (scale_matrix x y z) i) ∧
    (∀ (m : mtx) (x y z : ℚ), mtxScaleApply m x y z 11 = m 11 * x ∧
      mtxMultiply m (scale_matrix x y z) 11 = m 11 * z) ∧
    (∀ (m : mtx) (x y z : ℚ),
      mtxScaleApply m x y z = mtxMultiply m (scale_matrix x y z) ↔ (m 11 = 0 ∨ x = z)) ∧
    mtxScaleApply example_perspective 2 1 3 11 = -2 ∧
    mtxMultiply example_perspective (scale_matrix 2 1 3) 11 = -3 := by
  have hne : ∀ (m : mtx) (x y z : ℚ) (i : Fin 16), i ≠ 11 →
      mtxScaleApply m x y z i = mtxMultiply m (scale_matrix x y z) i := by
    intro m x y z i hi
    fin_cases i <;>
      first
      | exact absurd rfl hi
      | simp [mtxScaleApply, mtx_scale_entry, mtxMultiply, scale_matrix, Function.update,
          mtx_entries]
  have h11 : ∀ (m : mtx) (x y z : ℚ), mtxScaleApply m x y z 11 = m 11 * x ∧
      mtxMultiply m (scale_matrix x y z) 11 = m 11 * z := by
    intro m x y z
    constructor
    · simp [mtxScaleApply, mtx_scale_entry, Function.update]
    · simp [mtxMultiply, scale_matrix, mtx_entries]
  refine ⟨hne, h11, ?_, ?_, ?_⟩
  · intro m x y z
    constructor
    · intro h
      have h1 := congrFun h 11
      rw [(h11 m x y z).1, (h11 m x y z).2] at h1
      by_cases hm : m 11 = 0
      · exact Or.inl hm
      · exact Or.inr (mul_left_cancel₀ hm h1)
    · intro h
      funext i
      by_cases hi : i = 11
      · rw [hi, (h11 m x y z).1, (h11 m x y z).2]
        rcases h with h | h
        · rw [h, zero_mul, zero_mul]
        · rw [h]
      · exact hne m x y z i hi
  · rw [(h11 _ _ _ _).1]
    norm_num [example_perspective, mtx_entries]
  · rw [(h11 _ _ _ _).2]
    norm_num [example_perspective, mtx_entries]

/-! ## Heap objects -/

theorem heap_read_lt {α : Type} (h : heap α) (p : Nat) (v : α) (hr : h.read p = some v) :
    p < h.length := by
  unfold heap.read at hr
  by_contra hlt
  rw [List.get?_eq_none.2 (not_lt.1 hlt)] at hr
  cases hr

theorem heap_read_write {α : Type} (h : heap α) (p q : Nat) (v : α) :
    (h.write p v).read q = if q = p ∧ p < h.length then some v else h.read q := by
  unfold heap.read heap.write
  by_cases hq : q = p
  · subst hq
    by_cases hl : q < h.length
    · rw [if_pos ⟨rfl, hl⟩]
      simp [List.getElem?_set, hl]
    · rw [if_neg (fun hh => hl hh.2)]
      simp [List.getElem?_set, hl, List.getElem?_eq_none (not_lt.1 hl)]
  · rw [if_neg (fun hh => hq hh.1)]
    simp [List.getElem?_set, Ne.symm hq]

theorem heap_read_free {α : Type} (h : heap α) (p q : Nat) :
    (h.free p).read q = if q = p then none else h.read q := by
  unfold heap.read heap.free
  by_cases hq : q = p
  · subst hq
    rw [if_pos rfl]
    by_cases hl : q < h.length
    · simp [List.getElem?_set, hl]
    · simp [List.getElem?_set, hl]
  · rw [if_neg hq]
    simp [List.getElem?_set, Ne.symm hq]

theorem heap_read_alloc {α : Type} (h : heap α) (q : Nat) (v : α) :
    (h.alloc v).1.read q = if q = h.length then some v else h.read q := by
  unfold heap.read heap.alloc
  by_cases hq : q = h.length
  · subst hq
    rw [if_pos rfl]
    simp
  · rw [if_neg hq]
    by_cases hl : q < h.length
    · simp [List.getElem?_append_left, hl]
    · have hlt : h.length < q := by omega
      rw [List.get?_eq_none.2 (by simp; omega), List.get?_eq_none.2 (by omega)]

/-! ## The texture list of the engine -/

theorem texture_set_next_textures (e e1 : engine) (v p : Option Nat)
    (h : texture_set_next e v p = outcome.done e1) : e1.textures = e.textures := by
  cases p with
  | none =>
    simp only [texture_set_next, outcome.done.injEq] at h
    rw [← h]
  | some p =>
    simp only [texture_set_next] at h
    split at h
    · cases h
    · simp only [outcome.done.injEq] at h
      rw [← h]

theorem texture_set_prev_textures (e e1 : engine) (v q : Option Nat)
    (h : texture_set_prev e v q = outcome.done e1) : e1.textures = e.textures := by
  cases q with
  | none =>
    simp only [texture_set_prev, outcome.done.injEq] at h
    rw [← h]
  | some q =>
    simp only [texture_set_prev] at h
    split at h
    · cases h
    · simp only [outcome.done.injEq] at h
      rw [← h]

theorem engine_release_texture_unlink_textures (e e1 : engine) (a : Nat)
    (tl : texture_instance_list) (h : engine_release_texture_unlink e a tl = outcome.done e1) :
    e1.textures = e.textures := by
  unfold engine_release_texture_unlink at h
  obtain ⟨e2, h2, h⟩ := outcome_bind_done _ _ _ h
  obtain ⟨e3, h3, h⟩ := outcome_bind_done _ _ _ h
  simp only [outcome.done.injEq] at h
  rw [← h]
  show e3.textures = e.textures
  rw [texture_set_prev_textures _ _ _ _ h3, texture_set_next_textures _ _ _ _ h2]

theorem engine_release_texture_loop_textures (e e1 : engine) (t : texture) (fuel : Nat)
    (p : Option Nat) (h : engine_release_texture_loop e t fuel p = outcome.done e1) :
    e1.textures = e.textures := by
  induction fuel generalizing p with
  | zero => cases p <;> cases h
  | succ fuel ih =>
    cases p with
    | none => cases h
    | some a =>
      unfold engine_release_texture_loop at h
      cases hr : heap.read e.nodes a with
      | none => simp [hr] at h
      | some tl =>
        simp only [hr] at h
        by_cases ht : tl.texture.addr = t.addr
        · rw [if_pos ht] at h
          split at h
          · simp only [outcome.done.injEq] at h
            rw [← h]
          · exact (engine_release_texture_unlink_textures _ _ _ _ h).trans rfl
        · rw [if_neg ht] at h
          exact ih _ h

theorem engine_retain_texture_search_end (e : engine) (path : List Nat) (fuel : Nat)
    (s end_ : texture_slot)
    (h : engine_retain_texture_search e path fuel s = outcome.done (Sum.inr end_)) :
    e.read_slot end_ = outcome.done none := by
  induction fuel generalizing s with
  | zero => cases h
  | succ fuel ih =>
    unfold engine_retain_texture_search at h
    cases hs : e.read_slot s with
    | assert_failed => simp [hs] at h
    | undefined => simp [hs] at h
    | done p =>
      cases p with
      | none =>
        simp only [hs, outcome.done.injEq, Sum.inr.injEq] at h
        rw [← h]; exact hs
      | some a =>
        simp only [hs] at h
        cases hr : heap.read e.nodes a with
        | none => simp [hr] at h
        | some n =>
          simp only [hr] at h
          by_cases hp : texture_has_path n.texture path = true
          · rw [if_pos hp] at h; cases h
          · rw [if_neg hp] at h
            exact ih _ h

theorem engine_retain_texture_prev_null (texture_create : List Nat → Bool) (e e1 : engine)
    (path : List Nat) (t : texture) (hp : e.prev_null)
    (h : engine_retain_texture texture_create e path = outcome.done (e1, t)) :
    e1.prev_null := by
  unfold engine_retain_texture at h
  cases hs : engine_retain_texture_search e path (e.nodes.length + 1) texture_slot.head with
  | assert_failed => simp [hs] at h
  | undefined => simp [hs] at h
  | done r =>
    cases r with
    | inl a =>
      simp only [hs] at h
      cases hr : heap.read e.nodes a with
      | none => simp [hr] at h
      | some n =>
        simp only [hr, outcome.done.injEq, Prod.mk.injEq] at h
        rw [← h.1]
        intro b m hb
        simp only [heap_read_write] at hb
        split at hb
        · rw [← Option.some.inj hb]
          exact hp a n hr
        · exact hp b m hb
    | inr end_ =>
      simp only [hs] at h
      have hend := engine_retain_texture_search_end e path _ _ end_ hs
      by_cases hc : texture_create path = true
      · rw [if_pos hc] at h
        simp only [hend] at h
        obtain ⟨e2, h2, h⟩ := outcome_bind_done _ _ _ h
        simp only [outcome.done.injEq, Prod.mk.injEq] at h
        rw [← h.1]
        have halloc : ∀ b m, heap.read (heap.alloc e.nodes
            { texture := { addr := e.texture_count, path := path }, refcount := 1,
              prev := none, next := none }).1 b = some m → m.prev = none := by
          intro b m hb
          rw [heap_read_alloc] at hb
          split at hb
          · rw [← Option.some.inj hb]
          · exact hp b m hb
        cases end_ with
        | head =>
          simp only [engine.write_slot, outcome.done.injEq] at h2
          rw [← h2]
          exact halloc
        | next_of c =>
          simp only [engine.write_slot] at h2
          split at h2
          · cases h2
          · rename_i n hn
            simp only [outcome.done.injEq] at h2
            rw [← h2]
            intro b m hb
            simp only [heap_read_write] at hb
            split at hb
            · rw [← Option.some.inj hb]
              exact halloc c n hn
            · exact halloc b m hb
      · rw [if_neg hc] at h; cases h

theorem texture_set_prev_none (e e1 : engine) (q : Option Nat) (hp : e.prev_null)
    (h : texture_set_prev e none q = outcome.done e1) :
    e1.prev_null ∧ e1.destroy_tasks = e.destroy_tasks ∧
      ∀ b n, e1.nodes.read b = some n → ∃ n0, e.nodes.read b = some n0 ∧ n0.next = n.next := by
  cases q with
  | none =>
    simp only [texture_set_prev, outcome.done.injEq] at h
    rw [← h]
    exact ⟨hp, rfl, fun b n hb => ⟨n, hb, rfl⟩⟩
  | some q =>
    simp only [texture_set_prev] at h
    split at h
    · cases h
    · rename_i qn hq
      simp only [outcome.done.injEq] at h
      rw [← h]
      refine ⟨?_, rfl, ?_⟩
      · intro b m hb
        simp only [heap_read_write] at hb
        split at hb
        · rw [← Option.some.inj hb]
        · exact hp b m hb
      · intro b m hb
        simp only [heap_read_write] at hb
        split at hb
        · rename_i hbq
          rw [← Option.some.inj hb, hbq.1]
          exact ⟨qn, hq, rfl⟩
        · exact ⟨m, hb, rfl⟩

theorem engine_release_texture_loop_next (e e1 : engine) (t : texture) (fuel : Nat)
    (p : Option Nat) (hp : e.prev_null)
    (h : engine_release_texture_loop e t fuel p = outcome.done e1) :
    e1.prev_null ∧
      ∀ b n, e1.nodes.read b = some n → ∃ n0, e.nodes.read b = some n0 ∧ n0.next = n.next := by
  induction fuel generalizing p with
  | zero => cases p <;> cases h
  | succ fuel ih =>
    cases p with
    | none => cases h
    | some a =>
      unfold engine_release_texture_loop at h
      cases hr : heap.read e.nodes a with
      | none => simp [hr] at h
      | some tl =>
        simp only [hr] at h
        have hprev : tl.prev = none := hp a tl hr
        obtain ⟨tex, rc, pv, nx⟩ := tl
        simp only [] at hprev
        subst hprev
        by_cases ht : tex.addr = t.addr
        · rw [if_pos ht] at h
          have hp1 : ∀ b m, heap.read (e.nodes.write a
              { texture := tex, refcount := (rc + 4294967296 - 1) % 4294967296, prev := none,
                next := nx }) b = some m → m.prev = none := by
            intro b m hb
            simp only [heap_read_write] at hb
            split at hb
            · rw [← Option.some.inj hb]
            · exact hp b m hb
          have hn1 : ∀ b n, heap.read (e.nodes.write a
              { texture := tex, refcount := (rc + 4294967296 - 1) % 4294967296, prev := none,
                next := nx }) b = some n →
              ∃ n0, e.nodes.read b = some n0 ∧ n0.next = n.next := by
            intro b m hb
            simp only [heap_read_write] at hb
            split at hb
            · rename_i hba
              rw [← Option.some.inj hb, hba.1]
              exact ⟨_, hr, rfl⟩
            · exact ⟨m, hb, rfl⟩
          split at h
          · simp only [outcome.done.injEq] at h
            rw [← h]
            exact ⟨hp1, hn1⟩
          · unfold engine_release_texture_unlink at h
            obtain ⟨e2, h2, h⟩ := outcome_bind_done _ _ _ h
            obtain ⟨e3, h3, h⟩ := outcome_bind_done _ _ _ h
            simp only [texture_set_next, outcome.done.injEq] at h2
            simp only [outcome.done.injEq] at h
            rw [← h2] at h3
            obtain ⟨hp3, -, hn3⟩ := texture_set_prev_none _ e3 _ (fun b m hb => hp1 b m hb) h3
            rw [← h]
            constructor
            · intro b m hb
              have hb1 : heap.read (e3.nodes.free a) b = some m := hb
              rw [heap_read_free] at hb1
              split at hb1
              · cases hb1
              · exact hp3 b m hb1
            · intro b m hb
              have hb1 : heap.read (e3.nodes.free a) b = some m := hb
              rw [heap_read_free] at hb1
              split at hb1
              · cases hb1
              · obtain ⟨n1, hn1a, hn1b⟩ := hn3 b m hb1
                obtain ⟨n0, hn0a, hn0b⟩ := hn1 b n1 hn1a
                exact ⟨n0, hn0a, hn0b.trans hn1b⟩
        · rw [if_neg ht] at h
          exact ih _ h

/-- C22, evaluated: `engine_retain_texture` stores `*end`, which is null where the search
loop ends, in the `prev` field of every node it creates, so no node ever has a
predecessor recorded; `engine_release_texture` then never changes `e->textures` nor the
`next` field of a node that stays alive.  A texture retained once and released leaves
`textures` pointing to its freed node, as does the `next` field of a predecessor; the
texture list still reaches the freed node and the next `engine_retain_texture` reads
it. -/
theorem engine_release_texture_keeps_entry :
    engine_create.prev_null ∧
    (∀ (texture_create : List Nat → Bool) (e e1 : engine) (path : List Nat) (t : texture),
      e.prev_null → engine_retain_texture texture_create e path = outcome.done (e1, t) →
      e1.prev_null) ∧
    (∀ (e e1 : engine) (t : texture), e.prev_null →
      engine_release_texture e t = outcome.done e1 →
      e1.prev_null ∧ e1.textures = e.textures ∧
      ∀ b n, e1.nodes.read b = some n → ∃ n0, e.nodes.read b = some n0 ∧ n0.next = n.next) ∧
    engine_retain_texture texture_create_ok engine_create [97] =
      outcome.done (engine_a, texture_a) ∧
    engine_release_texture engine_a texture_a = outcome.done engine_a_released ∧
    engine_a_released.texture_list = [(0, none)] ∧
    engine_retain_texture texture_create_ok engine_a_released [97] = outcome.undefined ∧
    engine_retain_texture texture_create_ok engine_a [98] =
      outcome.done (engine_a_b, texture_b) ∧
    engine_release_texture engine_a_b texture_b = outcome.done engine_a_b_released ∧
    engine_a_b_released.texture_list =
      [(0, some { texture := texture_a, refcount := 1, prev := none, next := some 1 }),
       (1, none)] ∧
    engine_retain_texture texture_create_ok engine_a_b_released [98] = outcome.undefined := by
  refine ⟨?_, ?_, ?_, rfl, rfl, rfl, rfl, rfl, rfl, rfl, rfl⟩
  · intro a n h
    cases h
  · intro texture_create e e1 path t hp h
    exact engine_retain_texture_prev_null texture_create e e1 path t hp h
  · intro e e1 t hp h
    obtain ⟨h1, h2⟩ := engine_release_texture_loop_next e e1 t _ _ hp h
    exact ⟨h1, engine_release_texture_loop_textures e e1 t _ _ h, h2⟩

/-! ## The animation frames of a model -/

theorem model_lerp_loop_next_outside (vertex_data : List ℚ) (prev_index next_index : Nat)
    (t : ℚ) (n i : Nat) (h : vertex_data.length ≤ next_index + i) :
    model_lerp_loop vertex_data prev_index next_index t (n + 1) i = outcome.undefined := by
  unfold model_lerp_loop
  rw [List.get?_eq_none.2 h]
  cases vertex_data.get? (prev_index + i) <;> rfl

theorem model_lerp_loop_inside (vertex_data : List ℚ) (prev_index next_index : Nat)
    (t : ℚ) (n i : Nat) (hp : prev_index + i + n ≤ vertex_data.length)
    (hn : next_index + i + n ≤ vertex_data.length) :
    (model_lerp_loop vertex_data prev_index next_index t n i).isDone = true := by
  induction n generalizing i with
  | zero => rfl
  | succ n ih =>
    unfold model_lerp_loop
    have h1 : prev_index + i < vertex_data.length := by omega
    have h2 : next_index + i < vertex_data.length := by omega
    rw [List.get?_eq_get h1, List.get?_eq_get h2]
    have := ih (i + 1) (by omega) (by omega)
    cases hr : model_lerp_loop vertex_data prev_index next_index t n (i + 1) with
    | done r => rfl
    | assert_failed => rw [hr] at this; cases this
    | undefined => rw [hr] at this; cases this

theorem rat_floor_toNat (x : ℚ) (pf : Nat) (h1 : (pf : ℚ) ≤ x) (h2 : x < pf + 1) :
    (Rat.floor x).toNat = pf := by
  have hle : (pf : ℤ) ≤ Rat.floor x := Rat.le_floor.2 (by exact_mod_cast h1)
  have hlt : ¬ ((pf : ℤ) + 1 ≤ Rat.floor x) := by
    intro h
    have := (@Rat.le_floor ((pf : ℤ) + 1) x).1 h
    push_cast at this
    linarith
  omega

theorem model_set_animation_frac_eq (m : model) (frac : ℚ) (pf : Nat) (h0 : 0 ≤ frac)
    (h1 : frac ≤ 1) (hvc : 3 * m.vertex_count < 2147483648)
    (hlo : (pf : ℚ) ≤ frac * ((m.frame_count : ℚ) - 1))
    (hhi : frac * ((m.frame_count : ℚ) - 1) < pf + 1)
    (hsize : pf * 3 * m.vertex_count + 3 * m.vertex_count < 18446744073709551616) :
    model_set_animation_frac m frac =
      (model_lerp_loop m.vertex_data (pf * 3 * m.vertex_count)
        (pf * 3 * m.vertex_count + 3 * m.vertex_count)
        (frac * ((m.frame_count : ℚ) - 1) - pf) (3 * m.vertex_count) 0).bind
        (fun r => outcome.done
          { m with current_animation_fraction := frac, current_vertex_data := r,
                   gl_dirty := true }) := by
  unfold model_set_animation_frac
  rw [if_neg (not_lt.2 h0), if_neg (not_lt.2 h1)]
  have hnn : ¬ frac * ((m.frame_count : ℚ) - 1) < 0 := by
    have : (0 : ℚ) ≤ pf := Nat.cast_nonneg pf
    linarith
  simp only []
  rw [if_neg hnn, if_neg (not_le.2 hvc), rat_floor_toNat _ pf hlo hhi]
  have e1 : (pf * 3 * m.vertex_count) % 18446744073709551616 = pf * 3 * m.vertex_count :=
    Nat.mod_eq_of_lt (by omega)
  rw [e1, Nat.mod_eq_of_lt hsize]

/-- C23, evaluated: `model_set_animation_frac` reads the frame behind `prev_frame`
for every vertex, also when the weight `t` of that frame is zero.  At `frac = 1`, and
for every `frac` on a model of one frame, `prev_frame` is the last frame and the first
read of the next frame is at index `3*frame_count*vertex_count`, the size of the array;
`model_create` itself makes this call with `frac = 0`.  With at least two frames and
`frac < 1` all reads are inside the array. -/
theorem model_set_animation_frac_reads_past_end :
    (∀ m : model, 1 ≤ m.frame_count → 1 ≤ m.vertex_count →
      m.vertex_data.length = 3 * m.frame_count * m.vertex_count →
      m.vertex_data.length < 18446744073709551616 →
      model_set_animation_frac m 1 = outcome.undefined) ∧
    (∀ (m : model) (frac : ℚ), m.frame_count = 1 → 1 ≤ m.vertex_count →
      m.vertex_data.length = 3 * m.frame_count * m.vertex_count →
      m.vertex_data.length < 18446744073709551616 → 0 ≤ frac → frac ≤ 1 →
      model_set_animation_frac m frac = outcome.undefined) ∧
    (∀ (m : model) (frac : ℚ), 2 ≤ m.frame_count → 3 * m.vertex_count < 2147483648 →
      m.vertex_data.length = 3 * m.frame_count * m.vertex_count →
      m.vertex_data.length < 18446744073709551616 → 0 ≤ frac → frac < 1 →
      (model_set_animation_frac m frac).isDone = true) ∧
    model_set_animation_frac single_frame_model 0 = outcome.undefined ∧
    model_set_animation_frac two_frame_model 1 = outcome.undefined ∧
    (model_set_animation_frac two_frame_model (1 / 2)).isDone = true := by
  have hlast : ∀ (m : model) (frac : ℚ), 1 ≤ m.frame_count → 1 ≤ m.vertex_count →
      m.vertex_data.length = 3 * m.frame_count * m.vertex_count →
      m.vertex_data.length < 18446744073709551616 → 0 ≤ frac → frac ≤ 1 →
      frac * ((m.frame_count : ℚ) - 1) = ((m.frame_count - 1 : Nat) : ℚ) →
      model_set_animation_frac m frac = outcome.undefined := by
    intro m frac hfc hvc hlen hfit h0 h1 hx
    by_cases hov : 2147483648 ≤ 3 * m.vertex_count
    · unfold model_set_animation_frac
      rw [if_neg (not_lt.2 h0), if_neg (not_lt.2 h1)]
      simp only []
      rw [hx, if_neg (not_lt.2 (Nat.cast_nonneg _)), if_pos hov]
    · have hmul : (m.frame_count - 1) * 3 * m.vertex_count + 3 * m.vertex_count =
          3 * m.frame_count * m.vertex_count := by
        obtain ⟨k, hk⟩ : ∃ k, m.frame_count = k + 1 := ⟨m.frame_count - 1, by omega⟩
        rw [hk, Nat.add_sub_cancel]
        ring
      rw [model_set_animation_frac_eq m frac (m.frame_count - 1) h0 h1 (by omega)
        (le_of_eq hx.symm) (by rw [hx]; exact lt_add_one _) (by omega)]
      obtain ⟨n, hn⟩ : ∃ n, 3 * m.vertex_count = n + 1 := ⟨3 * m.vertex_count - 1, by omega⟩
      rw [hn] at hmul ⊢
      rw [model_lerp_loop_next_outside _ _ _ _ n 0 (by omega)]
      rfl
  refine ⟨?_, ?_, ?_, ?_, ?_, ?_⟩
  · intro m hfc hvc hlen hfit
    refine hlast m 1 hfc hvc hlen hfit (by norm_num) (le_refl _) ?_
    rw [one_mul, Nat.cast_sub hfc, Nat.cast_one]
  · intro m frac hfc hvc hlen hfit h0 h1
    refine hlast m frac (by omega) hvc hlen hfit h0 h1 ?_
    rw [hfc]
    norm_num
  · intro m frac hfc hvc hlen hfit h0 h1
    have hx0 : 0 ≤ frac * ((m.frame_count : ℚ) - 1) := by
      apply mul_nonneg h0
      have : (2 : ℚ) ≤ m.frame_count := by exact_mod_cast hfc
      linarith
    have hx1 : frac * ((m.frame_count : ℚ) - 1) < (m.frame_count : ℚ) - 1 := by
      have : (2 : ℚ) ≤ m.frame_count := by exact_mod_cast hfc
      nlinarith
    have hfl0 : (0 : ℤ) ≤ Rat.floor (frac * ((m.frame_count : ℚ) - 1)) :=
      Rat.le_floor.2 (by exact_mod_cast hx0)
    obtain ⟨pf, hpf⟩ := Int.eq_ofNat_of_zero_le hfl0
    have hlo : (pf : ℚ) ≤ frac * ((m.frame_count : ℚ) - 1) := by
      have := (@Rat.le_floor (pf : ℤ) (frac * ((m.frame_count : ℚ) - 1))).1 (le_of_eq hpf.symm)
      exact_mod_cast this
    have hhi : frac * ((m.frame_count : ℚ) - 1) < (pf : ℚ) + 1 := by
      by_contra hcon
      have h2 : ((pf : ℤ) + 1 : ℤ) ≤ Rat.floor (frac * ((m.frame_count : ℚ) - 1)) :=
        Rat.le_floor.2 (by push_cast; exact not_lt.1 hcon)
      omega
    have hpflt : pf + 2 ≤ m.frame_count := by
      have : (pf : ℚ) < (m.frame_count : ℚ) - 1 := lt_of_le_of_lt hlo hx1
      have h3 : ((pf + 1 : Nat) : ℚ) < (m.frame_count : ℚ) := by push_cast; linarith
      have := Nat.cast_lt.1 h3
      omega
    have hbound : pf * 3 * m.vertex_count + 3 * m.vertex_count + 3 * m.vertex_count ≤
        3 * m.frame_count * m.vertex_count := by
      have := Nat.mul_le_mul_right (3 * m.vertex_count) hpflt
      calc pf * 3 * m.vertex_count + 3 * m.vertex_count + 3 * m.vertex_count
          = (pf + 2) * (3 * m.vertex_count) := by ring
        _ ≤ m.frame_count * (3 * m.vertex_count) := this
        _ = 3 * m.frame_count * m.vertex_count := by ring
    rw [model_set_animation_frac_eq m frac pf h0 (le_of_lt h1) hvc hlo hhi (by omega)]
    have hin := model_lerp_loop_inside m.vertex_data (pf * 3 * m.vertex_count)
      (pf * 3 * m.vertex_count + 3 * m.vertex_count)
      (frac * ((m.frame_count : ℚ) - 1) - pf) (3 * m.vertex_count) 0 (by omega) (by omega)
    cases hr : model_lerp_loop m.vertex_data (pf * 3 * m.vertex_count)
      (pf * 3 * m.vertex_count + 3 * m.vertex_count)
      (frac * ((m.frame_count : ℚ) - 1) - pf) (3 * m.vertex_count) 0 with
    | done r => rfl
    | assert_failed => rw [hr] at hin; cases hin
    | undefined => rw [hr] at hin; cases hin
  · exact outcome_isUndefined _ (by with_unfolding_all decide)
  · exact outcome_isUndefined _ (by with_unfolding_all decide)
  · with_unfolding_all decide

/-! ## The orientation of the faces -/

set_option maxRecDepth 100000 in
theorem index_map_file_wraps :
    (walkmap_create exact_polygon exact_polygon ieee_single
        (index_map_file [86, 85, 85, 85])).bind
      (fun w => outcome.done (w.triangles.map (fun t => (t.a, t.b, t.c)))) =
      outcome.done [(⟨1, 4, 0⟩, ⟨4, 0, 0⟩, ⟨0, 4, 0⟩)] := by
  with_unfolding_all decide

/-- C25, evaluated: `load_map` copies three floats from `&vertices[3*index]` for every
index of the file and compares no index with `vertex_count`.  An index from
`vertex_count` on whose product by 3 fits in 32 bits reads outside the vertex array: the
file with three vertices and the triangle index 3 is not rejected by an assertion, its
load is undefined, and so is the load of the file with the border index 3.  For the
index 1431655766 the product wraps to 2 and the load returns, the first vertex of the
triangle being made of the z of vertex 0 and the x and y of vertex 1. -/
theorem load_map_index_unchecked :
    (∀ (vertices : List ℚ) (vertex_count index : Nat), vertices.length = 3 * vertex_count →
      vertex_count ≤ index → 3 * index < 4294967296 → read_vertex vertices index = none) ∧
    uint_le (((index_map_file [3, 0, 0, 0]).drop 4).take 4) = 3 ∧
    uint_le [3, 0, 0, 0] = 3 ∧
    walkmap_create exact_polygon exact_polygon ieee_single (index_map_file [3, 0, 0, 0]) =
      outcome.undefined ∧
    uint_le [86, 85, 85, 85] = 1431655766 ∧
    (walkmap_create exact_polygon exact_polygon ieee_single
        (index_map_file [86, 85, 85, 85])).bind
      (fun w => outcome.done (w.triangles.map (fun t => (t.a, t.b, t.c)))) =
      outcome.done [(⟨1, 4, 0⟩, ⟨4, 0, 0⟩, ⟨0, 4, 0⟩)] ∧
    uint_le (((border_map_file [3, 0, 0, 0]).drop 4).take 4) = 3 ∧
    walkmap_create exact_polygon exact_polygon ieee_single (border_map_file [3, 0, 0, 0]) =
      outcome.undefined := by
  refine ⟨?_, by decide, by decide, ?_, rfl, ?_, by decide, ?_⟩
  · intro vertices vertex_count index hlen hge hfit
    unfold read_vertex
    simp only []
    rw [Nat.mod_eq_of_lt hfit, List.get?_eq_none.2 (by omega)]
  · exact outcome_isUndefined _ (by with_unfolding_all decide)
  · exact index_map_file_wraps
  · exact outcome_isUndefined _ (by with_unfolding_all decide)

/-! ## The tail pointer of the timeouts -/

theorem scene_write_slot_tail (s s1 : scene) (p : Option Nat) (slot : timeout_slot)
    (h : s.write_slot p slot = outcome.done s1) : s1.timeouts_tail = s.timeouts_tail := by
  cases slot with
  | head =>
    simp only [scene.write_slot, outcome.done.injEq] at h
    rw [← h]
  | next_of a =>
    simp only [scene.write_slot] at h
    split at h
    · cases h
    · simp only [outcome.done.injEq] at h
      rw [← h]

theorem scene_tick_loop_tail (ms : ℚ) (fuel : Nat) (s s1 : scene) (ptl : timeout_slot)
    (calls : List timeout_call)
    (h : scene_tick_loop ms fuel s ptl = outcome.done (s1, calls)) :
    s1.timeouts_tail = s.timeouts_tail := by
  induction fuel generalizing s s1 ptl calls with
  | zero => cases h
  | succ fuel ih =>
    unfold scene_tick_loop at h
    cases hs : s.read_slot ptl with
    | assert_failed => simp [hs] at h
    | undefined => simp [hs] at h
    | done p =>
      cases p with
      | none =>
        simp only [hs, outcome.done.injEq, Prod.mk.injEq] at h
        rw [← h.1]
      | some a =>
        simp only [hs] at h
        cases hr : heap.read s.nodes a with
        | none => simp [hr] at h
        | some tl =>
          simp only [hr] at h
          split at h
          · exact (ih _ _ _ _ h).trans rfl
          · obtain ⟨s2, h2, h⟩ := outcome_bind_done _ _ _ h
            obtain ⟨r, h3, h⟩ := outcome_bind_done _ _ _ h
            obtain ⟨r1, r2⟩ := r
            simp only [outcome.done.injEq, Prod.mk.injEq] at h
            rw [← h.1]
            exact ((ih _ _ _ _ h3).trans rfl).trans ((scene_write_slot_tail _ _ _ _ h2).trans rfl)

/-- C26, evaluated: `scene_tick` unlinks and frees the timeouts that have run and never
stores into `timeouts_tail`.  When the last node of the list has run, `timeouts_tail`
is left with the address of the `next` field of the freed node, whether the list is
empty then (one timeout of 10 ms, a tick of 20 ms) or not (timeouts of 30 ms and 10 ms,
a tick of 20 ms); the next `scene_add_timeout` stores through this pointer into the
freed node. -/
theorem scene_tick_keeps_timeouts_tail :
    (∀ (s s1 : scene) (dt : ℚ) (calls : List timeout_call),
      scene_tick s dt = outcome.done (s1, calls) → s1.timeouts_tail = s.timeouts_tail) ∧
    scene_add_timeout scene_create 1 10 = outcome.done scene_one ∧
    scene_tick scene_one (1 / 50) = outcome.done (scene_expired, [⟨1, 10⟩]) ∧
    scene_expired.timeout_list = [] ∧
    scene_expired.timeouts_tail = timeout_slot.next_of 0 ∧
    scene_expired.nodes.read 0 = none ∧
    scene_add_timeout scene_expired 2 10 = outcome.undefined ∧
    (scene_add_timeout scene_create 1 30).bind (fun s => scene_add_timeout s 2 10) =
      outcome.done scene_two ∧
    scene_tick scene_two (1 / 50) = outcome.done (scene_last_expired, [⟨2, 10⟩]) ∧
    scene_last_expired.timeout_list =
      [(0, some { ms_remaining := 10, callback := 1, next := none })] ∧
    scene_last_expired.nodes.read 1 = none ∧
    scene_add_timeout scene_last_expired 3 10 = outcome.undefined := by
  refine ⟨?_, ?_, ?_, ?_, ?_, ?_, ?_, ?_, ?_, ?_, ?_, ?_⟩
  · intro s s1 dt calls h
    exact scene_tick_loop_tail _ _ s s1 _ calls h
  all_goals with_unfolding_all decide

/-! ## Actors added to and removed from the walkmap -/

theorem loaded_walkmap_loaded : loaded_walkmap.loaded exact_polygon := by
  constructor
  · intro wt hwt
    have : wt = floor_triangle_1 := by simpa [loaded_walkmap] using hwt
    subst this
    exact ⟨0, 3, ⟨0, 0, 0⟩, ⟨4, 0, 0⟩, ⟨0, 4, 0⟩, 1, by decide, by decide, rfl⟩
  · intro f hf
    have : f = triangle_body floor_triangle_1 := by simpa [loaded_walkmap] using hf
    subst this
    exact ⟨floor_triangle_1, by simp [loaded_walkmap], rfl⟩

theorem walkmap_destroy_done (w : walkmap) (hok : w.bodies_ok) (hact : w.actors = []) :
    walkmap_destroy w = outcome.done () := by
  unfold walkmap_destroy
  rw [(walkmap_destroy_collision_eq w hok).1 hact, walkmap_destroy_lookup_eq w hok,
    walkmap_destroy_triggers_eq w hok]
  rfl

theorem bodies_ok_cons_actor (w : walkmap) (hok : w.bodies_ok) (ad : walkmap_actordata)
    (hbody : ad.co.body = w.next_body) :
    walkmap.bodies_ok { w with
      collision := collision_body.actor ad :: w.collision
      next_body := w.next_body + 1 } := by
  obtain ⟨h1, h2, h3, h4, h5, h6, h7, h8, h9, h10, h11⟩ := hok
  refine ⟨?_, ?_, h3, h4, h5, h6, h7, h8, h9, ?_,
    fun tr htr => Nat.lt_succ_of_lt (h11 tr htr)⟩
  · intro b hb
    rcases List.mem_cons.1 hb with rfl | hb
    · constructor
      · intro hu; cases hu
      · intro hin
        exfalso
        obtain ⟨x, hx, hid⟩ := List.mem_map.1 hin
        have hlt := h10 x hx
        have : x.co.body = w.next_body := by rw [hid]; exact hbody
        omega
    · exact h1 b hb
  · intro x hx
    obtain ⟨b, hb, hid⟩ := h2 x hx
    exact ⟨b, List.mem_cons_of_mem _ hb, hid⟩
  · intro x hx
    exact Nat.lt_succ_of_lt (h10 x hx)

theorem actor_add_to_walkmap_done (circle : ℚ → b2Shape) (a a1 : actor) (pos : vec3)
    (facing : ℚ) (w w1 : walkmap)
    (h : actor_add_to_walkmap circle a pos facing w = outcome.done (a1, w1)) :
    ∃ ad1, ad1.co.body = w.next_body ∧ ad1.actor = a.self ∧
      w1 = { w with
        collision := collision_body.actor ad1 :: w.collision
        next_body := w.next_body + 1 } ∧
      a1 = { a with facing := facing, walkmap_data := some w.next_body,
                    cached_position := walkmap_actor_position ad1 } := by
  unfold actor_add_to_walkmap at h
  cases hreg : walkmap_register_actor circle w a.self pos a.collision_radius with
  | none => simp [hreg] at h
  | some r =>
    obtain ⟨w0, ad⟩ := r
    simp only [hreg, outcome.done.injEq, Prod.mk.injEq] at h
    have hw0 := walkmap_register_actor_world circle w w0 a.self pos a.collision_radius ad hreg
    have hupd := walkmap_register_actor_some circle w w0 a.self pos a.collision_radius ad hreg
    obtain ⟨wt, -, hform⟩ := update_actor_data_some w _ ad true hupd
    have hbody : ad.co.body = w.next_body := by rw [hform]
    have hactor : ad.actor = a.self := by rw [hform]
    refine ⟨walkmap_set_movement_callback ad (some actor_movement_callback), hbody, hactor,
      ?_, ?_⟩
    · rw [← h.2, hw0]
      simp [store_actordata]
    · rw [← h.1, hbody]

theorem actor_add_to_walkmap_isDone (circle : ℚ → b2Shape) (polygon : List b2Vec2 → b2Shape)
    (a : actor) (pos : vec3) (facing : ℚ) (w : walkmap) (hl : w.loaded polygon)
    (hpos : on_walkmap w pos.xy) :
    ∃ r, actor_add_to_walkmap circle a pos facing w = outcome.done r := by
  have hsome := update_actor_data_isSome polygon w hl
    { actor := a.self, movement_callback := none, radius := a.collision_radius,
      position := ⟨0, 0, pos.z⟩, current_triangle := none,
      co := { collision_object_create_circle circle pos.xy a.collision_radius with
        body := w.next_body } } true hpos
  obtain ⟨ad, had⟩ := Option.isSome_iff_exists.1 hsome
  unfold actor_add_to_walkmap walkmap_register_actor
  simp only [had]
  exact ⟨_, rfl⟩

theorem actors_of_filter_body (bs : List collision_body) (p : Nat) :
    actors_of (bs.filter (fun b => collision_body.body b != p)) =
      (actors_of bs).filter (fun ad => ad.co.body != p) := by
  induction bs with
  | nil => rfl
  | cons b bs ih =>
    rw [List.filter_cons]
    cases b with
    | border co =>
      rw [actors_of_border]
      split
      · rw [actors_of_border, ih]
      · exact ih
    | actor ad =>
      rw [actors_of_actor, List.filter_cons]
      have hc : (collision_body.body (collision_body.actor ad) != p) = (ad.co.body != p) := rfl
      rw [hc]
      split
      · rw [actors_of_actor, ih]
      · exact ih

theorem actor_remove_from_walkmap_done (a : actor) (w : walkmap) (hok : w.bodies_ok) (p : Nat)
    (hdata : a.walkmap_data = some p) (hex : ∃ ad ∈ w.actors, ad.co.body = p) :
    ∃ w1, actor_remove_from_walkmap a w = outcome.done ({ a with walkmap_data := none }, w1) ∧
      w1.bodies_ok ∧ w1.actors = w.actors.filter (fun ad => ad.co.body != p) ∧
      w1.triangles = w.triangles ∧ w1.walkmap_triangle_lookup = w.walkmap_triangle_lookup := by
  unfold actor_remove_from_walkmap walkmap.actordata
  rw [hdata]
  cases hfind : w.actors.find? (fun ad => ad.co.body == p) with
  | none =>
    exfalso
    obtain ⟨ad, had, hp⟩ := hex
    have := List.find?_eq_none.1 hfind ad had
    simp [hp] at this
  | some ad =>
    have hp : ad.co.body = p := by simpa using List.find?_some hfind
    have hmem : ad ∈ w.actors := List.mem_of_find?_eq_some hfind
    obtain ⟨w1, hun, hok1, -⟩ := walkmap_unregister_actor_ok w hok ad hmem
    have hfree := collision_object_free_done collision_body.body ad.co w.collision
      ⟨_, (mem_actors_of _ _).1 hmem, rfl⟩
    have hw1 : w1 = { w with
        collision := (w.collision.filter (fun b => collision_body.body b != p)) } := by
      unfold walkmap_unregister_actor at hun
      rw [hfree, hp] at hun
      simp only [outcome.bind, outcome.done.injEq] at hun
      exact hun.symm
    refine ⟨w1, ?_, hok1, ?_, ?_, ?_⟩
    · simp only [hfind, hun, outcome.bind]
    · rw [hw1]
      exact actors_of_filter_body w.collision p
    · rw [hw1]
    · rw [hw1]

theorem countP_filter_body (l : List walkmap_actordata) (self p : Nat)
    (hcount : l.countP (fun ad => ad.actor == self) = 1)
    (hex : ∃ ad ∈ l, ad.co.body = p ∧ ad.actor = self) :
    (l.filter (fun ad => ad.co.body != p)).countP (fun ad => ad.actor == self) = 0 := by
  induction l with
  | nil => rfl
  | cons x l ih =>
    obtain ⟨ad, had, hp, hs⟩ := hex
    rw [List.countP_cons] at hcount
    by_cases hx : x.actor = self
    · have hx1 : (x.actor == self) = true := by simpa using hx
      rw [hx1, if_pos rfl] at hcount
      have hzero : l.countP (fun ad => ad.actor == self) = 0 := by omega
      have hnot : ∀ y ∈ l, ¬ y.actor = self := by
        intro y hy hys
        have := List.countP_eq_zero.1 hzero y hy
        simp [hys] at this
      have hadx : ad = x := by
        rcases List.mem_cons.1 had with h | h
        · exact h
        · exact absurd hs (hnot ad h)
      rw [List.countP_eq_zero]
      intro y hy
      obtain ⟨hy1, hy2⟩ := List.mem_filter.1 hy
      rcases List.mem_cons.1 hy1 with h | h
      · rw [h, ← hadx, hp] at hy2
        simp at hy2
      · simpa using hnot y h
    · have hx1 : (x.actor == self) = false := by simpa using hx
      rw [hx1] at hcount
      simp only [Bool.false_eq_true, if_false, Nat.add_zero] at hcount
      have hadl : ad ∈ l := by
        rcases List.mem_cons.1 had with h | h
        · rw [h] at hs; exact absurd hs hx
        · exact h
      have := ih hcount ⟨ad, hadl, hp, hs⟩
      rw [List.filter_cons]
      split
      · rw [List.countP_cons, hx1, this]
        rfl
      · exact this

theorem actor_calls_alternating_inv (circle : ℚ → b2Shape) (polygon : List b2Vec2 → b2Shape)
    (calls : List actor_call) :
    ∀ (att : Bool) (a : actor) (w : walkmap), alternating att calls = true →
      w.loaded polygon → w.bodies_ok → a.walkmap_data.isSome = att →
      actor_body_count w a = (if att then 1 else 0) →
      (∀ p, a.walkmap_data = some p → ∃ ad ∈ w.actors, ad.co.body = p ∧ ad.actor = a.self) →
      (∀ pos facing, actor_call.add pos facing ∈ calls → on_walkmap w pos.xy) →
      ∃ a1 w1, actor_calls circle calls (a, w) = outcome.done (a1, w1) ∧ w1.bodies_ok ∧
        a1.self = a.self ∧
        actor_body_count w1 a1 = (if a1.walkmap_data.isSome then 1 else 0) ∧
        (∀ p, a1.walkmap_data = some p →
          ∃ ad ∈ w1.actors, ad.co.body = p ∧ ad.actor = a1.self) ∧
        ((∀ ad ∈ w.actors, ad.actor = a.self) → ∀ ad ∈ w1.actors, ad.actor = a1.self) := by
  induction calls with
  | nil =>
    intro att a w _ _ hok hatt hcount hdata _
    refine ⟨a, w, rfl, hok, rfl, ?_, hdata, fun h => h⟩
    rw [hcount, hatt]
  | cons c cs ih =>
    intro att a w halt hl hok hatt hcount hdata hpos
    cases c with
    | add pos facing =>
      cases att with
      | true => cases halt
      | false =>
        obtain ⟨r, hr⟩ := actor_add_to_walkmap_isDone circle polygon a pos facing w hl
          (hpos pos facing (List.mem_cons_self _ _))
        obtain ⟨a2, w2⟩ := r
        obtain ⟨ad1, hbody, hactor, hw2, ha2⟩ :=
          actor_add_to_walkmap_done circle a a2 pos facing w w2 hr
        have hself : a2.self = a.self := by rw [ha2]
        have hact2 : w2.actors = ad1 :: w.actors := by rw [hw2]; rfl
        have hl2 : w2.loaded polygon := by rw [hw2]; exact hl
        have hok2 : w2.bodies_ok := by rw [hw2]; exact bodies_ok_cons_actor w hok ad1 hbody
        have hcount2 : actor_body_count w2 a2 = (if true then 1 else 0) := by
          unfold actor_body_count at hcount ⊢
          rw [hact2, List.countP_cons, hself, hcount]
          simp [hactor]
        have hdata2 : ∀ p, a2.walkmap_data = some p →
            ∃ ad ∈ w2.actors, ad.co.body = p ∧ ad.actor = a2.self := by
          intro p hp
          rw [ha2] at hp
          simp only [Option.some.injEq] at hp
          refine ⟨ad1, ?_, hbody.trans hp, hactor.trans hself.symm⟩
          rw [hact2]
          exact List.mem_cons_self _ _
        have hpos2 : ∀ pos facing, actor_call.add pos facing ∈ cs → on_walkmap w2 pos.xy := by
          intro q f hq
          have := hpos q f (List.mem_cons_of_mem _ hq)
          rw [hw2]
          exact this
        obtain ⟨a1, w1, hrun, hok1, hself1, hcount1, hdata1, hown1⟩ :=
          ih true a2 w2 halt hl2 hok2 (by rw [ha2]; rfl) hcount2 hdata2 hpos2
        refine ⟨a1, w1, ?_, hok1, hself1.trans hself, hcount1, hdata1, ?_⟩
        · show (actor_add_to_walkmap circle a pos facing w).bind _ = _
          rw [hr]
          exact hrun
        · intro hown
          apply hown1
          intro ad had
          rw [hact2] at had
          rcases List.mem_cons.1 had with h | h
          · rw [h, hactor, hself]
          · rw [hown ad h, hself]
    | remove =>
      cases att with
      | false => cases halt
      | true =>
        obtain ⟨p, hp⟩ := Option.isSome_iff_exists.1 hatt
        obtain ⟨ad, had, hadp, hads⟩ := hdata p hp
        obtain ⟨w2, hr, hok2, hact2, htri, hlook⟩ :=
          actor_remove_from_walkmap_done a w hok p hp ⟨ad, had, hadp⟩
        have hl2 : w2.loaded polygon := by
          unfold walkmap.loaded
          rw [htri, hlook]
          exact hl
        have hcount2 : actor_body_count w2 { a with walkmap_data := none } =
            (if false then 1 else 0) := by
          unfold actor_body_count at hcount ⊢
          rw [hact2]
          exact countP_filter_body w.actors a.self p hcount ⟨ad, had, hadp, hads⟩
        have hpos2 : ∀ pos facing, actor_call.add pos facing ∈ cs → on_walkmap w2 pos.xy := by
          intro q f hq
          have := hpos q f (List.mem_cons_of_mem _ hq)
          unfold on_walkmap at this ⊢
          rw [hlook]
          exact this
        obtain ⟨a1, w1, hrun, hok1, hself1, hcount1, hdata1, hown1⟩ :=
          ih false { a with walkmap_data := none } w2 halt hl2 hok2 rfl hcount2
            (fun q hq => by cases hq) hpos2
        refine ⟨a1, w1, ?_, hok1, hself1, hcount1, hdata1, ?_⟩
        · show (actor_remove_from_walkmap a w).bind _ = _
          rw [hr]
          exact hrun
        · intro hown
          apply hown1
          intro x hx
          rw [hact2] at hx
          exact hown x (List.mem_filter.1 hx).1

theorem scene_destroy_one (a : actor) (w : walkmap) (hok : w.bodies_ok)
    (hcount : actor_body_count w a = (if a.walkmap_data.isSome then 1 else 0))
    (hdata : ∀ p, a.walkmap_data = some p →
      ∃ ad ∈ w.actors, ad.co.body = p ∧ ad.actor = a.self)
    (hown : ∀ ad ∈ w.actors, ad.actor = a.self) :
    scene_destroy [a] w = outcome.done () := by
  have hempty : ∀ w1 : walkmap, w1.bodies_ok →
      w1.actors.countP (fun ad => ad.actor == a.self) = 0 →
      (∀ ad ∈ w1.actors, ad.actor = a.self) → walkmap_destroy w1 = outcome.done () := by
    intro w1 hok1 hc hall
    apply walkmap_destroy_done w1 hok1
    apply List.eq_nil_iff_forall_not_mem.2
    intro x hx
    have := List.countP_eq_zero.1 hc x hx
    simp [hall x hx] at this
  unfold scene_destroy scene_destroy_actors actor_destroy
  cases hp : a.walkmap_data with
  | none =>
    rw [hp] at hcount
    exact hempty w hok hcount hown
  | some p =>
    obtain ⟨ad, had, hadp, hads⟩ := hdata p hp
    obtain ⟨w2, hr, hok2, hact2, -, -⟩ :=
      actor_remove_from_walkmap_done a w hok p hp ⟨ad, had, hadp⟩
    rw [hp] at hcount
    simp only [hr, outcome.bind, scene_destroy_actors]
    apply hempty w2 hok2
    · rw [hact2]
      exact countP_filter_body w.actors a.self p hcount ⟨ad, had, hadp, hads⟩
    · intro x hx
      rw [hact2] at hx
      exact hown x (List.mem_filter.1 hx).1

/-- C27, as stated, fails: two calls of `actor_add_to_walkmap` without a call of
`actor_remove_from_walkmap` between them register two bodies for the actor, of which
`walkmap_data` names the second only, and `scene_destroy`, which unregisters that one,
then fails the body count assertion of `walkmap_destroy`; a call of
`actor_remove_from_walkmap` on an actor without walkmap data is undefined. -/
theorem actor_add_twice_two_bodies :
    (actor_calls exact_circle [actor_call.add ⟨1, 1, 0⟩ 0, actor_call.add ⟨1, 1, 0⟩ 0]
        (detached_actor, loaded_walkmap)).bind
      (fun s => outcome.done (actor_body_count s.2 s.1, s.1.walkmap_data)) =
      outcome.done (2, some 3) ∧
    (actor_calls exact_circle [actor_call.add ⟨1, 1, 0⟩ 0, actor_call.add ⟨1, 1, 0⟩ 0]
        (detached_actor, loaded_walkmap)).bind (fun s => scene_destroy [s.1] s.2) =
      outcome.assert_failed ∧
    (actor_remove_from_walkmap detached_actor loaded_walkmap).isUndefined = true := by
  refine ⟨?_, ?_, ?_⟩ <;> with_unfolding_all decide

/-- C27, amended: when the calls on one actor alternate, starting with
`actor_add_to_walkmap` on an actor that has no walkmap data and no body in the
`collision` world, and every position given lies on the walkmap, then every call
returns, and afterwards the number of live bodies of the actor in the `collision` world
is 1 when the actor holds walkmap data and 0 otherwise; when the walkmap had no actor
before, `scene_destroy` of the scene with this actor returns. -/
theorem actor_calls_alternating (circle : ℚ → b2Shape) (polygon : List b2Vec2 → b2Shape)
    (w : walkmap) (a : actor) (calls : List actor_call) (hl : w.loaded polygon)
    (hok : w.bodies_ok) (hnone : a.walkmap_data = none) (hcount : actor_body_count w a = 0)
    (halt : alternating false calls = true)
    (hpos : ∀ pos facing, actor_call.add pos facing ∈ calls → on_walkmap w pos.xy) :
    ∃ a1 w1, actor_calls circle calls (a, w) = outcome.done (a1, w1) ∧ w1.bodies_ok ∧
      actor_body_count w1 a1 = (if a1.walkmap_data.isSome then 1 else 0) ∧
      (w.actors = [] → scene_destroy [a1] w1 = outcome.done ()) := by
  obtain ⟨a1, w1, hrun, hok1, -, hcount1, hdata1, hown1⟩ :=
    actor_calls_alternating_inv circle polygon calls false a w halt hl hok
      (by rw [hnone]; rfl) hcount (fun p hp => by rw [hnone] at hp; cases hp) hpos
  refine ⟨a1, w1, hrun, hok1, hcount1, ?_⟩
  intro hnil
  apply scene_destroy_one a1 w1 hok1 hcount1 hdata1
  apply hown1
  intro ad had
  rw [hnil] at had
  cases had

/-- An instance of the preceding theorem: the actor is added at (1, 1) to the loaded
walkmap of the example, removed and added again. -/
theorem actor_calls_alternating_witness :
    loaded_walkmap.loaded exact_polygon ∧ loaded_walkmap.bodies_ok ∧
    detached_actor.walkmap_data = none ∧ actor_body_count loaded_walkmap detached_actor = 0 ∧
    alternating false
      [actor_call.add ⟨1, 1, 0⟩ 0, actor_call.remove, actor_call.add ⟨1, 1, 0⟩ 0] = true ∧
    on_walkmap loaded_walkmap ⟨1, 1⟩ ∧
    ∃ a1 w1, actor_calls exact_circle
        [actor_call.add ⟨1, 1, 0⟩ 0, actor_call.remove, actor_call.add ⟨1, 1, 0⟩ 0]
        (detached_actor, loaded_walkmap) = outcome.done (a1, w1) ∧ w1.bodies_ok ∧
      actor_body_count w1 a1 = (if a1.walkmap_data.isSome then 1 else 0) ∧
      (loaded_walkmap.actors = [] → scene_destroy [a1] w1 = outcome.done ()) := by
  have hon : on_walkmap loaded_walkmap ⟨1, 1⟩ :=
    ⟨triangle_body floor_triangle_1, by simp [loaded_walkmap], by with_unfolding_all decide⟩
  refine ⟨loaded_walkmap_loaded, loaded_walkmap_bodies_ok, rfl, rfl, rfl, hon,
    actor_calls_alternating exact_circle exact_polygon loaded_walkmap detached_actor _
      loaded_walkmap_loaded loaded_walkmap_bodies_ok rfl rfl rfl ?_⟩
  intro pos facing hmem
  simp only [List.mem_cons, actor_call.add.injEq, List.mem_singleton, List.not_mem_nil,
    or_false, reduceCtorEq, false_or] at hmem
  rcases hmem with ⟨rfl, -⟩ | ⟨rfl, -⟩ <;> exact hon

end SceneFlip
